import Mathlib

/-!
# DrDeasDrumMachine: sequencer and sample resolver

A shallow embedding of `src/index.js` (the `DrDeasDrumMachine` React component).

* JavaScript numbers are modelled as rationals (`ℚ`); `NaN` and the infinities are not
  represented. The interval handed to `setInterval` is rounded to a double
  (`toDouble`); the arithmetic on audio parameters is exact.
* JavaScript objects are association lists in key order (`Object.keys` order).
* Component state (`useState` / `useRef`) is an explicit record `Machine`; every event
  handler, effect and timer callback is a function `Machine → Machine` that runs to
  completion, and the state it writes is the state the next handler reads.
* Calls into the host (`setInterval`, `clearInterval`, `playSample`, `resume`, the state
  setters) are recorded, in call order, in `Machine.log`.
* A timer closure keeps its own `stepIndex`; the `audioContext` it captured is the one
  object the mount effect created, so it is read from the state.
* Property reads `obj[key]` are reads of own properties where the key is one of the 8
  instrument ids or a file name matched against them; `playSample`, whose `trackName`
  may be any key of a stored `tracks` object, reads through `Object.prototype`
  (`objLookup`).
* The host's `String.prototype.toLowerCase` and the text of a built-in function are the
  fields of a parameter `Host`.
* The `playSample` a timer calls is the one of the render that created the timer
  (`Sampler`).
* The host's `Math.pow(2, x)` is a parameter `pow2`; the calls a trigger makes on the
  audio graph are recorded as a list of `AudioOp`.
* The rendering thread advances `audioContext.currentTime`; a handler of `Machine` sees
  the value of the state, and `triggerReads` states the trigger loop for a clock that
  is read once per trigger.
* `updatePattern` merges into the document; each editing handler is modelled with the
  merged document written out. The fields `description` and `selectedPattern` are not
  part of the state.
* A document of the live query (`StoredPattern`) may lack any field; its tempo is a
  whole number of beats per minute, printed in decimal inside the filter key.
* A `playSample` call that throws inside the tick is an oracle on the track id
  (`playStepThrowing`).
-/

namespace DrumMachine

/-! ## JavaScript values -/

/-- Property read `obj[key]` on an object given as its entries in key order; `none` is
    `undefined`. -/
def objGet {α : Type} : List (String × α) → String → Option α
  | [], _ => none
  | (k, v) :: rest, key => if k = key then some v else objGet rest key

/-- Property write `obj[key] = v`: overwrite in place when the key exists, else append. -/
def objSet {α : Type} : List (String × α) → String → α → List (String × α)
  | [], key, v => [(key, v)]
  | (k, w) :: rest, key, v => if k = key then (k, v) :: rest else (k, w) :: objSet rest key v

/-- Keys of an object, `Object.keys(obj)`. -/
def objKeys {α : Type} (o : List (String × α)) : List String := o.map Prod.fst

/-- Default `x || d` for a numeric property read: `undefined` and `0` are falsy. -/
def numOr (x : Option ℚ) (d : ℚ) : ℚ :=
  match x with
  | some v => if v = 0 then d else v
  | none => d

/-- The value stored under a track id in `pattern.tracks`. -/
inductive StepsValue where
  /-- the value is `undefined`, `null` or another falsy value -/
  | falsy
  /-- a truthy value for which `Array.isArray` is false -/
  | nonArray
  /-- an array; each element is recorded by its truthiness -/
  | array (steps : List Bool)
  deriving DecidableEq, Repr

/-- The test `steps && Array.isArray(steps) && steps[stepIndex]`, as a truth value.
    Reading past the end of an array gives `undefined`, which is falsy. -/
def StepsValue.active : StepsValue → Nat → Bool
  | .array steps, stepIndex => steps.getD stepIndex false
  | _, _ => false

/-! ## Files and decoded buffers -/

/-- A decoded `AudioBuffer`. -/
structure AudioBuffer where
  duration : ℚ
  deriving DecidableEq, Repr

/-- A value stored in a `_files` object. -/
inductive FileData where
  /-- a falsy entry (`null`, `undefined`) -/
  | falsy
  /-- a truthy entry without a `file()` method -/
  | noFileMethod
  /-- an entry with a `file()` method; `decoded` is what `file()`, `arrayBuffer()` and
      `decodeAudioData` produce, `none` when one of them throws -/
  | file (decoded : Option AudioBuffer)
  deriving DecidableEq, Repr

/-! ## Pattern document -/

/-- The `currentPattern` document. Object-valued fields may be missing. -/
structure Pattern where
  name : String
  tempo : ℚ
  tracks : Option (List (String × StepsValue))
  levels : Option (List (String × ℚ))
  tune : Option (List (String × ℚ))
  decay : Option (List (String × ℚ))
  files : Option (List (String × FileData))
  /-- the document id `_id`; `none` while the document has not been stored -/
  id : Option String := none
  deriving DecidableEq, Repr

/-- The 8 instrument ids, `Object.keys(trackConfig)`. -/
def trackNames : List String :=
  ["kick", "snare", "openhat", "closedhat", "clap", "crash", "cowbell", "clave"]

/-! ## Sequencer state -/

/-- The `AudioContext` object: its `state` and its `currentTime`. -/
structure AudioContext where
  suspended : Bool
  currentTime : ℚ
  deriving DecidableEq, Repr

/-- An active host interval timer running a `playStep` closure. `stepIndex` is the
    closure's own `let stepIndex` variable. -/
structure Timer where
  id : Nat
  interval : ℚ
  stepIndex : Nat
  deriving DecidableEq, Repr

/-- Host calls and state-setter calls, in call order. -/
inductive Event where
  | resume
  | setPlaybackStep (step : Int)
  | setIsPlaying (value : Bool)
  | setInterval (id : Nat) (interval : ℚ)
  | clearInterval (id : Nat)
  | playSample (trackName : String) (time velocity tune decay : ℚ)
  /-- the `catch` branch around a trigger -/
  | caughtError (trackName : String)
  deriving DecidableEq, Repr

/-- Component state read and written by the sequencer. `sequencerRef` is
    `sequencerRef.current` (`none` for `null`); `timers` is the host's table of active
    interval timers; `currentPattern` is also `currentPatternRef.current`, which an
    effect keeps equal to it after every render. -/
structure Machine where
  isPlaying : Bool
  playbackStep : Int
  audioContext : Option AudioContext
  sequencerRef : Option Nat
  timers : List Timer
  lastTimerId : Nat
  currentPattern : Pattern
  log : List Event
  deriving DecidableEq, Repr

/-- The state after the first render: `useState(false)`, `useState(-1)`, `useRef(null)`;
    `ctx` is the audio context the mount effect creates (`none` while there is none). -/
def initial (pattern : Pattern) (ctx : Option AudioContext) : Machine :=
  { isPlaying := false, playbackStep := -1, audioContext := ctx, sequencerRef := none,
    timers := [], lastTimerId := 0, currentPattern := pattern, log := [] }

/-- Velocity `(levels[trackName] || 70) / 100` with `levels = pattern.levels || {}`. -/
def trackLevel (p : Pattern) (trackName : String) : ℚ :=
  numOr (objGet (p.levels.getD []) trackName) 70 / 100

/-- Tune value `tune[trackName] || 0` with `tune = pattern.tune || {}`. -/
def trackTune (p : Pattern) (trackName : String) : ℚ :=
  numOr (objGet (p.tune.getD []) trackName) 0

/-- Decay value `decay[trackName] || 50` with `decay = pattern.decay || {}`. -/
def trackDecay (p : Pattern) (trackName : String) : ℚ :=
  numOr (objGet (p.decay.getD []) trackName) 50

/-- The `try { playSample(trackName, audioContext.currentTime, level, tuneValue,
    decayValue) } catch` block. Reading `currentTime` of a `null` context throws and
    is caught. -/
def triggerTrack (s : Machine) (trackName : String) : Machine :=
  let level := trackLevel s.currentPattern trackName
  let tuneValue := trackTune s.currentPattern trackName
  let decayValue := trackDecay s.currentPattern trackName
  match s.audioContext with
  | some ctx =>
    { s with log := s.log ++
        [Event.playSample trackName ctx.currentTime level tuneValue decayValue] }
  | none => { s with log := s.log ++ [Event.caughtError trackName] }

/-- The `playStep` closure (the same body in `togglePlay` and in the tempo effect),
    run with the closure variable `stepIndex`; returns the new state and the new value
    of the closure variable. -/
def playStep (s : Machine) (stepIndex : Nat) : Machine × Nat :=
  let s1 := { s with playbackStep := (stepIndex : Int),
                     log := s.log ++ [Event.setPlaybackStep stepIndex] }
  let s2 :=
    match s1.currentPattern.tracks with
    | none => s1
    | some tracks =>
      tracks.foldl
        (fun st entry => if entry.2.active stepIndex then triggerTrack st entry.1 else st) s1
  (s2, (stepIndex + 1) % 16)

/-- Rounding of a rational to the nearest integer, a tie going to the even one. -/
def roundHalfEven (q : ℚ) : ℤ :=
  let f := ⌊q⌋
  if q - f < 1 / 2 then f
  else if 1 / 2 < q - f then f + 1
  else if f % 2 = 0 then f else f + 1

/-- The IEEE 754 double nearest to `x`, a tie going to the even significand: `x` is
    rounded to 53 significant bits. Overflow and subnormal numbers are not
    represented. -/
def toDouble (x : ℚ) : ℚ :=
  if x = 0 then 0
  else
    let e := Int.log 2 |x|
    (roundHalfEven (x / 2 ^ (e - 52)) : ℚ) * 2 ^ (e - 52)

/-- Step interval in milliseconds, `60000 / (currentPattern.tempo * 4)` (16th notes), as
    the double-precision product and quotient the host computes. -/
def stepInterval (tempo : ℚ) : ℚ := toDouble (60000 / toDouble (tempo * 4))

/-- The statement `sequencerRef.current = setInterval(playStep, interval)` for a closure
    whose `stepIndex` currently is `stepIndex`. The host hands out fresh non-zero ids. -/
def installTimer (s : Machine) (interval : ℚ) (stepIndex : Nat) : Machine :=
  let id := s.lastTimerId + 1
  { s with timers := s.timers ++ [{ id := id, interval := interval, stepIndex := stepIndex }],
           lastTimerId := id,
           sequencerRef := some id,
           log := s.log ++ [Event.setInterval id interval] }

/-- The host call `clearInterval(id)`. -/
def clearTimer (s : Machine) (id : Nat) : Machine :=
  { s with timers := s.timers.filter (fun t => t.id ≠ id),
           log := s.log ++ [Event.clearInterval id] }

/-- The `togglePlay` handler. -/
def togglePlay (s : Machine) : Machine :=
  match s.isPlaying, s.audioContext with
  | false, some ctx =>
    let s0 := if ctx.suspended then { s with log := s.log ++ [Event.resume] } else s
    let interval := stepInterval s0.currentPattern.tempo
    let r := playStep s0 0
    let s1 := installTimer r.1 interval r.2
    { s1 with isPlaying := true, log := s1.log ++ [Event.setIsPlaying true] }
  | _, _ =>
    let s1 :=
      match s.sequencerRef with
      | some id => { (clearTimer s id) with sequencerRef := none }
      | none => s
    { s1 with playbackStep := -1, isPlaying := false,
              log := s1.log ++ [Event.setPlaybackStep (-1), Event.setIsPlaying false] }

/-- The body of the effect with dependencies `[currentPattern.tempo, isPlaying]`.
    `playbackStep` is never below -1, so `%` is taken on a non-negative number. -/
def tempoEffect (s : Machine) : Machine :=
  match s.isPlaying, s.sequencerRef with
  | true, some id =>
    let s1 := clearTimer s id
    let interval := stepInterval s1.currentPattern.tempo
    let stepIndex := if s1.playbackStep = -1 then 0 else ((s1.playbackStep + 1) % 16).toNat
    installTimer s1 interval stepIndex
  | _, _ => s

/-- The host fires interval timer `id`: its `playStep` closure runs once. A cleared
    timer never fires. -/
def tick (s : Machine) (id : Nat) : Machine :=
  match s.timers.find? (fun t => t.id = id) with
  | none => s
  | some t =>
    let r := playStep s t.stepIndex
    let s1 := r.1
    let next := r.2
    let bump := fun (u : Timer) => if u.id = id then { u with stepIndex := next } else u
    { s1 with timers := s1.timers.map bump }

/-- A click on the play button: `togglePlay`, then the re-render runs the tempo effect
    when `isPlaying` changed. -/
def clickPlay (s : Machine) : Machine :=
  let s1 := togglePlay s
  if s1.isPlaying ≠ s.isPlaying then tempoEffect s1 else s1

/-- The call `updatePattern(doc)` replacing the pattern document, then the re-render
    runs the tempo effect when `currentPattern.tempo` changed. -/
def updatePattern (s : Machine) (p : Pattern) : Machine :=
  let s1 := { s with currentPattern := p }
  if p.tempo ≠ s.currentPattern.tempo then tempoEffect s1 else s1

/-- The tempo slider: `updatePattern({ tempo: parseInt(e.target.value) })`. -/
def setTempo (s : Machine) (tempo : ℚ) : Machine :=
  updatePattern s { s.currentPattern with tempo := tempo }

/-- The timer the sequencer currently holds fires once. -/
def tickCurrent (s : Machine) : Machine :=
  match s.sequencerRef with
  | some id => tick s id
  | none => s

/-- One click on play followed by `n` firings of the sequencer's timer. -/
def runSteps (s : Machine) : Nat → Machine
  | 0 => clickPlay s
  | n + 1 => tickCurrent (runSteps s n)

/-- Number of `playSample` calls for `trackName` in a log. -/
def countTriggers (trackName : String) (log : List Event) : Nat :=
  log.countP (fun e =>
    match e with
    | Event.playSample n _ _ _ _ => decide (n = trackName)
    | _ => false)

/-- The kick grid of "Classic Hip-Hop": true at steps 0, 6 and 9 only. -/
def kickGrid : List Bool :=
  [true, false, false, false, false, false, true, false,
   false, true, false, false, false, false, false, false]

/-- The pattern "Classic Hip-Hop" of `loadDemoPatterns` reduced to its kick track. -/
def kickOnlyPattern : Pattern :=
  { name := "Classic Hip-Hop", tempo := 90,
    tracks := some [("kick", StepsValue.array kickGrid)],
    levels := none, tune := none, decay := none, files := none }

/-- The first render with the kick-only pattern and a running audio context. -/
def kickStart : Machine :=
  initial kickOnlyPattern (some { suspended := false, currentTime := 0 })

/-- The intervals handed to `setInterval` in a log, in call order. -/
def intervalsPassed (log : List Event) : List ℚ :=
  log.filterMap (fun e =>
    match e with
    | Event.setInterval _ iv => some iv
    | _ => none)

/-- The `testSample` handler. -/
def testSample (s : Machine) (trackName : String) : Machine :=
  match s.audioContext with
  | some ctx =>
    let s0 := if ctx.suspended then { s with log := s.log ++ [Event.resume] } else s
    let level := trackLevel s0.currentPattern trackName
    let tuneValue := trackTune s0.currentPattern trackName
    let decayValue := trackDecay s0.currentPattern trackName
    { s0 with log := s0.log ++
        [Event.playSample trackName ctx.currentTime level tuneValue decayValue] }
  | none => s

/-- The first render with the kick-only pattern before any audio context exists. -/
def kickStartNoAudio : Machine := initial kickOnlyPattern none

/-- The kick-only pattern with the kick level slider at its minimum, 0. -/
def kickLevelZeroPattern : Pattern :=
  { kickOnlyPattern with levels := some [("kick", 0)] }

/-! ## Sample resolver -/

/-- The string functions of the host that the component's results depend on:
    `String.prototype.toLowerCase`, and the text `String(f)` of the built-in function
    named `name`, whose white space differs between engines. -/
structure Host where
  toLowerCase : String → String
  nativeText : String → String

/-- The test `fileName.toLowerCase().includes(trackName.toLowerCase())`. -/
def includesLower (host : Host) (fileName trackName : String) : Bool :=
  decide ((host.toLowerCase trackName).data <:+: (host.toLowerCase fileName).data)

/-- Lower-casing of the letters `A` to `Z` only: what `toLowerCase` does on a string
    of ASCII characters. -/
def asciiLower (str : String) : String := String.mk (str.data.map Char.toLower)

/-- A host for the examples, whose file names and ids are ASCII: ASCII lower-casing, and
    the text V8 gives for a built-in function. -/
def asciiHost : Host :=
  { toLowerCase := asciiLower,
    nativeText := fun name => "function " ++ name ++ "() { [native code] }" }

/-- The names of the properties every plain object inherits from `Object.prototype`. -/
def objectPrototypeKeys : List String :=
  ["constructor", "__defineGetter__", "__defineSetter__", "hasOwnProperty",
   "__lookupGetter__", "__lookupSetter__", "isPrototypeOf", "propertyIsEnumerable",
   "toString", "valueOf", "__proto__", "toLocaleString"]

/-- The result of a property read `obj[key]` on a plain object: an own value, else the
    value inherited from `Object.prototype` under `key`, else `undefined`. -/
inductive Lookup (α : Type) where
  | own (value : α)
  | inherited (key : String)
  | undefined

/-- The property read `obj[key]` with the prototype chain of a plain object. -/
def objLookup {α : Type} (o : List (String × α)) (key : String) : Lookup α :=
  match objGet o key with
  | some value => Lookup.own value
  | none => if key ∈ objectPrototypeKeys then Lookup.inherited key else Lookup.undefined

/-- The string `String(value)` of the value inherited under `key`: `Object.prototype`
    itself prints as `[object Object]`, a built-in function as its native text. -/
def inheritedText (host : Host) (key : String) : String :=
  if key = "__proto__" then "[object Object]" else host.nativeText key

/-- The object spread `{ ...a, ...b }`. -/
def objSpread {α : Type} (a b : List (String × α)) : List (String × α) :=
  b.foldl (fun o e => objSet o e.1 e.2) a

/-- The first loop of `loadAudioBuffersAndCreateMapping`: `buffers[fileName]` is set for
    each entry that has a `file()` method and decodes; the others are skipped or
    caught. -/
def loadBuffers (allFiles : List (String × FileData)) : List (String × AudioBuffer) :=
  allFiles.foldl
    (fun buffers e =>
      match e.2 with
      | FileData.file (some audioBuffer) => objSet buffers e.1 audioBuffer
      | _ => buffers) []

/-- Truthiness of a `_files[key]` read. -/
def fileTruthy : Option FileData → Bool
  | some FileData.falsy => false
  | some _ => true
  | none => false

/-- Truthiness of `assignedSample`: `null` and the empty string are falsy. -/
def strTruthy : Option String → Bool
  | some str => decide (str ≠ "")
  | none => false

/-- The loop `for (const fileName of keys) { if (fileName.toLowerCase().includes(...) &&
    buffers[fileName]) { assignedSample = fileName; break; } }` run on `assignedSample`.
    `buffers[fileName]` is read as an own property: the name of an inherited property
    contains no instrument id. -/
def scanFiles (host : Host) (buffers : List (String × AudioBuffer)) (trackName : String) :
    List String → Option String → Option String
  | [], assignedSample => assignedSample
  | fileName :: rest, assignedSample =>
    if includesLower host fileName trackName && (objGet buffers fileName).isSome then
      some fileName
    else scanFiles host buffers trackName rest assignedSample

/-- The body of the loop over `trackNames`: the value of `assignedSample` when the
    `if (assignedSample)` test is reached. -/
def assignSample (host : Host)
    (patternFiles libraryFiles : Option (List (String × FileData)))
    (buffers : List (String × AudioBuffer)) (trackName : String) : Option String :=
  if fileTruthy (patternFiles.bind (fun files => objGet files trackName)) then some trackName
  else
    let assignedSample :=
      scanFiles host buffers trackName (objKeys (patternFiles.getD [])) none
    if strTruthy assignedSample then assignedSample
    else scanFiles host buffers trackName (objKeys (libraryFiles.getD [])) assignedSample

/-- The second loop of `loadAudioBuffersAndCreateMapping`: the `mapping` object. -/
def createMapping (host : Host)
    (patternFiles libraryFiles : Option (List (String × FileData)))
    (buffers : List (String × AudioBuffer)) : List (String × String) :=
  trackNames.foldl
    (fun mapping trackName =>
      let assignedSample := assignSample host patternFiles libraryFiles buffers trackName
      match assignedSample with
      | some sample =>
        if strTruthy assignedSample then objSet mapping trackName sample else mapping
      | none => mapping) []

/-- The function `loadAudioBuffersAndCreateMapping`: `none` when it returns at
    `if (!audioContext)`, else the values handed to `setAudioBuffers` and
    `setTrackSampleMapping`. -/
def loadAudioBuffersAndCreateMapping (host : Host) (audioContext : Option AudioContext)
    (libraryFiles patternFiles : Option (List (String × FileData))) :
    Option (List (String × AudioBuffer) × List (String × String)) :=
  match audioContext with
  | none => none
  | some _ =>
    let allFiles := objSpread (libraryFiles.getD []) (patternFiles.getD [])
    let buffers := loadBuffers allFiles
    some (buffers, createMapping host patternFiles libraryFiles buffers)

/-- The binding the resolver computes for an instrument id (`none`: unbound, or no
    audio context). -/
def resolverBinding (host : Host) (audioContext : Option AudioContext)
    (libraryFiles patternFiles : Option (List (String × FileData))) (trackName : String) :
    Option String :=
  (loadAudioBuffersAndCreateMapping host audioContext libraryFiles patternFiles).bind
    (fun r => objGet r.2 trackName)

/-- Whether a file entry decodes to a buffer. -/
def FileData.decodes : FileData → Bool
  | FileData.file (some _) => true
  | _ => false

/-- Reference, from the specification: an identifier has a decoded buffer in the set
    merged from the pattern-local attachments and the global library, the pattern-local
    entry taking precedence on identifier collision; failed decodes are absent. -/
def specDecoded (patternFiles libraryFiles : List (String × FileData)) (id : String) : Bool :=
  match objGet patternFiles id with
  | some d => d.decodes
  | none =>
    match objGet libraryFiles id with
    | some d => d.decodes
    | none => false

/-- Reference, from the specification: `id` is a case-insensitive substring of `name`
    when, both in lower case, the characters of `id` are the characters of `name` from
    some position on. -/
def specContains (host : Host) (name id : String) : Bool :=
  (List.range ((host.toLowerCase name).data.length + 1)).any (fun i =>
    decide ((((host.toLowerCase name).data.drop i).take (host.toLowerCase id).data.length) =
      (host.toLowerCase id).data))

/-- Reference, from the specification: the resolution order (a) exact attachment,
    (b) first pattern-local identifier containing the id case-insensitively with a
    decoded buffer, (c) the same scan over the library, (d) unbound. -/
def specBinding (host : Host) (patternFiles libraryFiles : List (String × FileData))
    (id : String) : Option String :=
  if fileTruthy (objGet patternFiles id) then some id
  else
    match (objKeys patternFiles).find?
        (fun f => specContains host f id && specDecoded patternFiles libraryFiles f) with
    | some f => some f
    | none =>
      (objKeys libraryFiles).find?
        (fun f => specContains host f id && specDecoded patternFiles libraryFiles f)

/-- Pattern-local files: a snare sample, a kick file that fails to decode, a kick file
    that decodes. -/
def demoPatternFiles : List (String × FileData) :=
  [("snare", FileData.file (some { duration := 1 })),
   ("my_Kick.wav", FileData.file none),
   ("KICK2.wav", FileData.file (some { duration := 2 }))]

/-- A global library holding one kick sample. -/
def demoLibraryFiles : List (String × FileData) :=
  [("kick_alt.wav", FileData.file (some { duration := 3 }))]

/-- Pattern-local files with a file attached under the id `kick`. -/
def kickAttachedFiles : List (String × FileData) :=
  [("kick", FileData.file (some { duration := 1 }))]

/-- What one trigger block records: the `playSample` call, or the caught error when
    there is no audio context. -/
def triggerEvent (p : Pattern) (ctx : Option AudioContext) (trackName : String) : Event :=
  match ctx with
  | some c =>
    Event.playSample trackName c.currentTime (trackLevel p trackName) (trackTune p trackName)
      (trackDecay p trackName)
  | none => Event.caughtError trackName

/-- What one run of `playStep` at `stepIndex` records: the cursor update, then one
    trigger per active track in the key order of `tracks`. -/
def stepEvents (p : Pattern) (ctx : Option AudioContext) (stepIndex : Nat) : List Event :=
  Event.setPlaybackStep stepIndex ::
    ((p.tracks.getD []).filter (fun e => e.2.active stepIndex)).map
      (fun e => triggerEvent p ctx e.1)

/-- The events the `c`-th step of a run records: step 0 is the click on play, step
    `c + 1` is the firing of the timer after step `c`. -/
def stepLog (s : Machine) : Nat → List Event
  | 0 => (runSteps s 0).log.drop s.log.length
  | c + 1 => (runSteps s (c + 1)).log.drop (runSteps s c).log.length

/-- The shape of the sequencer state: STOPPED has no timer and the cursor sentinel;
    RUNNING has exactly one active timer, the one `sequencerRef` holds, installed with
    the interval of the current tempo, whose closure will fire the step after the
    cursor. -/
def Inv (s : Machine) : Prop :=
  (s.isPlaying = false → s.timers = [] ∧ s.sequencerRef = none ∧ s.playbackStep = -1) ∧
  (s.isPlaying = true → ∃ t : Timer, s.timers = [t] ∧ s.sequencerRef = some t.id ∧
      0 ≤ s.playbackStep ∧ s.playbackStep ≤ 15 ∧
      (t.stepIndex : Int) = (s.playbackStep + 1) % 16 ∧
      t.interval = stepInterval s.currentPattern.tempo)

/-- States the component can reach: the first render, then clicks on play, timer
    firings, pattern updates, sample tests and changes the host makes to the audio
    context. -/
inductive Reachable : Machine → Prop where
  | init (p : Pattern) (ctx : Option AudioContext) : Reachable (initial p ctx)
  | clickPlay {s : Machine} : Reachable s → Reachable (clickPlay s)
  | tick {s : Machine} (id : Nat) : Reachable s → Reachable (tick s id)
  | updatePattern {s : Machine} (p : Pattern) : Reachable s → Reachable (updatePattern s p)
  | testSample {s : Machine} (trackName : String) : Reachable s →
      Reachable (testSample s trackName)
  | audio {s : Machine} (ctx : AudioContext) : Reachable s → s.audioContext.isSome = true →
      Reachable { s with audioContext := some ctx }

/-! ## Audio graph rendering -/

/-- A node created during one trigger: the source variable it is bound to and, for a
    node created inside a `forEach`, the iteration index. -/
structure NodeRef where
  name : String
  index : Nat
  deriving DecidableEq, Repr

/-- Calls made on the audio graph during one trigger, in call order. A noise buffer is
    recorded by its length in seconds; its `Math.random` samples are not. -/
inductive AudioOp where
  | setType (node : NodeRef) (type : String)
  | setSampleBuffer (node : NodeRef) (buffer : AudioBuffer)
  | setNoiseBuffer (node : NodeRef) (seconds : ℚ)
  | setValueAtTime (node : NodeRef) (param : String) (value time : ℚ)
  | exponentialRampToValueAtTime (node : NodeRef) (param : String) (value time : ℚ)
  | connect (source target : NodeRef)
  | start (node : NodeRef) (time : ℚ)
  | stop (node : NodeRef) (time : ℚ)
  deriving DecidableEq, Repr

/-- The node bound to a variable outside any loop. -/
def node (name : String) : NodeRef := { name := name, index := 0 }

/-- The node `audioContext.destination`. -/
def destination : NodeRef := node "destination"

/-- The `const duration` of `playAudioBuffer`: `Math.max(0.1, (decay / 100) * 3)`. -/
def playAudioBufferDuration (decay : ℚ) : ℚ := max 0.1 ((decay / 100) * 3)

/-- The function `playAudioBuffer`. `pow2 x` is the host's `Math.pow(2, x)`. Without an
    audio context `createBufferSource` throws and the `catch` leaves the graph
    untouched. -/
def playAudioBuffer (pow2 : ℚ → ℚ) (audioContext : Option AudioContext)
    (buffer : AudioBuffer) (time velocity tune decay : ℚ) : List AudioOp :=
  match audioContext with
  | none => []
  | some _ =>
    let source := node "source"
    let gainNode := node "gainNode"
    let playbackRate := pow2 (tune / 12)
    let duration := playAudioBufferDuration decay
    [AudioOp.setSampleBuffer source buffer,
     AudioOp.setValueAtTime source "playbackRate" playbackRate time,
     AudioOp.setValueAtTime gainNode "gain" (velocity * 0.8) time,
     AudioOp.exponentialRampToValueAtTime gainNode "gain" 0.001 (time + duration),
     AudioOp.connect source gainNode,
     AudioOp.connect gainNode destination,
     AudioOp.start source time,
     AudioOp.stop source (time + duration)]

/-- The voice `kick` of `createDrumSounds`. -/
def createDrumSounds.kick (pow2 : ℚ → ℚ) (time velocity tune decay : ℚ) : List AudioOp :=
  let osc1 := node "osc1"
  let osc2 := node "osc2"
  let gain := node "gain"
  let filter := node "filter"
  let baseFreq := 60 * pow2 (tune / 12)
  let duration := (decay / 100) * 1.5
  [AudioOp.setType osc1 "sine",
   AudioOp.setType osc2 "triangle",
   AudioOp.setValueAtTime osc1 "frequency" baseFreq time,
   AudioOp.setValueAtTime osc2 "frequency" (baseFreq * 0.5) time,
   AudioOp.exponentialRampToValueAtTime osc1 "frequency" (baseFreq * 0.1) (time + 0.1),
   AudioOp.exponentialRampToValueAtTime osc2 "frequency" (baseFreq * 0.05) (time + 0.1),
   AudioOp.setType filter "lowpass",
   AudioOp.setValueAtTime filter "frequency" 200 time,
   AudioOp.setValueAtTime filter "Q" 1 time,
   AudioOp.setValueAtTime gain "gain" velocity time,
   AudioOp.exponentialRampToValueAtTime gain "gain" 0.001 (time + duration),
   AudioOp.connect osc1 filter,
   AudioOp.connect osc2 filter,
   AudioOp.connect filter gain,
   AudioOp.connect gain destination,
   AudioOp.start osc1 time,
   AudioOp.start osc2 time,
   AudioOp.stop osc1 (time + duration),
   AudioOp.stop osc2 (time + duration)]

/-- The voice `snare` of `createDrumSounds`. -/
def createDrumSounds.snare (pow2 : ℚ → ℚ) (time velocity tune decay : ℚ) : List AudioOp :=
  let noise := node "noise"
  let osc := node "osc"
  let noiseFilter := node "noiseFilter"
  let oscFilter := node "oscFilter"
  let noiseGain := node "noiseGain"
  let oscGain := node "oscGain"
  let masterGain := node "masterGain"
  let oscFreq := 200 * pow2 (tune / 12)
  let duration := (decay / 100) * 0.3
  [AudioOp.setNoiseBuffer noise 0.2,
   AudioOp.setType osc "triangle",
   AudioOp.setValueAtTime osc "frequency" oscFreq time,
   AudioOp.setType noiseFilter "highpass",
   AudioOp.setValueAtTime noiseFilter "frequency" 1000 time,
   AudioOp.setType oscFilter "bandpass",
   AudioOp.setValueAtTime oscFilter "frequency" 200 time,
   AudioOp.setValueAtTime oscFilter "Q" 5 time,
   AudioOp.setValueAtTime noiseGain "gain" (velocity * 0.8) time,
   AudioOp.exponentialRampToValueAtTime noiseGain "gain" 0.001 (time + duration),
   AudioOp.setValueAtTime oscGain "gain" (velocity * 0.4) time,
   AudioOp.exponentialRampToValueAtTime oscGain "gain" 0.001 (time + duration * 2),
   AudioOp.setValueAtTime masterGain "gain" 1 time,
   AudioOp.connect noise noiseFilter,
   AudioOp.connect noiseFilter noiseGain,
   AudioOp.connect osc oscFilter,
   AudioOp.connect oscFilter oscGain,
   AudioOp.connect noiseGain masterGain,
   AudioOp.connect oscGain masterGain,
   AudioOp.connect masterGain destination,
   AudioOp.start noise time,
   AudioOp.start osc time,
   AudioOp.stop noise (time + duration),
   AudioOp.stop osc (time + duration * 2)]

/-- The voice `openhat` of `createDrumSounds`. -/
def createDrumSounds.openhat (pow2 : ℚ → ℚ) (time velocity tune decay : ℚ) : List AudioOp :=
  let freqs := ([8372, 9956, 11850, 14134] : List ℚ).map (fun f => f * pow2 (tune / 12))
  freqs.enum.flatMap (fun entry =>
    let i := entry.1
    let freq := entry.2
    let osc : NodeRef := { name := "osc", index := i }
    let gain : NodeRef := { name := "gain", index := i }
    let duration := (decay / 100) * 0.8
    [AudioOp.setType osc "square",
     AudioOp.setValueAtTime osc "frequency" freq time,
     AudioOp.setValueAtTime gain "gain" (velocity * 0.1 * (1 - (i : ℚ) * 0.1)) time,
     AudioOp.exponentialRampToValueAtTime gain "gain" 0.001 (time + duration),
     AudioOp.connect osc gain,
     AudioOp.connect gain destination,
     AudioOp.start osc time,
     AudioOp.stop osc (time + duration)])

/-- The voice `closedhat` of `createDrumSounds`. -/
def createDrumSounds.closedhat (pow2 : ℚ → ℚ) (time velocity tune decay : ℚ) :
    List AudioOp :=
  let freqs := ([10000, 12000, 14000, 16000] : List ℚ).map (fun f => f * pow2 (tune / 12))
  freqs.enum.flatMap (fun entry =>
    let i := entry.1
    let freq := entry.2
    let osc : NodeRef := { name := "osc", index := i }
    let gain : NodeRef := { name := "gain", index := i }
    let duration := (decay / 100) * 0.1
    [AudioOp.setType osc "square",
     AudioOp.setValueAtTime osc "frequency" freq time,
     AudioOp.setValueAtTime gain "gain" (velocity * 0.05 * (1 - (i : ℚ) * 0.1)) time,
     AudioOp.exponentialRampToValueAtTime gain "gain" 0.001 (time + duration),
     AudioOp.connect osc gain,
     AudioOp.connect gain destination,
     AudioOp.start osc time,
     AudioOp.stop osc (time + duration)])

/-- The voice `clap` of `createDrumSounds`. -/
def createDrumSounds.clap (pow2 : ℚ → ℚ) (time velocity tune decay : ℚ) : List AudioOp :=
  let delays : List ℚ := [0, 0.01, 0.02, 0.04]
  delays.enum.flatMap (fun entry =>
    let i := entry.1
    let delay := entry.2
    let noise : NodeRef := { name := "noise", index := i }
    let filter : NodeRef := { name := "filter", index := i }
    let gain : NodeRef := { name := "gain", index := i }
    let duration := (decay / 100) * 0.2
    [AudioOp.setNoiseBuffer noise 0.05,
     AudioOp.setType filter "bandpass",
     AudioOp.setValueAtTime filter "frequency" (1000 * pow2 (tune / 12)) time,
     AudioOp.setValueAtTime filter "Q" 3 time,
     AudioOp.setValueAtTime gain "gain" (velocity * 0.6) (time + delay),
     AudioOp.exponentialRampToValueAtTime gain "gain" 0.001 (time + delay + duration),
     AudioOp.connect noise filter,
     AudioOp.connect filter gain,
     AudioOp.connect gain destination,
     AudioOp.start noise (time + delay),
     AudioOp.stop noise (time + delay + duration)])

/-- The voice `crash` of `createDrumSounds`. -/
def createDrumSounds.crash (pow2 : ℚ → ℚ) (time velocity tune decay : ℚ) : List AudioOp :=
  let freqs :=
    ([4186, 5274, 6645, 8372, 10548] : List ℚ).map (fun f => f * pow2 (tune / 12))
  freqs.enum.flatMap (fun entry =>
    let i := entry.1
    let freq := entry.2
    let osc : NodeRef := { name := "osc", index := i }
    let gain : NodeRef := { name := "gain", index := i }
    let duration := (decay / 100) * 2
    [AudioOp.setType osc "sawtooth",
     AudioOp.setValueAtTime osc "frequency" freq time,
     AudioOp.setValueAtTime gain "gain" (velocity * 0.08 * (1 - (i : ℚ) * 0.15)) time,
     AudioOp.exponentialRampToValueAtTime gain "gain" 0.001 (time + duration),
     AudioOp.connect osc gain,
     AudioOp.connect gain destination,
     AudioOp.start osc time,
     AudioOp.stop osc (time + duration)])

/-- The voice `cowbell` of `createDrumSounds`. -/
def createDrumSounds.cowbell (pow2 : ℚ → ℚ) (time velocity tune decay : ℚ) : List AudioOp :=
  let osc1 := node "osc1"
  let osc2 := node "osc2"
  let gain := node "gain"
  let freq1 := 562 * pow2 (tune / 12)
  let freq2 := 845 * pow2 (tune / 12)
  let duration := (decay / 100) * 0.4
  [AudioOp.setType osc1 "triangle",
   AudioOp.setType osc2 "triangle",
   AudioOp.setValueAtTime osc1 "frequency" freq1 time,
   AudioOp.setValueAtTime osc2 "frequency" freq2 time,
   AudioOp.setValueAtTime gain "gain" (velocity * 0.6) time,
   AudioOp.exponentialRampToValueAtTime gain "gain" 0.001 (time + duration),
   AudioOp.connect osc1 gain,
   AudioOp.connect osc2 gain,
   AudioOp.connect gain destination,
   AudioOp.start osc1 time,
   AudioOp.start osc2 time,
   AudioOp.stop osc1 (time + duration),
   AudioOp.stop osc2 (time + duration)]

/-- The voice `clave` of `createDrumSounds`. -/
def createDrumSounds.clave (pow2 : ℚ → ℚ) (time velocity tune decay : ℚ) : List AudioOp :=
  let osc := node "osc"
  let gain := node "gain"
  let filter := node "filter"
  let freq := 2500 * pow2 (tune / 12)
  let duration := (decay / 100) * 0.15
  [AudioOp.setType osc "triangle",
   AudioOp.setValueAtTime osc "frequency" freq time,
   AudioOp.setType filter "bandpass",
   AudioOp.setValueAtTime filter "frequency" 2500 time,
   AudioOp.setValueAtTime filter "Q" 10 time,
   AudioOp.setValueAtTime gain "gain" (velocity * 0.8) time,
   AudioOp.exponentialRampToValueAtTime gain "gain" 0.001 (time + duration),
   AudioOp.connect osc filter,
   AudioOp.connect filter gain,
   AudioOp.connect gain destination,
   AudioOp.start osc time,
   AudioOp.stop osc (time + duration)]

/-- The object `createDrumSounds(audioContext)`: empty without an audio context, else
    the 8 voices under their instrument ids. A voice takes `time`, `velocity`, `tune`
    and `decay`. -/
def createDrumSounds (pow2 : ℚ → ℚ) (audioContext : Option AudioContext) :
    List (String × (ℚ → ℚ → ℚ → ℚ → List AudioOp)) :=
  match audioContext with
  | none => []
  | some _ =>
    [("kick", createDrumSounds.kick pow2),
     ("snare", createDrumSounds.snare pow2),
     ("openhat", createDrumSounds.openhat pow2),
     ("closedhat", createDrumSounds.closedhat pow2),
     ("clap", createDrumSounds.clap pow2),
     ("crash", createDrumSounds.crash pow2),
     ("cowbell", createDrumSounds.cowbell pow2),
     ("clave", createDrumSounds.clave pow2)]

/-- What a call of `playSample` does: play a decoded sample, play a synthesized voice,
    only warn, or one of the outcomes of a read that reaches `Object.prototype`. -/
inductive PlayOutcome where
  | customSample (sampleFileName : String) (ops : List AudioOp)
  | synthesized (trackName : String) (ops : List AudioOp)
  | noSound (trackName : String)
  /-- `playAudioBuffer` was handed an inherited value: assigning it to `source.buffer`
      throws inside its `try`, nothing is played -/
  | rejectedBuffer (sampleFileName : String)
  /-- `sounds[trackName]` is an inherited method, called without effect on the audio
      graph -/
  | inheritedCall (key : String)
  /-- `sounds[trackName](...)` throws a `TypeError` that leaves `playSample` -/
  | typeError (key : String)
  deriving DecidableEq, Repr

/-- The `else` branch of `playSample`: `sounds[trackName]` is a voice, or a value
    inherited from `Object.prototype`, or `undefined`. Of the inherited values,
    `__proto__` is not a function, and `__defineGetter__` and `__defineSetter__` throw
    on a second argument that is not a function. -/
def playSample.fallback (pow2 : ℚ → ℚ) (audioContext : Option AudioContext)
    (trackName : String) (time velocity tune decay : ℚ) : PlayOutcome :=
  match objLookup (createDrumSounds pow2 audioContext) trackName with
  | Lookup.own voice => PlayOutcome.synthesized trackName (voice time velocity tune decay)
  | Lookup.inherited key =>
    if key ∈ ["__proto__", "__defineGetter__", "__defineSetter__"] then
      PlayOutcome.typeError key
    else PlayOutcome.inheritedCall key
  | Lookup.undefined => PlayOutcome.noSound trackName

/-- The function `playSample`, called with all five arguments, on the
    `trackSampleMapping` and `audioBuffers` of the render it belongs to. -/
def playSample (host : Host) (pow2 : ℚ → ℚ) (audioContext : Option AudioContext)
    (trackSampleMapping : List (String × String))
    (audioBuffers : List (String × AudioBuffer))
    (trackName : String) (time velocity tune decay : ℚ) : PlayOutcome :=
  match objLookup trackSampleMapping trackName with
  | Lookup.own sampleFileName =>
    if sampleFileName = "" then
      playSample.fallback pow2 audioContext trackName time velocity tune decay
    else
      match objLookup audioBuffers sampleFileName with
      | Lookup.own audioBuffer =>
        PlayOutcome.customSample sampleFileName
          (playAudioBuffer pow2 audioContext audioBuffer time velocity tune decay)
      | Lookup.inherited _ => PlayOutcome.rejectedBuffer sampleFileName
      | Lookup.undefined =>
        playSample.fallback pow2 audioContext trackName time velocity tune decay
  | Lookup.inherited key =>
    match objLookup audioBuffers (inheritedText host key) with
    | Lookup.own audioBuffer =>
      PlayOutcome.customSample (inheritedText host key)
        (playAudioBuffer pow2 audioContext audioBuffer time velocity tune decay)
    | Lookup.inherited _ => PlayOutcome.rejectedBuffer (inheritedText host key)
    | Lookup.undefined =>
      playSample.fallback pow2 audioContext trackName time velocity tune decay
  | Lookup.undefined =>
    playSample.fallback pow2 audioContext trackName time velocity tune decay

/-- When a source node is started in a list of graph calls. -/
def startTime (ops : List AudioOp) (n : NodeRef) : Option ℚ :=
  ops.findSome? (fun op =>
    match op with
    | AudioOp.start m t => if m = n then some t else none
    | _ => none)

/-- For each `stop` call of a list of graph calls: the node and the time from its
    start to its stop, the duration the source sounds. -/
def sourceDurations (ops : List AudioOp) : List (NodeRef × ℚ) :=
  ops.filterMap (fun op =>
    match op with
    | AudioOp.stop n t => (startTime ops n).map (fun t0 => (n, t - t0))
    | _ => none)

/-- Every value a list of graph calls sets or ramps a `frequency` parameter to, with
    the node it belongs to, in call order. -/
def frequencyValues (ops : List AudioOp) : List (NodeRef × ℚ) :=
  ops.filterMap (fun op =>
    match op with
    | AudioOp.setValueAtTime n param v _ => if param = "frequency" then some (n, v) else none
    | AudioOp.exponentialRampToValueAtTime n param v _ =>
      if param = "frequency" then some (n, v) else none
    | _ => none)

/-- Reference, from the specification: `clamp(x, min, max)`. -/
def specClamp (x lo hi : ℚ) : ℚ := min (max x lo) hi

/-- Reference, from the specification's voice table: the duration ceiling in seconds of
    a source node of a voice (the snare has a noise source and a tone source). -/
def specCeiling (trackName nodeName : String) : ℚ :=
  if trackName = "kick" then 1.5
  else if trackName = "snare" then (if nodeName = "noise" then 0.3 else 0.6)
  else if trackName = "openhat" then 0.8
  else if trackName = "closedhat" then 0.1
  else if trackName = "clap" then 0.2
  else if trackName = "crash" then 2.0
  else if trackName = "cowbell" then 0.4
  else 0.15

/-- The filter nodes whose `frequency` the source sets to a constant: the kick's
    low-pass, the snare's high-pass and band-pass, the clave's band-pass. -/
def fixedFilter (trackName nodeName : String) : Bool :=
  (trackName = "kick" && nodeName = "filter") ||
  (trackName = "snare" && (nodeName = "noiseFilter" || nodeName = "oscFilter")) ||
  (trackName = "clave" && nodeName = "filter")

/-- A stand-in for `Math.pow(2, x)` that is exact at whole `x` (whole octaves), for
    concrete evaluations at `tune` 0, 12 and -12. -/
def pow2Whole (x : ℚ) : ℚ := 2 ^ ⌊x⌋

/-- A trigger in the render that follows a resolver run: `playSample` on the buffers and
    the mapping `loadAudioBuffersAndCreateMapping` has set, as `testSample`, the step
    preview and a sequencer started afterwards call it. -/
def playAfterResolve (host : Host) (pow2 : ℚ → ℚ) (ctx : AudioContext)
    (libraryFiles patternFiles : Option (List (String × FileData)))
    (trackName : String) (time velocity tune decay : ℚ) : Option PlayOutcome :=
  (loadAudioBuffersAndCreateMapping host (some ctx) libraryFiles patternFiles).map
    (fun r => playSample host pow2 (some ctx) r.2 r.1 trackName time velocity tune decay)

/-- The library of the scenario: one decoded file `snare_tight.wav`. -/
def snareLibrary : List (String × FileData) :=
  [("snare_tight.wav", FileData.file (some { duration := 1 }))]

/-- Pattern-local files with a file attached under the id `kick` whose decode fails. -/
def failedKickFiles : List (String × FileData) :=
  [("kick", FileData.file none)]

/-- The `forEach` of `playStep` with an audio context whose clock the rendering thread
    may advance while the tick runs: `clock k` is the value of
    `audioContext.currentTime` at the `k`-th read of the tick, one read per triggered
    track; `k` counts the reads made so far. -/
def triggerReads (p : Pattern) (clock : Nat → ℚ) (stepIndex : Nat) :
    List (String × StepsValue) → Nat → List Event
  | [], _ => []
  | entry :: rest, k =>
    if entry.2.active stepIndex then
      Event.playSample entry.1 (clock k) (trackLevel p entry.1) (trackTune p entry.1)
          (trackDecay p entry.1) ::
        triggerReads p clock stepIndex rest (k + 1)
    else triggerReads p clock stepIndex rest k

/-- The time arguments of the `playSample` calls of a log, in call order. -/
def triggerTimes (log : List Event) : List ℚ :=
  log.filterMap (fun e =>
    match e with
    | Event.playSample _ time _ _ _ => some time
    | _ => none)

/-- A pattern with kick and snare both active at step 0. -/
def kickSnarePattern : Pattern :=
  { name := "Two tracks", tempo := 120,
    tracks := some [("kick", StepsValue.array [true]), ("snare", StepsValue.array [true])],
    levels := none, tune := none, decay := none, files := none }

/-- A pattern whose kick grid has 4 steps, whose snare entry is not an array and whose
    clap entry is missing. -/
def shortGridPattern : Pattern :=
  { name := "Short", tempo := 120,
    tracks := some [("kick", StepsValue.array [true, true, true, true]),
                    ("snare", StepsValue.nonArray), ("clap", StepsValue.falsy)],
    levels := none, tune := none, decay := none, files := none }

/-! ## Pattern editing -/

/-- The array `Array(16).fill(false)`. -/
def emptyGrid : List Bool := List.replicate 16 false

/-- The literal `tracks` object of the initial document, of `createNewPattern` and of
    the `loadPattern` default. -/
def defaultTracks : List (String × StepsValue) :=
  [("kick", StepsValue.array emptyGrid), ("snare", StepsValue.array emptyGrid),
   ("openhat", StepsValue.array emptyGrid), ("closedhat", StepsValue.array emptyGrid),
   ("clap", StepsValue.array emptyGrid), ("crash", StepsValue.array emptyGrid),
   ("cowbell", StepsValue.array emptyGrid), ("clave", StepsValue.array emptyGrid)]

/-- The literal `levels` object of `createNewPattern`. -/
def createNewPattern.levels : List (String × ℚ) :=
  [("kick", 80), ("snare", 70), ("openhat", 60), ("closedhat", 55),
   ("clap", 65), ("crash", 70), ("cowbell", 50), ("clave", 45)]

/-- The literal `tune` object of `createNewPattern`. -/
def createNewPattern.tune : List (String × ℚ) :=
  [("kick", 0), ("snare", 0), ("openhat", 0), ("closedhat", 0),
   ("clap", 0), ("crash", 0), ("cowbell", 0), ("clave", 0)]

/-- The literal `decay` object of `createNewPattern`. -/
def createNewPattern.decay : List (String × ℚ) :=
  [("kick", 50), ("snare", 30), ("openhat", 70), ("closedhat", 20),
   ("clap", 40), ("crash", 80), ("cowbell", 30), ("clave", 15)]

/-- The handler `createNewPattern`: `updatePattern` merges the literal fields into the
    document, so `_id` keeps its value. -/
def createNewPattern (s : Machine) : Machine :=
  updatePattern s
    { s.currentPattern with
      name := "New Pattern", tempo := 120, tracks := some defaultTracks,
      levels := some createNewPattern.levels, tune := some createNewPattern.tune,
      decay := some createNewPattern.decay, files := some [] }

/-- A document returned by the live query. Every field may be missing; `type` is the
    marker the sample library document carries; `tempo` is a whole number of beats per
    minute. -/
structure StoredPattern where
  id : Option String
  name : Option String
  type : Option String
  tempo : Option Nat
  tracks : Option (List (String × StepsValue))
  levels : Option (List (String × ℚ))
  tune : Option (List (String × ℚ))
  decay : Option (List (String × ℚ))
  files : Option (List (String × FileData))
  deriving DecidableEq, Repr

/-- The handler `loadPattern`, with the literal defaults written out in its body. It is
    called on entries of `savedPatterns`, whose `name` is a non-empty string; a missing
    name is read here as the empty string. -/
def loadPattern (s : Machine) (pattern : StoredPattern) : Machine :=
  updatePattern s
    { name := pattern.name.getD "",
      tempo := numOr (pattern.tempo.map (fun t => (t : ℚ))) 120,
      tracks := some (pattern.tracks.getD
        [("kick", StepsValue.array emptyGrid), ("snare", StepsValue.array emptyGrid),
         ("openhat", StepsValue.array emptyGrid), ("closedhat", StepsValue.array emptyGrid),
         ("clap", StepsValue.array emptyGrid), ("crash", StepsValue.array emptyGrid),
         ("cowbell", StepsValue.array emptyGrid), ("clave", StepsValue.array emptyGrid)]),
      levels := some (pattern.levels.getD
        [("kick", 80), ("snare", 70), ("openhat", 60), ("closedhat", 55),
         ("clap", 65), ("crash", 70), ("cowbell", 50), ("clave", 45)]),
      tune := some (pattern.tune.getD
        [("kick", 0), ("snare", 0), ("openhat", 0), ("closedhat", 0),
         ("clap", 0), ("crash", 0), ("cowbell", 0), ("clave", 0)]),
      decay := some (pattern.decay.getD
        [("kick", 50), ("snare", 30), ("openhat", 70), ("closedhat", 20),
         ("clap", 40), ("crash", 80), ("cowbell", 30), ("clave", 15)]),
      files := some (pattern.files.getD []),
      id := pattern.id }

/-- The element write `arr[i] = v`: in place inside the array; past its end the array
    grows to length `i + 1`, and the holes in between read as `undefined` (falsy). -/
def arraySet (arr : List Bool) (i : Nat) (v : Bool) : List Bool :=
  if i < arr.length then arr.set i v
  else arr ++ List.replicate (i - arr.length) false ++ [v]

/-- The copy `[...(newTracks[selectedTrack] || Array(16).fill(false))]` made by
    `toggleStep` after a missing or falsy entry was replaced by `Array(16).fill(false)`.
    It is `none` for a truthy entry that is not an array: spreading it throws, or gives
    elements this model does not record. -/
def toggleStep.copy : Option StepsValue → Option (List Bool)
  | none => some emptyGrid
  | some StepsValue.falsy => some emptyGrid
  | some (StepsValue.array steps) => some steps
  | some StepsValue.nonArray => none

/-- The handler `toggleStep` for the selected track: negate one entry of a copy of the
    grid, write the new `tracks`, then preview the sound when the sequencer is not
    playing, the step is now active and there is an audio context. -/
def toggleStep (s : Machine) (selectedTrack : String) (stepIndex : Nat) : Option Machine :=
  let currentTracks := s.currentPattern.tracks.getD []
  match toggleStep.copy (objGet currentTracks selectedTrack) with
  | none => none
  | some copy =>
    let value := !(copy.getD stepIndex false)
    let newTracks :=
      objSet currentTracks selectedTrack (StepsValue.array (arraySet copy stepIndex value))
    let s1 := updatePattern s { s.currentPattern with tracks := some newTracks }
    match s.audioContext with
    | some ctx =>
      if (!s.isPlaying && value) = true then
        let level := trackLevel s.currentPattern selectedTrack
        let tuneValue := trackTune s.currentPattern selectedTrack
        let decayValue := trackDecay s.currentPattern selectedTrack
        let s2 := if ctx.suspended then { s1 with log := s1.log ++ [Event.resume] } else s1
        some { s2 with log := s2.log ++
          [Event.playSample selectedTrack ctx.currentTime level tuneValue decayValue] }
      else some s1
    | none => some s1

/-- The handler `clearTrack` for the selected track. -/
def clearTrack (s : Machine) (selectedTrack : String) : Machine :=
  let currentTracks := s.currentPattern.tracks.getD []
  let newTracks := objSet currentTracks selectedTrack (StepsValue.array emptyGrid)
  updatePattern s { s.currentPattern with tracks := some newTracks }

/-- The three per-track parameter objects `updateTrackParam` is called with. -/
inductive TrackParam where
  | levels
  | tune
  | decay
  deriving DecidableEq, Repr

/-- The read `currentPattern[param]`. -/
def TrackParam.read (param : TrackParam) (p : Pattern) : Option (List (String × ℚ)) :=
  match param with
  | .levels => p.levels
  | .tune => p.tune
  | .decay => p.decay

/-- The merge `updatePattern({ [param]: newParam })` on the document. -/
def TrackParam.write (param : TrackParam) (p : Pattern) (newParam : List (String × ℚ)) :
    Pattern :=
  match param with
  | .levels => { p with levels := some newParam }
  | .tune => { p with tune := some newParam }
  | .decay => { p with decay := some newParam }

/-- The handler `updateTrackParam(track, param, value)`: it copies the parameter object,
    stores `value` under `track` and merges the copy into the document. -/
def updateTrackParam (s : Machine) (track : String) (param : TrackParam) (value : ℚ) :
    Machine :=
  let currentParam := (param.read s.currentPattern).getD []
  let newParam := objSet currentParam track value
  updatePattern s (param.write s.currentPattern newParam)

/-- The loop `while (tracks[track].length < 16) tracks[track].push(false)`. -/
def generatePattern.pad (steps : List Bool) : List Bool :=
  if _h : steps.length < 16 then generatePattern.pad (steps ++ [false]) else steps
termination_by 16 - steps.length
decreasing_by
  simp only [List.length_append, List.length_singleton]
  omega

/-- A value of the generated `tracks` object, as `JSON.parse` gives it. -/
inductive GeneratedSteps where
  /-- the value is `null`, `false`, `0` or the empty string -/
  | falsy
  /-- an array; each element is recorded by its truthiness -/
  | array (steps : List Bool)
  /-- a string of `length` code units -/
  | text (length : Nat)
  /-- the value is `true`, a non-zero number or an object: it has no `slice` -/
  | other
  deriving DecidableEq, Repr

/-- The value `generatePattern` stores for one entry of the generated `tracks`:
    `steps ? steps.slice(0, 16) : Array(16).fill(false)`, then the padding loop. A string
    of 16 or more code units is cut to 16 and stored as it is, the loop test being
    false; for a shorter string `push` throws, and for the other truthy values `slice`
    throws (`none`). -/
def generatePattern.normalize : GeneratedSteps → Option StepsValue
  | GeneratedSteps.falsy => some (StepsValue.array (generatePattern.pad emptyGrid))
  | GeneratedSteps.array steps =>
    some (StepsValue.array (generatePattern.pad (steps.take 16)))
  | GeneratedSteps.text length =>
    if length = 0 then some (StepsValue.array (generatePattern.pad emptyGrid))
    else if 16 ≤ length then some StepsValue.nonArray
    else none
  | GeneratedSteps.other => none

/-- The loop `Object.entries(patternData.tracks).forEach(...)` filling `tracks`. -/
def generatePattern.tracks :
    List (String × GeneratedSteps) → List (String × StepsValue) →
      Option (List (String × StepsValue))
  | [], tracks => some tracks
  | (track, steps) :: rest, tracks =>
    match generatePattern.normalize steps with
    | some value => generatePattern.tracks rest (objSet tracks track value)
    | none => none

/-- The value of `JSON.parse(result)` as far as `generatePattern` reads it. -/
structure PatternData where
  tracks : Option (List (String × GeneratedSteps))
  description : Option String
  deriving DecidableEq, Repr

/-- The handler `generatePattern` once the request has settled. `patternData` is `none`
    when the request or `JSON.parse` failed; every failure inside the body is caught and
    logged, and the document is then left as it was. The stored `description` is not
    part of the model. -/
def generatePattern (s : Machine) (patternData : Option PatternData) : Machine :=
  match patternData with
  | none => s
  | some data =>
    match data.tracks with
    | none => s
    | some entries =>
      match generatePattern.tracks entries [] with
      | none => s
      | some tracks =>
        updatePattern s
          { s.currentPattern with name := "AI Generated Pattern", tracks := some tracks }

/-- Whether every entry of a `tracks` object is an array of exactly 16 steps. -/
def allGrids16 (tracks : List (String × StepsValue)) : Bool :=
  tracks.all (fun e =>
    match e.2 with
    | StepsValue.array steps => decide (steps.length = 16)
    | _ => false)

/-! ## Saved patterns -/

/-- The decimal digits of `n`, most significant first; `fuel` bounds the number of
    digits. -/
def numberToString.digits : Nat → Nat → List Char
  | 0, _ => []
  | fuel + 1, n =>
    if n < 10 then [Nat.digitChar n]
    else numberToString.digits fuel (n / 10) ++ [Nat.digitChar (n % 10)]

/-- The string a template literal gives for a whole number. -/
def numberToString (n : Nat) : String := String.mk (numberToString.digits (n + 1) n)

/-- The key of the duplicate filter, the template literal with `pattern.name`, a dash
    and `pattern.tempo`; a missing value prints as `undefined`. -/
def patternKey (pattern : StoredPattern) : String :=
  pattern.name.getD "undefined" ++ "-" ++
    (match pattern.tempo with
     | some tempo => numberToString tempo
     | none => "undefined")

/-- The filter `doc.name && doc.tracks && doc.type !== "samples"`. -/
def isPatternDoc (doc : StoredPattern) : Bool :=
  strTruthy doc.name && doc.tracks.isSome && decide (doc.type ≠ some "samples")

/-- The list `savedPatterns` computed from the documents of the live query. -/
def savedPatterns (allPatterns : List StoredPattern) : List StoredPattern :=
  (allPatterns.filter isPatternDoc).foldl
    (fun unique pattern =>
      if (!unique.any (fun p => decide (patternKey p = patternKey pattern))) = true then
        unique ++ [pattern]
      else unique)
    []

/-! ## Failing triggers -/

/-- The trigger block of `playStep` when the `playSample` call for a track throws
    whenever `throws` holds for it: the call is made, the `catch` records the error. -/
def triggerTrackThrowing (throws : String → Bool) (s : Machine) (trackName : String) :
    Machine :=
  let s1 := triggerTrack s trackName
  match s.audioContext with
  | some _ =>
    if throws trackName then { s1 with log := s1.log ++ [Event.caughtError trackName] }
    else s1
  | none => s1

/-- The `playStep` closure with triggers that may throw. -/
def playStepThrowing (throws : String → Bool) (s : Machine) (stepIndex : Nat) :
    Machine × Nat :=
  let s1 := { s with playbackStep := (stepIndex : Int),
                     log := s.log ++ [Event.setPlaybackStep stepIndex] }
  let s2 :=
    match s1.currentPattern.tracks with
    | none => s1
    | some tracks =>
      tracks.foldl
        (fun st entry =>
          if entry.2.active stepIndex then triggerTrackThrowing throws st entry.1 else st) s1
  (s2, (stepIndex + 1) % 16)

/-- The events of a log that are not caught errors. -/
def withoutCaught (log : List Event) : List Event :=
  log.filter (fun e =>
    match e with
    | Event.caughtError _ => false
    | _ => true)

/-- What one trigger block with a possibly throwing `playSample` records: the call, then
    the caught error when the call throws. -/
def triggerEventsThrowing (throws : String → Bool) (p : Pattern) (ctx : Option AudioContext)
    (trackName : String) : List Event :=
  match ctx with
  | some _ =>
    if throws trackName then [triggerEvent p ctx trackName, Event.caughtError trackName]
    else [triggerEvent p ctx trackName]
  | none => [triggerEvent p ctx trackName]

/-- Number of errors caught for `trackName` in a log. -/
def countCaught (trackName : String) (log : List Event) : Nat :=
  log.countP (fun e =>
    match e with
    | Event.caughtError n => decide (n = trackName)
    | _ => false)

/-- What the trigger loop of one tick records when calls may throw: the events of each
    track active at `stepIndex`, in the key order of `tracks`. -/
def triggersThrowing (throws : String → Bool) (p : Pattern) (ctx : Option AudioContext)
    (stepIndex : Nat) (tracks : List (String × StepsValue)) : List Event :=
  (tracks.filter (fun e => e.2.active stepIndex)).flatMap
    (fun e => triggerEventsThrowing throws p ctx e.1)

/-- A stored pattern whose kick grid has only 2 steps. -/
def shortStoredPattern : StoredPattern :=
  { id := some "short", name := some "Short", type := none, tempo := some 100,
    tracks := some [("kick", StepsValue.array [true, false])],
    levels := none, tune := none, decay := none, files := none }

/-- The demo pattern "Classic Hip-Hop" of `loadDemoPatterns` as the database stores it:
    it has no `levels`, `tune`, `decay` or `_files`. -/
def classicHipHop : StoredPattern :=
  { id := some "classic-hip-hop", name := some "Classic Hip-Hop", type := none,
    tempo := some 90,
    tracks := some
      [("kick", StepsValue.array kickGrid),
       ("snare", StepsValue.array
         [false, false, false, false, true, false, false, false,
          false, false, false, false, true, false, false, false]),
       ("openhat", StepsValue.array
         [false, false, true, false, false, false, false, false,
          false, false, true, false, false, false, false, false]),
       ("closedhat", StepsValue.array
         [false, true, false, true, false, true, false, true,
          false, true, false, true, false, true, false, true]),
       ("clap", StepsValue.array emptyGrid),
       ("crash", StepsValue.array
         [true, false, false, false, false, false, false, false,
          false, false, false, false, false, false, false, false]),
       ("cowbell", StepsValue.array emptyGrid),
       ("clave", StepsValue.array emptyGrid)],
    levels := none, tune := none, decay := none, files := none }

/-- The same pattern saved after its kick level was set to 95. -/
def classicHipHopEdited : StoredPattern :=
  { classicHipHop with
    levels := some (objSet createNewPattern.levels "kick" 95),
    tune := some createNewPattern.tune, decay := some createNewPattern.decay,
    files := some [] }

/-- When a source node is stopped in a list of graph calls. -/
def stopTime (ops : List AudioOp) (n : NodeRef) : Option ℚ :=
  ops.findSome? (fun op =>
    match op with
    | AudioOp.stop m t => if m = n then some t else none
    | _ => none)

/-- The automation events a list of graph calls schedules on one parameter of one node,
    in call order: whether the event is an exponential ramp, its value and its time. -/
def paramEvents (ops : List AudioOp) (n : NodeRef) (param : String) : List (Bool × ℚ × ℚ) :=
  ops.filterMap (fun op =>
    match op with
    | AudioOp.setValueAtTime m q v t => if m = n ∧ q = param then some (false, v, t) else none
    | AudioOp.exponentialRampToValueAtTime m q v t =>
      if m = n ∧ q = param then some (true, v, t) else none
    | _ => none)

/-! ## Renders and timer closures -/

/-- The values of the state variables `audioBuffers` and `trackSampleMapping` in one
    render; the `playSample` of that render closes over them. -/
structure SampleState where
  audioBuffers : List (String × AudioBuffer)
  trackSampleMapping : List (String × String)
  deriving DecidableEq, Repr

/-- The sample state of the component: the values of the latest render, and the render
    whose `playSample` is called by the `playStep` closure of the running timer (`none`
    while no timer runs). `playStep` is created inside `togglePlay` and inside the tempo
    effect and refers to the `playSample` of the render that created it. -/
structure Sampler where
  rendered : SampleState
  timer : Option SampleState
  deriving DecidableEq, Repr

/-- The first render, `useState({})` twice, with no timer. -/
def Sampler.initial : Sampler :=
  { rendered := { audioBuffers := [], trackSampleMapping := [] }, timer := none }

/-- A run of `loadAudioBuffersAndCreateMapping` by the files effect, ending in
    `setAudioBuffers(buffers)` and `setTrackSampleMapping(mapping)`: the next render has
    the new values. The timer is not created again (the effect that does so depends on
    `[currentPattern.tempo, isPlaying]` only), so its closure stays as it is. -/
def Sampler.resolve (host : Host) (ctx : AudioContext)
    (libraryFiles patternFiles : Option (List (String × FileData))) (s : Sampler) : Sampler :=
  match loadAudioBuffersAndCreateMapping host (some ctx) libraryFiles patternFiles with
  | some r => { s with rendered := { audioBuffers := r.1, trackSampleMapping := r.2 } }
  | none => s

/-- A timer is created, by `togglePlay` or by the tempo effect: its `playStep` closes
    over the `playSample` of the current render. -/
def Sampler.installTimer (s : Sampler) : Sampler := { s with timer := some s.rendered }

/-- The `playSample` call a firing of the running timer makes for a track. -/
def Sampler.tickTrigger (host : Host) (pow2 : ℚ → ℚ) (ctx : AudioContext) (s : Sampler)
    (trackName : String) (time velocity tune decay : ℚ) : Option PlayOutcome :=
  s.timer.map (fun c =>
    playSample host pow2 (some ctx) c.trackSampleMapping c.audioBuffers trackName time
      velocity tune decay)

/-- The `playSample` call of `testSample` and of the `toggleStep` preview: the function
    of the current render. -/
def Sampler.testTrigger (host : Host) (pow2 : ℚ → ℚ) (ctx : AudioContext) (s : Sampler)
    (trackName : String) (time velocity tune decay : ℚ) : PlayOutcome :=
  playSample host pow2 (some ctx) s.rendered.trackSampleMapping s.rendered.audioBuffers
    trackName time velocity tune decay

/-! ## Theorems -/


theorem foldl_trigger (p : Pattern) (ctx : Option AudioContext) (i : Nat)
    (tracks : List (String × StepsValue)) :
    ∀ st : Machine, st.currentPattern = p → st.audioContext = ctx →
      tracks.foldl
        (fun st entry => if entry.2.active i then triggerTrack st entry.1 else st) st =
      { st with log := st.log ++
          (tracks.filter (fun e => e.2.active i)).map (fun e => triggerEvent p ctx e.1) } := by
  induction tracks with
  | nil => intro st _ _; simp
  | cons e rest ih =>
    intro st hp hc
    simp only [List.foldl_cons]
    by_cases h : e.2.active i = true
    · have h1 : (triggerTrack st e.1).currentPattern = p := by
        unfold triggerTrack; cases hx : st.audioContext <;> simp [hp]
      have h2 : (triggerTrack st e.1).audioContext = ctx := by
        unfold triggerTrack; cases hx : st.audioContext <;> simp [← hc, hx]
      rw [if_pos h, ih _ h1 h2]
      subst hp hc
      unfold triggerTrack triggerEvent
      cases hx : st.audioContext <;> simp [h, List.filter_cons]
    · rw [if_neg h, ih _ hp hc]
      simp [h, List.filter_cons]

theorem playStep_eq (s : Machine) (i : Nat) :
    playStep s i =
      ({ s with playbackStep := (i : Int),
                log := s.log ++ stepEvents s.currentPattern s.audioContext i },
       (i + 1) % 16) := by
  unfold playStep stepEvents
  cases h : s.currentPattern.tracks with
  | none => simp [h]
  | some tracks =>
    simp only [h]
    rw [foldl_trigger s.currentPattern s.audioContext i tracks
      { s with playbackStep := (i : Int), log := s.log ++ [Event.setPlaybackStep i] } rfl rfl]
    simp

theorem togglePlay_start (s : Machine) (ctx : AudioContext)
    (h1 : s.isPlaying = false) (h2 : s.audioContext = some ctx) :
    togglePlay s =
      { s with
        isPlaying := true
        playbackStep := 0
        timers := s.timers ++
          [{ id := s.lastTimerId + 1, interval := stepInterval s.currentPattern.tempo,
             stepIndex := 1 }]
        lastTimerId := s.lastTimerId + 1
        sequencerRef := some (s.lastTimerId + 1)
        log := s.log ++ ((if ctx.suspended = true then [Event.resume] else []) ++
          (stepEvents s.currentPattern (some ctx) 0 ++
            [Event.setInterval (s.lastTimerId + 1) (stepInterval s.currentPattern.tempo),
             Event.setIsPlaying true])) } := by
  unfold togglePlay
  rw [h1, h2]
  by_cases hs : ctx.suspended = true
  · simp [hs, playStep_eq, installTimer, h2]
  · simp [hs, playStep_eq, installTimer, h2]

theorem togglePlay_stop (s : Machine) (h : s.isPlaying = true ∨ s.audioContext = none) :
    togglePlay s =
      { s with
        isPlaying := false
        playbackStep := -1
        sequencerRef := none
        timers := (match s.sequencerRef with
          | some id => s.timers.filter (fun t => t.id ≠ id)
          | none => s.timers)
        log := s.log ++ ((match s.sequencerRef with
          | some id => [Event.clearInterval id]
          | none => []) ++ [Event.setPlaybackStep (-1), Event.setIsPlaying false]) } := by
  unfold togglePlay
  rcases h with h | h
  · rw [h]
    cases hr : s.sequencerRef <;> simp [clearTimer, hr]
  · rw [h]
    cases hp : s.isPlaying <;> cases hr : s.sequencerRef <;> simp [clearTimer, hr, h]

theorem tempoEffect_running (s : Machine) (id : Nat)
    (h1 : s.isPlaying = true) (h2 : s.sequencerRef = some id) :
    tempoEffect s =
      { s with
        timers := s.timers.filter (fun t => t.id ≠ id) ++
          [{ id := s.lastTimerId + 1, interval := stepInterval s.currentPattern.tempo,
             stepIndex := if s.playbackStep = -1 then 0
               else ((s.playbackStep + 1) % 16).toNat }]
        lastTimerId := s.lastTimerId + 1
        sequencerRef := some (s.lastTimerId + 1)
        log := s.log ++ [Event.clearInterval id,
          Event.setInterval (s.lastTimerId + 1) (stepInterval s.currentPattern.tempo)] } := by
  unfold tempoEffect
  rw [h1, h2]
  simp [installTimer, clearTimer, h1]

theorem tempoEffect_stopped (s : Machine) (h : s.isPlaying = false) : tempoEffect s = s := by
  unfold tempoEffect
  rw [h]

theorem tick_single (s : Machine) (t : Timer) (h : s.timers = [t]) :
    tick s t.id =
      { s with
        playbackStep := (t.stepIndex : Int)
        timers := [{ t with stepIndex := (t.stepIndex + 1) % 16 }]
        log := s.log ++ stepEvents s.currentPattern s.audioContext t.stepIndex } := by
  unfold tick
  simp [h, playStep_eq]

theorem tick_inactive (s : Machine) (id : Nat) (h : ∀ t ∈ s.timers, t.id ≠ id) :
    tick s id = s := by
  unfold tick
  have : s.timers.find? (fun t => decide (t.id = id)) = none := by
    rw [List.find?_eq_none]
    intro t ht
    simpa using h t ht
  rw [this]

theorem inv_initial (p : Pattern) (ctx : Option AudioContext) : Inv (initial p ctx) := by
  simp [Inv, initial]

theorem inv_tempoEffect (s : Machine) (h : Inv s) : Inv (tempoEffect s) := by
  cases hp : s.isPlaying with
  | false => rw [tempoEffect_stopped s hp]; exact h
  | true =>
    obtain ⟨t, ht, hr, h0, h15, _⟩ := h.2 hp
    rw [tempoEffect_running s t.id hp hr]
    refine ⟨fun hf => ?_, fun _ => ?_⟩
    · simp [hp] at hf
    · refine ⟨{ id := s.lastTimerId + 1, interval := stepInterval s.currentPattern.tempo,
                stepIndex := if s.playbackStep = -1 then 0
                  else ((s.playbackStep + 1) % 16).toNat }, ?_, rfl, h0, h15, ?_, rfl⟩
      · simp [ht]
      · have hne : s.playbackStep ≠ -1 := by omega
        simp only [if_neg hne]
        omega

theorem inv_togglePlay (s : Machine) (h : Inv s) : Inv (togglePlay s) := by
  cases hp : s.isPlaying with
  | true =>
    obtain ⟨t, ht, hr, _⟩ := h.2 hp
    rw [togglePlay_stop s (Or.inl hp)]
    refine ⟨fun _ => ?_, fun hf => ?_⟩
    · simp [hr, ht]
    · simp at hf
  | false =>
    obtain ⟨ht, hr, hc⟩ := h.1 hp
    cases ha : s.audioContext with
    | none =>
      rw [togglePlay_stop s (Or.inr ha)]
      refine ⟨fun _ => ?_, fun hf => ?_⟩
      · simp [hr, ht]
      · simp at hf
    | some ctx =>
      rw [togglePlay_start s ctx hp ha]
      refine ⟨fun hf => ?_, fun _ => ?_⟩
      · simp at hf
      · exact ⟨{ id := s.lastTimerId + 1, interval := stepInterval s.currentPattern.tempo,
                 stepIndex := 1 }, by simp [ht], rfl, by simp, by simp, by simp, rfl⟩

theorem inv_clickPlay (s : Machine) (h : Inv s) : Inv (clickPlay s) := by
  unfold clickPlay
  simp only
  split
  · exact inv_tempoEffect _ (inv_togglePlay s h)
  · exact inv_togglePlay s h

theorem inv_tick (s : Machine) (id : Nat) (h : Inv s) : Inv (tick s id) := by
  cases hp : s.isPlaying with
  | false =>
    rw [tick_inactive s id (by simp [(h.1 hp).1])]
    exact h
  | true =>
    obtain ⟨t, ht, hr, h0, h15, hk, hiv⟩ := h.2 hp
    by_cases hid : t.id = id
    · subst hid
      rw [tick_single s t ht]
      refine ⟨fun hf => ?_, fun _ => ?_⟩
      · simp [hp] at hf
      · refine ⟨{ t with stepIndex := (t.stepIndex + 1) % 16 }, rfl, hr, ?_, ?_, ?_, hiv⟩
        · simp
        · simp only; omega
        · simp only; omega
    · rw [tick_inactive s id (by simpa [ht] using hid)]
      exact h

theorem inv_updatePattern (s : Machine) (p : Pattern) (h : Inv s) :
    Inv (updatePattern s p) := by
  unfold updatePattern
  simp only
  by_cases hte : p.tempo = s.currentPattern.tempo
  · rw [if_neg (by simpa using hte)]
    refine ⟨h.1, fun hp => ?_⟩
    obtain ⟨t, ht, hr, h0, h15, hk, hiv⟩ := h.2 hp
    exact ⟨t, ht, hr, h0, h15, hk, by rw [hiv, hte]⟩
  · rw [if_pos hte]
    rcases Bool.eq_false_or_eq_true s.isPlaying with hp | hp
    · obtain ⟨t, ht, hr, h0, h15, _⟩ := h.2 hp
      rw [tempoEffect_running { s with currentPattern := p } t.id hp hr]
      refine ⟨fun hf => ?_, fun _ => ?_⟩
      · simp [hp] at hf
      · refine ⟨{ id := s.lastTimerId + 1, interval := stepInterval p.tempo,
                  stepIndex := if s.playbackStep = -1 then 0
                    else ((s.playbackStep + 1) % 16).toNat }, ?_, rfl, h0, h15, ?_, rfl⟩
        · simp [ht]
        · have hne : s.playbackStep ≠ -1 := by omega
          simp only [if_neg hne]
          omega
    · rw [tempoEffect_stopped { s with currentPattern := p } hp]
      exact ⟨h.1, fun hf => by simp [hp] at hf⟩

theorem inv_testSample (s : Machine) (trackName : String) (h : Inv s) :
    Inv (testSample s trackName) := by
  unfold testSample
  cases ha : s.audioContext with
  | none => exact h
  | some ctx =>
    obtain ⟨suspended, time⟩ := ctx
    cases suspended <;> exact h

theorem reachable_inv (s : Machine) (h : Reachable s) : Inv s := by
  induction h with
  | init p ctx => exact inv_initial p ctx
  | clickPlay _ ih => exact inv_clickPlay _ ih
  | tick id _ ih => exact inv_tick _ id ih
  | updatePattern p _ ih => exact inv_updatePattern _ p ih
  | testSample trackName _ ih => exact inv_testSample _ trackName ih
  | audio ctx _ _ ih => exact ih

theorem clickPlay_start (s : Machine) (ctx : AudioContext)
    (h1 : s.isPlaying = false) (h2 : s.audioContext = some ctx) :
    clickPlay s =
      { s with
        isPlaying := true
        playbackStep := 0
        timers := s.timers.filter (fun t => t.id ≠ s.lastTimerId + 1) ++
          [{ id := s.lastTimerId + 2, interval := stepInterval s.currentPattern.tempo,
             stepIndex := 1 }]
        lastTimerId := s.lastTimerId + 2
        sequencerRef := some (s.lastTimerId + 2)
        log := s.log ++ ((if ctx.suspended = true then [Event.resume] else []) ++
          (stepEvents s.currentPattern (some ctx) 0 ++
            [Event.setInterval (s.lastTimerId + 1) (stepInterval s.currentPattern.tempo),
             Event.setIsPlaying true,
             Event.clearInterval (s.lastTimerId + 1),
             Event.setInterval (s.lastTimerId + 2) (stepInterval s.currentPattern.tempo)])) } := by
  unfold clickPlay
  simp only
  rw [togglePlay_start s ctx h1 h2]
  simp only [h1]
  rw [if_pos (by simp)]
  rw [tempoEffect_running _ (s.lastTimerId + 1) rfl rfl]
  simp

theorem run_shape (s : Machine) (ctx : AudioContext) (hi : Inv s)
    (h1 : s.isPlaying = false) (h2 : s.audioContext = some ctx) (n : Nat) :
    ∃ t : Timer, (runSteps s n).timers = [t] ∧ (runSteps s n).sequencerRef = some t.id ∧
      t.stepIndex = (n + 1) % 16 ∧ (runSteps s n).isPlaying = true ∧
      (runSteps s n).currentPattern = s.currentPattern ∧
      (runSteps s n).audioContext = some ctx ∧
      (runSteps s n).playbackStep = ((n % 16 : Nat) : Int) := by
  induction n with
  | zero =>
    refine ⟨{ id := s.lastTimerId + 2, interval := stepInterval s.currentPattern.tempo,
              stepIndex := 1 }, ?_⟩
    simp only [runSteps]
    rw [clickPlay_start s ctx h1 h2]
    simp [(hi.1 h1).1, h2]
  | succ n ih =>
    obtain ⟨t, ht, hr, hk, hp, hc, ha, _⟩ := ih
    refine ⟨{ t with stepIndex := (t.stepIndex + 1) % 16 }, ?_⟩
    simp only [runSteps, tickCurrent, hr]
    rw [tick_single _ t ht]
    refine ⟨rfl, hr, ?_, hp, hc, ha, ?_⟩
    · show (t.stepIndex + 1) % 16 = (n + 1 + 1) % 16
      omega
    · show ((t.stepIndex : Nat) : Int) = (((n + 1) % 16 : Nat) : Int)
      rw [hk]

theorem run_log_zero (s : Machine) (ctx : AudioContext)
    (h1 : s.isPlaying = false) (h2 : s.audioContext = some ctx) :
    stepLog s 0 =
      (if ctx.suspended = true then [Event.resume] else []) ++
        (stepEvents s.currentPattern (some ctx) 0 ++
          [Event.setInterval (s.lastTimerId + 1) (stepInterval s.currentPattern.tempo),
           Event.setIsPlaying true,
           Event.clearInterval (s.lastTimerId + 1),
           Event.setInterval (s.lastTimerId + 2) (stepInterval s.currentPattern.tempo)]) := by
  simp only [stepLog, runSteps]
  rw [clickPlay_start s ctx h1 h2]
  simp

theorem run_log_succ (s : Machine) (ctx : AudioContext) (hi : Inv s)
    (h1 : s.isPlaying = false) (h2 : s.audioContext = some ctx) (n : Nat) :
    (runSteps s (n + 1)).log =
        (runSteps s n).log ++ stepEvents s.currentPattern (some ctx) ((n + 1) % 16) ∧
      stepLog s (n + 1) = stepEvents s.currentPattern (some ctx) ((n + 1) % 16) := by
  obtain ⟨t, ht, hr, hk, _, hc, ha, _⟩ := run_shape s ctx hi h1 h2 n
  have h : (runSteps s (n + 1)).log =
      (runSteps s n).log ++ stepEvents s.currentPattern (some ctx) ((n + 1) % 16) := by
    simp only [runSteps, tickCurrent, hr]
    rw [tick_single _ t ht]
    simp only [hk, hc, ha]
  refine ⟨h, ?_⟩
  simp only [stepLog]
  rw [h]
  simp

theorem countTriggers_append (name : String) (a b : List Event) :
    countTriggers name (a ++ b) = countTriggers name a + countTriggers name b := by
  simp [countTriggers]

theorem countTriggers_stepEvents (p : Pattern) (ctx : AudioContext) (name : String) (c : Nat) :
    countTriggers name (stepEvents p (some ctx) c) =
      (p.tracks.getD []).countP (fun e => e.2.active c && decide (e.1 = name)) := by
  unfold countTriggers stepEvents
  rw [List.countP_cons, List.countP_map, List.countP_filter]
  simp only [Bool.false_eq_true, if_false, Nat.add_zero]
  congr 1
  funext e
  simp [triggerEvent, Bool.and_comm]

theorem countP_absent_key (tracks : List (String × StepsValue)) (name : String) (c : Nat)
    (h : name ∉ objKeys tracks) :
    tracks.countP (fun e => e.2.active c && decide (e.1 = name)) = 0 := by
  rw [List.countP_eq_zero]
  intro e he hc
  simp only [Bool.and_eq_true, decide_eq_true_eq] at hc
  exact h (by rw [← hc.2]; exact List.mem_map_of_mem Prod.fst he)

theorem countP_key (tracks : List (String × StepsValue)) (name : String) (steps : StepsValue)
    (c : Nat) (hn : (objKeys tracks).Nodup) (hm : (name, steps) ∈ tracks) :
    tracks.countP (fun e => e.2.active c && decide (e.1 = name)) =
      if steps.active c = true then 1 else 0 := by
  induction tracks with
  | nil => simp at hm
  | cons e rest ih =>
    simp only [objKeys, List.map_cons, List.nodup_cons] at hn
    rw [List.countP_cons]
    rcases List.mem_cons.1 hm with h | h
    · subst h
      rw [countP_absent_key rest name c hn.1]
      simp
    · have hne : e.1 ≠ name := by
        intro heq
        exact hn.1 (by rw [heq]; exact List.mem_map_of_mem Prod.fst h)
      rw [ih hn.2 h]
      simp [hne]

theorem sum_active_eq_count (grid : List Bool) :
    ∀ n : Nat, grid.length ≤ n →
      ((List.range n).map (fun c => if grid.getD c false = true then 1 else 0)).sum =
        grid.count true := by
  induction grid with
  | nil =>
    intro n _
    simp
  | cons x xs ih =>
    intro n hn
    cases n with
    | zero => simp at hn
    | succ m =>
      have hm : xs.length ≤ m := by simpa using hn
      rw [List.range_succ_eq_map, List.map_cons, List.sum_cons, List.map_map]
      have : ((fun c => if (x :: xs).getD c false = true then 1 else 0) ∘ Nat.succ) =
          (fun c => if xs.getD c false = true then 1 else 0) := by
        funext c
        simp
      rw [this, ih m hm, List.count_cons]
      cases x
      · simp
      · simp [Nat.add_comm]

theorem run_log_total (s : Machine) (ctx : AudioContext) (name : String) (hi : Inv s)
    (h1 : s.isPlaying = false) (h2 : s.audioContext = some ctx) (n : Nat) :
    ∃ l : List Event, (runSteps s n).log = s.log ++ l ∧
      countTriggers name l =
        ((List.range (n + 1)).map (fun c => countTriggers name (stepLog s c))).sum := by
  induction n with
  | zero =>
    refine ⟨stepLog s 0, ?_, by simp [List.range_succ]⟩
    rw [run_log_zero s ctx h1 h2]
    simp only [runSteps]
    rw [clickPlay_start s ctx h1 h2]
  | succ n ih =>
    obtain ⟨l, hl, hc⟩ := ih
    obtain ⟨hlog, hstep⟩ := run_log_succ s ctx hi h1 h2 n
    refine ⟨l ++ stepLog s (n + 1), ?_, ?_⟩
    · rw [hlog, hl, hstep, List.append_assoc]
    · rw [countTriggers_append, hc, List.range_succ (n := n + 1), List.map_append,
        List.sum_append]
      simp

/-- C1: started from the STOPPED state and run for one 16-step cycle, step `c` of the
    run leaves the cursor at `c` and calls `playSample` for a track exactly once when
    the track's grid is true at `c` and not at all otherwise; over the cycle the number
    of `playSample` calls for the track is the number of true entries of its grid. -/
theorem cycle_triggers_match_grid (s : Machine) (ctx : AudioContext)
    (tracks : List (String × StepsValue)) (name : String) (steps : StepsValue)
    (hr : Reachable s) (h1 : s.isPlaying = false) (h2 : s.audioContext = some ctx)
    (ht : s.currentPattern.tracks = some tracks) (hn : (objKeys tracks).Nodup)
    (hm : (name, steps) ∈ tracks) :
    (∀ c : Nat, c < 16 →
      (runSteps s c).playbackStep = (c : Int) ∧
      countTriggers name (stepLog s c) = if steps.active c = true then 1 else 0) ∧
    (∀ grid : List Bool, steps = StepsValue.array grid → grid.length ≤ 16 →
      countTriggers name ((runSteps s 15).log.drop s.log.length) = grid.count true) := by
  have hi := reachable_inv s hr
  have hstep : ∀ c : Nat, c < 16 →
      countTriggers name (stepLog s c) = if steps.active c = true then 1 else 0 := by
    intro c hc
    have hcount := countP_key tracks name steps c hn hm
    cases c with
    | zero =>
      rw [run_log_zero s ctx h1 h2, countTriggers_append, countTriggers_append,
        countTriggers_stepEvents, ht]
      have e1 : countTriggers name (if ctx.suspended = true then [Event.resume] else []) = 0 := by
        split <;> simp [countTriggers]
      rw [e1]
      simp only [Option.getD_some]
      rw [hcount]
      simp [countTriggers]
    | succ k =>
      rw [(run_log_succ s ctx hi h1 h2 k).2, countTriggers_stepEvents, ht,
        Nat.mod_eq_of_lt hc]
      simpa using hcount
  refine ⟨fun c hc => ⟨?_, hstep c hc⟩, ?_⟩
  · obtain ⟨_, _, _, _, _, _, _, hp⟩ := run_shape s ctx hi h1 h2 c
    rw [hp, Nat.mod_eq_of_lt hc]
  · intro grid hg hlen
    obtain ⟨l, hl, hc⟩ := run_log_total s ctx name hi h1 h2 15
    rw [hl, List.drop_left, hc]
    rw [List.map_congr_left (fun c hc => hstep c (List.mem_range.1 hc))]
    subst hg
    exact sum_active_eq_count grid 16 hlen

/-- C1 at the kick-only "Classic Hip-Hop" pattern: 3 kick triggers over the cycle, at
    steps 0, 6 and 9. -/
theorem cycle_triggers_match_grid_witness :
    Reachable kickStart ∧
    countTriggers "kick" ((runSteps kickStart 15).log.drop kickStart.log.length) = 3 ∧
    (∀ c : Nat, c < 16 →
      countTriggers "kick" (stepLog kickStart c) = if c = 0 ∨ c = 6 ∨ c = 9 then 1 else 0) := by
  have hr : Reachable kickStart := Reachable.init _ _
  have h := cycle_triggers_match_grid kickStart { suspended := false, currentTime := 0 }
    [("kick", StepsValue.array kickGrid)] "kick" (StepsValue.array kickGrid)
    hr rfl rfl rfl (by simp [objKeys]) (by simp)
  refine ⟨hr, ?_, ?_⟩
  · rw [h.2 kickGrid rfl (by simp [kickGrid])]
    rfl
  · intro c hc
    rw [(h.1 c hc).2]
    interval_cases c <;> simp [StepsValue.active, kickGrid]

theorem intervalsPassed_stepEvents (p : Pattern) (ctx : Option AudioContext) (c : Nat) :
    intervalsPassed (stepEvents p ctx c) = [] := by
  unfold intervalsPassed stepEvents
  rw [List.filterMap_eq_nil_iff]
  intro e he
  rcases List.mem_cons.1 he with h | h
  · subst h; rfl
  · obtain ⟨x, _, hx⟩ := List.mem_map.1 h
    subst hx
    cases ctx <;> rfl

theorem intervalsPassed_append (a b : List Event) :
    intervalsPassed (a ++ b) = intervalsPassed a ++ intervalsPassed b := by
  simp [intervalsPassed]

theorem intervalsPassed_resume (b : Bool) :
    intervalsPassed (if b = true then [Event.resume] else []) = [] := by
  cases b <;> rfl

theorem setTempo_running (s : Machine) (t : ℚ) (tm : Timer) (hp : s.isPlaying = true)
    (ht : s.timers = [tm]) (hr : s.sequencerRef = some tm.id)
    (hne : s.currentPattern.tempo ≠ t) :
    setTempo s t =
      { s with
        currentPattern := { s.currentPattern with tempo := t }
        timers := [{ id := s.lastTimerId + 1, interval := stepInterval t,
                     stepIndex := if s.playbackStep = -1 then 0
                       else ((s.playbackStep + 1) % 16).toNat }]
        lastTimerId := s.lastTimerId + 1
        sequencerRef := some (s.lastTimerId + 1)
        log := s.log ++ [Event.clearInterval tm.id,
          Event.setInterval (s.lastTimerId + 1) (stepInterval t)] } := by
  unfold setTempo updatePattern
  simp only
  rw [if_pos (fun h => hne h.symm)]
  rw [tempoEffect_running { s with currentPattern := { s.currentPattern with tempo := t } }
    tm.id hp hr]
  simp [ht]

theorem kickStart_running :
    (clickPlay kickStart).isPlaying = true ∧ (clickPlay kickStart).currentPattern.tempo = 90 := by
  rw [clickPlay_start kickStart { suspended := false, currentTime := 0 } rfl rfl]
  exact ⟨rfl, rfl⟩

theorem count_setIsPlaying_stepEvents (p : Pattern) (ctx : Option AudioContext) (c : Nat)
    (b : Bool) : (stepEvents p ctx c).count (Event.setIsPlaying b) = 0 := by
  rw [List.count_eq_zero]
  intro he
  unfold stepEvents at he
  rcases List.mem_cons.1 he with h | h
  · cases h
  · obtain ⟨x, _, hx⟩ := List.mem_map.1 h
    cases ctx <;> simp [triggerEvent] at hx

theorem clickPlay_stop (s : Machine) (h : s.isPlaying = true) :
    clickPlay s = togglePlay s := by
  unfold clickPlay
  simp only
  have hs : (togglePlay s).isPlaying = false := by rw [togglePlay_stop s (Or.inl h)]
  rw [if_pos (by rw [hs, h]; simp), tempoEffect_stopped _ hs]

/-- C3: `togglePlay` in the STOPPED state with an audio context, whatever the pattern,
    cursor and earlier log, sets the cursor to 0, records the step-0 events (cursor
    update and one trigger per track active at step 0) before the `setInterval` call,
    and sets `isPlaying` to true exactly once; the re-render that follows only replaces
    the timer. -/
theorem start_fires_step_zero_first (s : Machine) (ctx : AudioContext)
    (h1 : s.isPlaying = false) (h2 : s.audioContext = some ctx) :
    (togglePlay s).playbackStep = 0 ∧ (togglePlay s).isPlaying = true ∧
    (togglePlay s).log = s.log ++ ((if ctx.suspended = true then [Event.resume] else []) ++
      (stepEvents s.currentPattern (some ctx) 0 ++
        [Event.setInterval (s.lastTimerId + 1) (stepInterval s.currentPattern.tempo),
         Event.setIsPlaying true])) ∧
    (clickPlay s).playbackStep = 0 ∧ (clickPlay s).isPlaying = true ∧
    (clickPlay s).log = (togglePlay s).log ++
      [Event.clearInterval (s.lastTimerId + 1),
       Event.setInterval (s.lastTimerId + 2) (stepInterval s.currentPattern.tempo)] ∧
    ((clickPlay s).log.drop s.log.length).count (Event.setIsPlaying true) = 1 ∧
    ((clickPlay s).log.drop s.log.length).count (Event.setIsPlaying false) = 0 := by
  rw [togglePlay_start s ctx h1 h2, clickPlay_start s ctx h1 h2]
  refine ⟨rfl, rfl, rfl, rfl, rfl, by simp, ?_, ?_⟩
  · simp only [List.drop_left, List.count_append, count_setIsPlaying_stepEvents]
    cases ctx.suspended <;> simp
  · simp only [List.drop_left, List.count_append, count_setIsPlaying_stepEvents]
    cases ctx.suspended <;> simp

theorem kickRun_stopped_shape (n : Nat) :
    (clickPlay (runSteps kickStart n)).isPlaying = false ∧
    (clickPlay (runSteps kickStart n)).audioContext =
      some { suspended := false, currentTime := 0 } := by
  obtain ⟨_, _, _, _, hp, _, ha, _⟩ :=
    run_shape kickStart { suspended := false, currentTime := 0 } (inv_initial _ _) rfl rfl n
  rw [clickPlay_stop _ hp, togglePlay_stop _ (Or.inl hp)]
  exact ⟨rfl, ha⟩

/-- C3 after a run that was stopped at cursor 5: the next start sets the cursor to 0
    and `isPlaying` to true. -/
theorem start_fires_step_zero_first_witness :
    (runSteps kickStart 5).playbackStep = 5 ∧
    (clickPlay (clickPlay (runSteps kickStart 5))).playbackStep = 0 ∧
    (clickPlay (clickPlay (runSteps kickStart 5))).isPlaying = true := by
  have h := start_fires_step_zero_first (clickPlay (runSteps kickStart 5))
    { suspended := false, currentTime := 0 } (kickRun_stopped_shape 5).1
    (kickRun_stopped_shape 5).2
  obtain ⟨_, _, _, _, _, _, _, hp⟩ :=
    run_shape kickStart { suspended := false, currentTime := 0 } (inv_initial _ _) rfl rfl 5
  exact ⟨hp, h.2.2.2.1, h.2.2.2.2.1⟩

theorem reachable_tickCurrent (s : Machine) (h : Reachable s) : Reachable (tickCurrent s) := by
  unfold tickCurrent
  cases s.sequencerRef with
  | none => exact h
  | some id => exact Reachable.tick id h

theorem reachable_runSteps (s : Machine) (h : Reachable s) (n : Nat) :
    Reachable (runSteps s n) := by
  induction n with
  | zero => exact Reachable.clickPlay h
  | succ n ih => exact reachable_tickCurrent _ ih

theorem tickCurrent_running (s : Machine) (tm : Timer) (ht : s.timers = [tm])
    (hr : s.sequencerRef = some tm.id) :
    tickCurrent s =
      { s with
        playbackStep := (tm.stepIndex : Int)
        timers := [{ tm with stepIndex := (tm.stepIndex + 1) % 16 }]
        log := s.log ++ stepEvents s.currentPattern s.audioContext tm.stepIndex } := by
  have h : tickCurrent s = tick s tm.id := by
    unfold tickCurrent
    simp only [hr]
  rw [h]
  exact tick_single s tm ht

/-- C4: in every reachable RUNNING state the cursor is between 0 and 15, and a firing
    of the sequencer's timer moves it from `c` to `(c + 1) mod 16`, so 15 is followed
    by 0; a timer id that is not active fires nothing. -/
theorem cursor_in_range_and_wraps (s : Machine) (hr : Reachable s)
    (hp : s.isPlaying = true) :
    0 ≤ s.playbackStep ∧ s.playbackStep ≤ 15 ∧
    (tickCurrent s).playbackStep = (s.playbackStep + 1) % 16 ∧
    (tickCurrent s).isPlaying = true ∧
    (s.playbackStep = 15 → (tickCurrent s).playbackStep = 0) ∧
    (∀ id : Nat, tick s id = s ∨ (tick s id).playbackStep = (s.playbackStep + 1) % 16) := by
  obtain ⟨tm, ht, hrf, h0, h15, hk, _⟩ := (reachable_inv s hr).2 hp
  have hc : (tickCurrent s).playbackStep = (s.playbackStep + 1) % 16 := by
    rw [tickCurrent_running s tm ht hrf]
    exact hk
  refine ⟨h0, h15, hc, ?_, ?_, ?_⟩
  · rw [tickCurrent_running s tm ht hrf]
    exact hp
  · intro h
    rw [hc, h]
    rfl
  · intro id
    by_cases hid : tm.id = id
    · right
      subst hid
      rw [tick_single s tm ht]
      exact hk
    · left
      exact tick_inactive s id (by simpa [ht] using hid)

/-- C4 at the end of a cycle: after 15 firings the cursor is 15 and the next firing
    moves it to 0. -/
theorem cursor_in_range_and_wraps_witness :
    (runSteps kickStart 15).playbackStep = 15 ∧
    (tickCurrent (runSteps kickStart 15)).playbackStep = 0 := by
  obtain ⟨_, _, _, _, hp, _, _, hc⟩ :=
    run_shape kickStart { suspended := false, currentTime := 0 } (inv_initial _ _) rfl rfl 15
  have h := cursor_in_range_and_wraps (runSteps kickStart 15)
    (reachable_runSteps kickStart (Reachable.init _ _) 15) hp
  exact ⟨hc, h.2.2.2.2.1 hc⟩

theorem setTempo_same (s : Machine) : setTempo s s.currentPattern.tempo = s := by
  unfold setTempo updatePattern
  simp

/-- C5: changing the tempo of a reachable RUNNING sequencer whose cursor is `p` keeps
    the cursor and the play state, fires no trigger, and leaves one timer, installed
    with the interval `60000 / (t * 4)` of the new tempo as the host computes it in
    double precision, whose next firing plays step `(p + 1) mod 16`, which is 0 only
    when `p = 15`. -/
theorem tempo_change_keeps_cursor (s : Machine) (t : ℚ) (hr : Reachable s)
    (hp : s.isPlaying = true) :
    (setTempo s t).playbackStep = s.playbackStep ∧
    (setTempo s t).isPlaying = true ∧
    (setTempo s t).currentPattern = { s.currentPattern with tempo := t } ∧
    (tickCurrent (setTempo s t)).playbackStep = (s.playbackStep + 1) % 16 ∧
    (s.playbackStep ≠ 15 → (tickCurrent (setTempo s t)).playbackStep ≠ 0) ∧
    (∃ tm : Timer, (setTempo s t).timers = [tm] ∧
      (setTempo s t).sequencerRef = some tm.id ∧
      tm.interval = toDouble (60000 / toDouble (t * 4))) ∧
    (∀ name : String, countTriggers name (setTempo s t).log = countTriggers name s.log) := by
  obtain ⟨tm, ht, hrf, h0, h15, hk, hiv⟩ := (reachable_inv s hr).2 hp
  by_cases hne : s.currentPattern.tempo = t
  · subst hne
    rw [setTempo_same]
    have hc : (tickCurrent s).playbackStep = (s.playbackStep + 1) % 16 := by
      rw [tickCurrent_running s tm ht hrf]
      exact hk
    refine ⟨rfl, hp, rfl, hc, ?_, ⟨tm, ht, hrf, hiv⟩, fun _ => rfl⟩
    intro h15
    rw [hc]
    omega
  · rw [setTempo_running s t tm hp ht hrf hne]
    have hc : (tickCurrent
        { s with
          currentPattern := { s.currentPattern with tempo := t }
          timers := [{ id := s.lastTimerId + 1, interval := stepInterval t,
                       stepIndex := if s.playbackStep = -1 then 0
                         else ((s.playbackStep + 1) % 16).toNat }]
          lastTimerId := s.lastTimerId + 1
          sequencerRef := some (s.lastTimerId + 1)
          log := s.log ++ [Event.clearInterval tm.id,
            Event.setInterval (s.lastTimerId + 1) (stepInterval t)] }).playbackStep =
        (s.playbackStep + 1) % 16 := by
      rw [tickCurrent_running _ _ rfl rfl]
      have hm : s.playbackStep ≠ -1 := by omega
      simp only [if_neg hm]
      omega
    refine ⟨rfl, hp, rfl, hc, ?_, ⟨_, rfl, rfl, rfl⟩, fun name => ?_⟩
    · intro h15
      rw [hc]
      omega
    · simp [countTriggers]

/-- C5 at cursor 5: changing the tempo from 90 to 120 leaves the cursor at 5 and the
    next firing plays step 6. -/
theorem tempo_change_keeps_cursor_witness :
    (runSteps kickStart 5).playbackStep = 5 ∧
    (setTempo (runSteps kickStart 5) 120).playbackStep = 5 ∧
    (tickCurrent (setTempo (runSteps kickStart 5) 120)).playbackStep = 6 := by
  obtain ⟨_, _, _, _, hp, _, _, hc⟩ :=
    run_shape kickStart { suspended := false, currentTime := 0 } (inv_initial _ _) rfl rfl 5
  have h := tempo_change_keeps_cursor (runSteps kickStart 5) 120
    (reachable_runSteps kickStart (Reachable.init _ _) 5) hp
  refine ⟨hc, ?_, ?_⟩
  · rw [h.1, hc]
    rfl
  · rw [h.2.2.2.1, hc]
    rfl

/-- C6: `togglePlay` in a reachable RUNNING state clears the sequencer's timer, which
    is the only active one, so no timer firing changes the state afterwards; it sets
    the cursor to -1 and `isPlaying` to false, and the re-render changes nothing. -/
theorem stop_cancels_timer (s : Machine) (hr : Reachable s) (hp : s.isPlaying = true) :
    clickPlay s = togglePlay s ∧
    (togglePlay s).isPlaying = false ∧
    (togglePlay s).playbackStep = -1 ∧
    (togglePlay s).timers = [] ∧
    (togglePlay s).sequencerRef = none ∧
    (∃ tm : Timer, s.timers = [tm] ∧
      (togglePlay s).log = s.log ++
        [Event.clearInterval tm.id, Event.setPlaybackStep (-1), Event.setIsPlaying false]) ∧
    (∀ id : Nat, tick (togglePlay s) id = togglePlay s) := by
  obtain ⟨tm, ht, hrf, _⟩ := (reachable_inv s hr).2 hp
  have hstop := togglePlay_stop s (Or.inl hp)
  have htm : (togglePlay s).timers = [] := by
    rw [hstop]
    simp [hrf, ht]
  refine ⟨clickPlay_stop s hp, ?_, ?_, htm, ?_, ⟨tm, ht, ?_⟩, ?_⟩
  · rw [hstop]
  · rw [hstop]
  · rw [hstop]
  · rw [hstop]
    simp [hrf]
  · intro id
    exact tick_inactive _ id (by simp [htm])

/-- C6 at cursor 5 of a run: stopping leaves no timer and the cursor at -1. -/
theorem stop_cancels_timer_witness :
    (runSteps kickStart 5).playbackStep = 5 ∧
    (togglePlay (runSteps kickStart 5)).playbackStep = -1 ∧
    (togglePlay (runSteps kickStart 5)).timers = [] ∧
    (togglePlay (runSteps kickStart 5)).isPlaying = false := by
  obtain ⟨_, _, _, _, hp, _, _, hc⟩ :=
    run_shape kickStart { suspended := false, currentTime := 0 } (inv_initial _ _) rfl rfl 5
  have h := stop_cancels_timer (runSteps kickStart 5)
    (reachable_runSteps kickStart (Reachable.init _ _) 5) hp
  exact ⟨hc, h.2.2.1, h.2.2.2.1, h.2.1⟩

/-- C7, as stated, fails: `togglePlay` requested in the RUNNING state changes the play
    state, the cursor and the timer, and requested in the STOPPED state (with an audio
    context) it changes the play state and the cursor. -/
theorem toggle_request_not_noop :
    (clickPlay kickStart).isPlaying = true ∧
    (togglePlay (clickPlay kickStart)).isPlaying = false ∧
    (clickPlay kickStart).playbackStep = 0 ∧
    (togglePlay (clickPlay kickStart)).playbackStep = -1 ∧
    (clickPlay kickStart).timers ≠ [] ∧
    (togglePlay (clickPlay kickStart)).timers = [] ∧
    kickStart.isPlaying = false ∧
    (togglePlay kickStart).isPlaying = true ∧
    kickStart.playbackStep = -1 ∧
    (togglePlay kickStart).playbackStep = 0 := by
  have hrun : (clickPlay kickStart).isPlaying = true := kickStart_running.1
  have hstop := togglePlay_stop (clickPlay kickStart) (Or.inl hrun)
  have hstart := togglePlay_start kickStart { suspended := false, currentTime := 0 } rfl rfl
  have hc := clickPlay_start kickStart { suspended := false, currentTime := 0 } rfl rfl
  refine ⟨hrun, ?_, ?_, ?_, ?_, ?_, rfl, ?_, rfl, ?_⟩
  · rw [hstop]
  · rw [hc]
  · rw [hstop]
  · rw [hc]; simp
  · rw [hstop, hc]; simp [kickStart, initial]
  · rw [hstart]
  · rw [hstart]

/-- C7, amended: a reachable state is STOPPED (no timer, cursor -1) or RUNNING (one
    timer, cursor in 0..15), and a click on play toggles: from RUNNING it stops, from
    STOPPED with an audio context it starts at cursor 0, and from STOPPED without an
    audio context it leaves the play state, the cursor and the timers as they are. -/
theorem togglePlay_toggles (s : Machine) (hr : Reachable s) :
    ((s.isPlaying = false ∧ s.timers = [] ∧ s.sequencerRef = none ∧ s.playbackStep = -1) ∨
      (s.isPlaying = true ∧ 0 ≤ s.playbackStep ∧ s.playbackStep ≤ 15 ∧
        ∃ tm : Timer, s.timers = [tm] ∧ s.sequencerRef = some tm.id)) ∧
    (s.isPlaying = true →
      (clickPlay s).isPlaying = false ∧ (clickPlay s).playbackStep = -1 ∧
      (clickPlay s).timers = [] ∧ (clickPlay s).sequencerRef = none) ∧
    (s.isPlaying = false → s.audioContext.isSome = true →
      (clickPlay s).isPlaying = true ∧ (clickPlay s).playbackStep = 0 ∧
      ∃ tm : Timer, (clickPlay s).timers = [tm] ∧ (clickPlay s).sequencerRef = some tm.id) ∧
    (s.isPlaying = false → s.audioContext = none →
      (clickPlay s).isPlaying = s.isPlaying ∧ (clickPlay s).playbackStep = s.playbackStep ∧
      (clickPlay s).timers = s.timers ∧ (clickPlay s).sequencerRef = s.sequencerRef) := by
  have hi := reachable_inv s hr
  refine ⟨?_, ?_, ?_, ?_⟩
  · rcases Bool.eq_false_or_eq_true s.isPlaying with hp | hp
    · obtain ⟨tm, ht, hrf, h0, h15, _⟩ := hi.2 hp
      exact Or.inr ⟨hp, h0, h15, tm, ht, hrf⟩
    · exact Or.inl ⟨hp, hi.1 hp⟩
  · intro hp
    obtain ⟨tm, ht, hrf, _⟩ := hi.2 hp
    rw [clickPlay_stop s hp, togglePlay_stop s (Or.inl hp)]
    exact ⟨rfl, rfl, by simp [hrf, ht], rfl⟩
  · intro hp ha
    obtain ⟨ctx, hctx⟩ := Option.isSome_iff_exists.1 ha
    rw [clickPlay_start s ctx hp hctx]
    refine ⟨rfl, rfl, (⟨s.lastTimerId + 2, stepInterval s.currentPattern.tempo, 1⟩ : Timer),
      ?_, rfl⟩
    simp [(hi.1 hp).1]
  · intro hp ha
    obtain ⟨ht, hrf, hc⟩ := hi.1 hp
    have hs := togglePlay_stop s (Or.inr ha)
    have hsame : clickPlay s = togglePlay s := by
      unfold clickPlay
      simp only
      rw [if_neg (by rw [hs, hp]; simp)]
    rw [hsame, hs]
    exact ⟨hp.symm, hc.symm, by simp [hrf], by simp [hrf]⟩

/-- C7 amended, at concrete states: the running kick pattern stops on a click, and a
    click without an audio context leaves the sequencer STOPPED with cursor -1. -/
theorem togglePlay_toggles_witness :
    (clickPlay (clickPlay kickStart)).isPlaying = false ∧
    (clickPlay kickStartNoAudio).isPlaying = false ∧
    (clickPlay kickStartNoAudio).playbackStep = -1 := by
  have h := togglePlay_toggles (clickPlay kickStart) (Reachable.clickPlay (Reachable.init _ _))
  have h2 := togglePlay_toggles kickStartNoAudio (Reachable.init _ _)
  exact ⟨(h.2.1 kickStart_running.1).1, (h2.2.2.2 rfl rfl).1, (h2.2.2.2 rfl rfl).2.1⟩

/-- C8, the failing case: with the kick level at 0 the sequencer and the test trigger
    call `playSample` with velocity `7/10`, not 0; for a level `L ≠ 0` the velocity is
    `L / 100`. -/
theorem level_zero_velocity :
    trackLevel kickLevelZeroPattern "kick" = 7 / 10 ∧
    stepEvents kickLevelZeroPattern (some { suspended := false, currentTime := 0 }) 0 =
      [Event.setPlaybackStep 0, Event.playSample "kick" 0 (7 / 10) 0 50] ∧
    (testSample (initial kickLevelZeroPattern (some { suspended := false, currentTime := 0 }))
      "kick").log = [Event.playSample "kick" 0 (7 / 10) 0 50] ∧
    (∀ (p : Pattern) (levels : List (String × ℚ)) (name : String) (L : ℚ),
      p.levels = some levels → objGet levels name = some L → L ≠ 0 →
      trackLevel p name = L / 100) := by
  have h1 : trackLevel kickLevelZeroPattern "kick" = 7 / 10 := by
    simp [trackLevel, kickLevelZeroPattern, objGet, numOr]
    norm_num
  have h2 : trackTune kickLevelZeroPattern "kick" = 0 := by
    simp [trackTune, kickLevelZeroPattern, kickOnlyPattern, objGet, numOr]
  have h3 : trackDecay kickLevelZeroPattern "kick" = 50 := by
    simp [trackDecay, kickLevelZeroPattern, kickOnlyPattern, objGet, numOr]
  refine ⟨h1, ?_, ?_, ?_⟩
  · have ht : kickLevelZeroPattern.tracks = some [("kick", StepsValue.array kickGrid)] := rfl
    simp only [stepEvents, ht, Option.getD_some, triggerEvent]
    simp [StepsValue.active, kickGrid, h1, h2, h3]
  · simp [testSample, initial, h1, h2, h3]
  · intro p levels name L hl hg hL
    simp [trackLevel, hl, hg, numOr, hL]

theorem objGet_objSet {α : Type} (o : List (String × α)) (k : String) (v : α) (key : String) :
    objGet (objSet o k v) key = if k = key then some v else objGet o key := by
  induction o with
  | nil => simp [objSet, objGet]
  | cons e rest ih =>
    obtain ⟨k1, w⟩ := e
    by_cases h1 : k1 = k
    · subst h1
      by_cases h2 : k1 = key <;> simp [objSet, objGet, h2]
    · by_cases h2 : k1 = key
      · subst h2
        simp [objSet, objGet, h1, Ne.symm h1]
      · simp [objSet, objGet, h1, h2, ih]

theorem objGet_eq_none {α : Type} (o : List (String × α)) (key : String)
    (h : key ∉ objKeys o) : objGet o key = none := by
  induction o with
  | nil => rfl
  | cons e rest ih =>
    obtain ⟨k1, w⟩ := e
    simp only [objKeys, List.map_cons, List.mem_cons, not_or] at h
    simp only [objGet, if_neg (Ne.symm h.1)]
    exact ih h.2

theorem objKeys_objSet {α : Type} (o : List (String × α)) (k : String) (v : α) :
    objKeys (objSet o k v) = if k ∈ objKeys o then objKeys o else objKeys o ++ [k] := by
  induction o with
  | nil => simp [objSet, objKeys]
  | cons e rest ih =>
    obtain ⟨k1, w⟩ := e
    by_cases h1 : k1 = k
    · subst h1
      simp [objSet, objKeys]
    · have ih2 : List.map Prod.fst (objSet rest k v) =
          if k ∈ List.map Prod.fst rest then List.map Prod.fst rest
          else List.map Prod.fst rest ++ [k] := ih
      simp only [objSet, if_neg h1, objKeys, List.map_cons, List.mem_cons, ih2]
      by_cases h2 : k ∈ List.map Prod.fst rest
      · simp [h2]
      · simp [h2, Ne.symm h1]

theorem nodup_objSet {α : Type} (o : List (String × α)) (k : String) (v : α)
    (h : (objKeys o).Nodup) : (objKeys (objSet o k v)).Nodup := by
  rw [objKeys_objSet]
  split
  · exact h
  · rename_i hk
    rw [List.nodup_append]
    exact ⟨h, List.nodup_singleton k, by
      intro x hx hx2
      rw [List.mem_singleton] at hx2
      subst hx2
      exact hk hx⟩

theorem nodup_objSpread {α : Type} (b : List (String × α)) :
    ∀ a : List (String × α), (objKeys a).Nodup → (objKeys (objSpread a b)).Nodup := by
  induction b with
  | nil => intro a h; exact h
  | cons e rest ih =>
    intro a h
    exact ih _ (nodup_objSet a e.1 e.2 h)

theorem objGet_objSpread {α : Type} (b : List (String × α)) :
    ∀ a : List (String × α), (objKeys b).Nodup → ∀ key : String,
      objGet (objSpread a b) key =
        match objGet b key with
        | some v => some v
        | none => objGet a key := by
  induction b with
  | nil => intro a _ key; rfl
  | cons e rest ih =>
    intro a h key
    obtain ⟨k1, w⟩ := e
    simp only [objKeys, List.map_cons, List.nodup_cons] at h
    have hstep : objSpread a ((k1, w) :: rest) = objSpread (objSet a k1 w) rest := rfl
    rw [hstep, ih _ h.2 key, objGet_objSet]
    by_cases hk : k1 = key
    · subst hk
      rw [objGet_eq_none rest k1 h.1]
      simp [objGet]
    · simp [objGet, hk]

theorem objGet_foldl_buffers (allFiles : List (String × FileData)) :
    ∀ acc : List (String × AudioBuffer), (objKeys allFiles).Nodup → ∀ key : String,
      objGet (allFiles.foldl
        (fun buffers e =>
          match e.2 with
          | FileData.file (some audioBuffer) => objSet buffers e.1 audioBuffer
          | _ => buffers) acc) key =
        match objGet allFiles key with
        | some (FileData.file (some audioBuffer)) => some audioBuffer
        | _ => objGet acc key := by
  induction allFiles with
  | nil => intro acc _ key; rfl
  | cons e rest ih =>
    intro acc h key
    obtain ⟨k1, d⟩ := e
    simp only [objKeys, List.map_cons, List.nodup_cons] at h
    rw [List.foldl_cons, ih _ h.2 key]
    by_cases hk : k1 = key
    · subst hk
      rw [objGet_eq_none rest k1 h.1]
      cases d with
      | falsy => simp [objGet]
      | noFileMethod => simp [objGet]
      | file r =>
        cases r with
        | none => simp [objGet]
        | some b => simp [objGet, objGet_objSet]
    · have hacc : objGet (match d with
          | FileData.file (some audioBuffer) => objSet acc k1 audioBuffer
          | _ => acc) key = objGet acc key := by
        cases d with
        | falsy => rfl
        | noFileMethod => rfl
        | file r =>
          cases r with
          | none => rfl
          | some b => simp [objGet_objSet, hk]
      simp only [objGet, if_neg hk]
      rw [hacc]

theorem buffers_isSome_eq_specDecoded (patternFiles libraryFiles : List (String × FileData))
    (hp : (objKeys patternFiles).Nodup) (hl : (objKeys libraryFiles).Nodup) (f : String) :
    (objGet (loadBuffers (objSpread libraryFiles patternFiles)) f).isSome =
      specDecoded patternFiles libraryFiles f := by
  unfold loadBuffers
  rw [objGet_foldl_buffers _ [] (nodup_objSpread patternFiles libraryFiles hl) f,
    objGet_objSpread patternFiles libraryFiles hp f]
  unfold specDecoded
  cases h1 : objGet patternFiles f with
  | some d =>
    cases d with
    | falsy => simp [FileData.decodes, objGet]
    | noFileMethod => simp [FileData.decodes, objGet]
    | file r => cases r <;> simp [FileData.decodes, objGet]
  | none =>
    cases h2 : objGet libraryFiles f with
    | none => simp [objGet]
    | some d =>
      cases d with
      | falsy => simp [FileData.decodes, objGet]
      | noFileMethod => simp [FileData.decodes, objGet]
      | file r => cases r <;> simp [FileData.decodes, objGet]

theorem trackName_ne_empty (trackName : String) (h : trackName ∈ trackNames) :
    trackName ≠ "" := by
  revert trackName
  decide

theorem objGet_foldl_mapping (g : String → Option String) (names : List String) :
    ∀ acc : List (String × String), names.Nodup → ∀ key : String,
      objGet (names.foldl
        (fun mapping trackName =>
          match g trackName with
          | some sample => if strTruthy (g trackName) = true then objSet mapping trackName sample
              else mapping
          | none => mapping) acc) key =
        if key ∈ names ∧ strTruthy (g key) = true then g key else objGet acc key := by
  induction names with
  | nil => intro acc _ key; simp
  | cons n rest ih =>
    intro acc h key
    simp only [List.nodup_cons] at h
    rw [List.foldl_cons, ih _ h.2 key]
    by_cases hk : key ∈ rest
    · have hne : n ≠ key := fun he => h.1 (he ▸ hk)
      by_cases ht : strTruthy (g key) = true
      · simp [hk, ht]
      · have hacc : objGet (match g n with
            | some sample => if strTruthy (g n) = true then objSet acc n sample else acc
            | none => acc) key = objGet acc key := by
          cases hg : g n with
          | none => rfl
          | some x =>
            simp only
            split
            · rw [objGet_objSet, if_neg hne]
            · rfl
        simp [hk, ht, hacc]
    · by_cases hn : n = key
      · subst hn
        cases hg : g n with
        | none => simp [hk, strTruthy, objGet_eq_none]
        | some x =>
          by_cases ht : strTruthy (some x) = true
          · simp [hk, ht, objGet_objSet]
          · simp [hk, ht]
      · have hacc : objGet (match g n with
            | some sample => if strTruthy (g n) = true then objSet acc n sample else acc
            | none => acc) key = objGet acc key := by
          cases hg : g n with
          | none => rfl
          | some x =>
            simp only
            split
            · rw [objGet_objSet, if_neg hn]
            · rfl
        simp [hk, Ne.symm hn, hacc]

theorem fileTruthy_bind (patternFiles : Option (List (String × FileData))) (key : String) :
    fileTruthy (patternFiles.bind (fun files => objGet files key)) =
      fileTruthy (objGet (patternFiles.getD []) key) := by
  cases patternFiles <;> rfl

theorem sourceDurations_playAudioBuffer (pow2 : ℚ → ℚ) (ctx : AudioContext)
    (buffer : AudioBuffer) (time velocity tune decay : ℚ) :
    sourceDurations (playAudioBuffer pow2 (some ctx) buffer time velocity tune decay) =
      [(node "source", playAudioBufferDuration decay)] := by
  simp [sourceDurations, playAudioBuffer, startTime, List.findSome?]

/-- C13: for every decay `d` in [1,100] the duration computed by `playAudioBuffer` is
    `clamp(d/100*3, 0.1, 3.0)`, and the source plays from its start for exactly that
    long; `d = 1` gives 0.1 s and `d = 100` gives 3.0 s. -/
theorem playback_duration_in_range (d : ℚ) (_h1 : 1 ≤ d) (h100 : d ≤ 100) :
    playAudioBufferDuration d = specClamp (d / 100 * 3) 0.1 3.0 ∧
    (∀ (pow2 : ℚ → ℚ) (ctx : AudioContext) (buffer : AudioBuffer)
        (time velocity tune : ℚ),
      sourceDurations (playAudioBuffer pow2 (some ctx) buffer time velocity tune d) =
        [(node "source", specClamp (d / 100 * 3) 0.1 3.0)]) ∧
    playAudioBufferDuration 1 = 0.1 ∧
    playAudioBufferDuration 100 = 3.0 := by
  have hd : playAudioBufferDuration d = specClamp (d / 100 * 3) 0.1 3.0 := by
    unfold playAudioBufferDuration specClamp
    have hx : d / 100 * 3 ≤ 3.0 := by norm_num; linarith
    have hm : max (d / 100 * 3) 0.1 ≤ 3.0 := max_le hx (by norm_num)
    rw [min_eq_left hm, max_comm]
  refine ⟨hd, ?_, ?_, ?_⟩
  · intro pow2 ctx buffer time velocity tune
    rw [sourceDurations_playAudioBuffer, hd]
  · unfold playAudioBufferDuration
    norm_num
  · unfold playAudioBufferDuration
    norm_num

/-- C13 at the default decay 50: the playback duration is 1.5 s. -/
theorem playback_duration_in_range_witness :
    playAudioBufferDuration 50 = 3 / 2 := by
  rw [(playback_duration_in_range 50 (by norm_num) (by norm_num)).1]
  norm_num [specClamp]

/-- C14, the failing case: a decay of 200 gives a playback duration of 6 s, above the
    3.0 s that `clamp(200/100*3.0, 0.1, 3.0)` allows; the lower bound 0.1 s holds for
    every decay. -/
theorem playback_duration_unbounded_above :
    playAudioBufferDuration 200 = 6 ∧
    specClamp (200 / 100 * 3.0) 0.1 3.0 = 3 ∧
    sourceDurations (playAudioBuffer pow2Whole (some { suspended := false, currentTime := 0 })
      { duration := 1 } 0 1 0 200) = [(node "source", 6)] ∧
    (∀ d : ℚ, 0.1 ≤ playAudioBufferDuration d) := by
  have h : playAudioBufferDuration 200 = 6 := by
    unfold playAudioBufferDuration
    norm_num
  refine ⟨h, ?_, ?_, ?_⟩
  · norm_num [specClamp]
  · rw [sourceDurations_playAudioBuffer, h]
  · intro d
    exact le_max_left _ _

/-- C15: with an audio context, the calls of `playAudioBuffer` schedule on the gain
    exactly a set to `velocity * 0.8` at `time` and an exponential ramp to 0.001 at
    `time + max(0.1, decay / 100 * 3)`, start the source at `time` and stop it at
    `time + max(0.1, decay / 100 * 3)`; the played buffer is routed through the gain to
    the destination. The envelope, the start and the stop are the same for every
    buffer, whatever its own length: the source sounds for `max(0.1, decay / 100 * 3)`
    seconds. -/
theorem playAudioBuffer_envelope (pow2 : ℚ → ℚ) (ctx : AudioContext) (buffer : AudioBuffer)
    (time velocity tune decay : ℚ) :
    paramEvents (playAudioBuffer pow2 (some ctx) buffer time velocity tune decay)
        (node "gainNode") "gain" =
      [(false, velocity * (4 / 5), time),
       (true, 1 / 1000, time + max (1 / 10) (decay / 100 * 3))] ∧
    startTime (playAudioBuffer pow2 (some ctx) buffer time velocity tune decay)
      (node "source") = some time ∧
    stopTime (playAudioBuffer pow2 (some ctx) buffer time velocity tune decay)
      (node "source") = some (time + max (1 / 10) (decay / 100 * 3)) ∧
    sourceDurations (playAudioBuffer pow2 (some ctx) buffer time velocity tune decay) =
      [(node "source", max (1 / 10) (decay / 100 * 3))] ∧
    AudioOp.setSampleBuffer (node "source") buffer ∈
      playAudioBuffer pow2 (some ctx) buffer time velocity tune decay ∧
    AudioOp.connect (node "source") (node "gainNode") ∈
      playAudioBuffer pow2 (some ctx) buffer time velocity tune decay ∧
    AudioOp.connect (node "gainNode") destination ∈
      playAudioBuffer pow2 (some ctx) buffer time velocity tune decay ∧
    (∀ other : AudioBuffer,
      (playAudioBuffer pow2 (some ctx) other time velocity tune decay).tail =
        (playAudioBuffer pow2 (some ctx) buffer time velocity tune decay).tail) ∧
    (∀ other : AudioBuffer,
      max (1 / 10) (decay / 100 * 3) < other.duration →
      stopTime (playAudioBuffer pow2 (some ctx) other time velocity tune decay)
          (node "source") = some (time + max (1 / 10) (decay / 100 * 3)) ∧
      sourceDurations (playAudioBuffer pow2 (some ctx) other time velocity tune decay) =
        [(node "source", max (1 / 10) (decay / 100 * 3))]) := by
  have hd : playAudioBufferDuration decay = max (1 / 10) (decay / 100 * 3) := by
    unfold playAudioBufferDuration
    norm_num
  have hstop : ∀ b : AudioBuffer,
      stopTime (playAudioBuffer pow2 (some ctx) b time velocity tune decay) (node "source") =
        some (time + max (1 / 10) (decay / 100 * 3)) := by
    intro b
    rw [← hd]
    simp [stopTime, playAudioBuffer, List.findSome?]
  have hdur : ∀ b : AudioBuffer,
      sourceDurations (playAudioBuffer pow2 (some ctx) b time velocity tune decay) =
        [(node "source", max (1 / 10) (decay / 100 * 3))] := by
    intro b
    rw [sourceDurations_playAudioBuffer, hd]
  refine ⟨?_, ?_, hstop buffer, hdur buffer, ?_, ?_, ?_, fun _ => rfl, ?_⟩
  · rw [← hd]
    simp [paramEvents, playAudioBuffer, node, destination]
    norm_num
  · simp [startTime, playAudioBuffer, List.findSome?]
  · simp [playAudioBuffer]
  · simp [playAudioBuffer]
  · simp [playAudioBuffer]
  · intro other _
    exact ⟨hstop other, hdur other⟩

theorem sourceDurations_kick (pow2 : ℚ → ℚ) (time velocity tune decay : ℚ) :
    sourceDurations (createDrumSounds.kick pow2 time velocity tune decay) =
      [(node "osc1", decay / 100 * 1.5), (node "osc2", decay / 100 * 1.5)] := by
  simp [sourceDurations, createDrumSounds.kick, startTime, List.findSome?, node]

theorem sourceDurations_openhat (pow2 : ℚ → ℚ) (time velocity tune decay : ℚ) :
    sourceDurations (createDrumSounds.openhat pow2 time velocity tune decay) =
      [(⟨"osc", 0⟩, decay / 100 * 0.8), (⟨"osc", 1⟩, decay / 100 * 0.8),
       (⟨"osc", 2⟩, decay / 100 * 0.8), (⟨"osc", 3⟩, decay / 100 * 0.8)] := by
  simp [sourceDurations, createDrumSounds.openhat, startTime, List.findSome?, List.enum,
    List.enumFrom, List.flatMap]

theorem sourceDurations_snare (pow2 : ℚ → ℚ) (time velocity tune decay : ℚ) :
    sourceDurations (createDrumSounds.snare pow2 time velocity tune decay) =
      [(node "noise", decay / 100 * 0.3), (node "osc", decay / 100 * 0.3 * 2)] := by
  simp [sourceDurations, createDrumSounds.snare, startTime, List.findSome?, node]

theorem sourceDurations_closedhat (pow2 : ℚ → ℚ) (time velocity tune decay : ℚ) :
    sourceDurations (createDrumSounds.closedhat pow2 time velocity tune decay) =
      [(⟨"osc", 0⟩, decay / 100 * 0.1), (⟨"osc", 1⟩, decay / 100 * 0.1),
       (⟨"osc", 2⟩, decay / 100 * 0.1), (⟨"osc", 3⟩, decay / 100 * 0.1)] := by
  simp [sourceDurations, createDrumSounds.closedhat, startTime, List.findSome?, List.enum,
    List.enumFrom, List.flatMap]

theorem sourceDurations_clap (pow2 : ℚ → ℚ) (time velocity tune decay : ℚ) :
    sourceDurations (createDrumSounds.clap pow2 time velocity tune decay) =
      [(⟨"noise", 0⟩, decay / 100 * 0.2), (⟨"noise", 1⟩, decay / 100 * 0.2),
       (⟨"noise", 2⟩, decay / 100 * 0.2), (⟨"noise", 3⟩, decay / 100 * 0.2)] := by
  simp [sourceDurations, createDrumSounds.clap, startTime, List.findSome?, List.enum,
    List.enumFrom, List.flatMap]

theorem sourceDurations_crash (pow2 : ℚ → ℚ) (time velocity tune decay : ℚ) :
    sourceDurations (createDrumSounds.crash pow2 time velocity tune decay) =
      [(⟨"osc", 0⟩, decay / 100 * 2), (⟨"osc", 1⟩, decay / 100 * 2),
       (⟨"osc", 2⟩, decay / 100 * 2), (⟨"osc", 3⟩, decay / 100 * 2),
       (⟨"osc", 4⟩, decay / 100 * 2)] := by
  simp [sourceDurations, createDrumSounds.crash, startTime, List.findSome?, List.enum,
    List.enumFrom, List.flatMap]

theorem sourceDurations_cowbell (pow2 : ℚ → ℚ) (time velocity tune decay : ℚ) :
    sourceDurations (createDrumSounds.cowbell pow2 time velocity tune decay) =
      [(node "osc1", decay / 100 * 0.4), (node "osc2", decay / 100 * 0.4)] := by
  simp [sourceDurations, createDrumSounds.cowbell, startTime, List.findSome?, node]

theorem sourceDurations_clave (pow2 : ℚ → ℚ) (time velocity tune decay : ℚ) :
    sourceDurations (createDrumSounds.clave pow2 time velocity tune decay) =
      [(node "osc", decay / 100 * 0.15)] := by
  simp [sourceDurations, createDrumSounds.clave, startTime, List.findSome?, node]

theorem createDrumSounds_cases (pow2 : ℚ → ℚ) (ctx : AudioContext) (trackName : String)
    (voice : ℚ → ℚ → ℚ → ℚ → List AudioOp)
    (h : objGet (createDrumSounds pow2 (some ctx)) trackName = some voice) :
    (trackName = "kick" ∧ voice = createDrumSounds.kick pow2) ∨
    (trackName = "snare" ∧ voice = createDrumSounds.snare pow2) ∨
    (trackName = "openhat" ∧ voice = createDrumSounds.openhat pow2) ∨
    (trackName = "closedhat" ∧ voice = createDrumSounds.closedhat pow2) ∨
    (trackName = "clap" ∧ voice = createDrumSounds.clap pow2) ∨
    (trackName = "crash" ∧ voice = createDrumSounds.crash pow2) ∨
    (trackName = "cowbell" ∧ voice = createDrumSounds.cowbell pow2) ∨
    (trackName = "clave" ∧ voice = createDrumSounds.clave pow2) := by
  simp only [createDrumSounds, objGet] at h
  split_ifs at h with h1 h2 h3 h4 h5 h6 h7 h8
  · exact Or.inl ⟨h1.symm, (Option.some.inj h).symm⟩
  · exact Or.inr (Or.inl ⟨h2.symm, (Option.some.inj h).symm⟩)
  · exact Or.inr (Or.inr (Or.inl ⟨h3.symm, (Option.some.inj h).symm⟩))
  · exact Or.inr (Or.inr (Or.inr (Or.inl ⟨h4.symm, (Option.some.inj h).symm⟩)))
  · exact Or.inr (Or.inr (Or.inr (Or.inr (Or.inl ⟨h5.symm, (Option.some.inj h).symm⟩))))
  · exact Or.inr (Or.inr (Or.inr (Or.inr (Or.inr (Or.inl
      ⟨h6.symm, (Option.some.inj h).symm⟩)))))
  · exact Or.inr (Or.inr (Or.inr (Or.inr (Or.inr (Or.inr (Or.inl
      ⟨h7.symm, (Option.some.inj h).symm⟩))))))
  · exact Or.inr (Or.inr (Or.inr (Or.inr (Or.inr (Or.inr (Or.inr
      ⟨h8.symm, (Option.some.inj h).symm⟩))))))

theorem voice_durations (pow2 : ℚ → ℚ) (ctx : AudioContext) (trackName : String)
    (voice : ℚ → ℚ → ℚ → ℚ → List AudioOp)
    (h : objGet (createDrumSounds pow2 (some ctx)) trackName = some voice)
    (time velocity tune decay : ℚ) :
    sourceDurations (voice time velocity tune decay) ≠ [] ∧
    ∀ e ∈ sourceDurations (voice time velocity tune decay),
      e.2 = decay / 100 * specCeiling trackName e.1.name := by
  rcases createDrumSounds_cases pow2 ctx trackName voice h with
    ⟨hn, hv⟩ | ⟨hn, hv⟩ | ⟨hn, hv⟩ | ⟨hn, hv⟩ |
    ⟨hn, hv⟩ | ⟨hn, hv⟩ | ⟨hn, hv⟩ | ⟨hn, hv⟩
  · subst hn hv
    rw [sourceDurations_kick]
    simp [specCeiling, node]
  · subst hn hv
    rw [sourceDurations_snare]
    refine ⟨by simp, ?_⟩
    intro e he
    simp only [List.mem_cons, List.mem_singleton, List.not_mem_nil, or_false] at he
    rcases he with he | he
    · subst he
      simp [specCeiling, node]
    · subst he
      simp [specCeiling, node]
      ring
  · subst hn hv
    rw [sourceDurations_openhat]
    simp [specCeiling]
  · subst hn hv
    rw [sourceDurations_closedhat]
    simp [specCeiling]
  · subst hn hv
    rw [sourceDurations_clap]
    simp [specCeiling]
  · subst hn hv
    rw [sourceDurations_crash]
    simp [specCeiling]
    exact Or.inl (by norm_num)
  · subst hn hv
    rw [sourceDurations_cowbell]
    simp [specCeiling, node]
  · subst hn hv
    rw [sourceDurations_clave]
    simp [specCeiling, node]

theorem specCeiling_pos (trackName nodeName : String) : 0 < specCeiling trackName nodeName := by
  unfold specCeiling
  split_ifs <;> norm_num

theorem kick_is_voice (pow2 : ℚ → ℚ) (ctx : AudioContext) :
    objGet (createDrumSounds pow2 (some ctx)) "kick" = some (createDrumSounds.kick pow2) := by
  simp [createDrumSounds, objGet]

/-- C16, as stated, fails: at decay 1 the kick's two oscillators sound for 0.015 s, and
    at decay 50 the closed hat's oscillators sound for 0.05 s, both below 0.1 s. -/
theorem voice_duration_below_floor :
    sourceDurations (createDrumSounds.kick pow2Whole 0 1 0 1) =
      [(node "osc1", 3 / 200), (node "osc2", 3 / 200)] ∧
    sourceDurations (createDrumSounds.closedhat pow2Whole 0 1 0 50) =
      [(⟨"osc", 0⟩, 1 / 20), (⟨"osc", 1⟩, 1 / 20), (⟨"osc", 2⟩, 1 / 20),
       (⟨"osc", 3⟩, 1 / 20)] ∧
    (3 / 200 : ℚ) < 0.1 ∧ (1 / 20 : ℚ) < 0.1 := by
  refine ⟨?_, ?_, by norm_num, by norm_num⟩
  · rw [sourceDurations_kick]
    norm_num
  · rw [sourceDurations_closedhat]
    norm_num

/-- C16, amended: for every synthesized voice and every decay `d` in [1,100] each
    source sounds for a strictly positive time, never below one hundredth of the
    voice's ceiling; it is at least 0.1 s exactly when `d` times the ceiling is at
    least 10. -/
theorem voice_duration_floor (pow2 : ℚ → ℚ) (ctx : AudioContext) (trackName : String)
    (voice : ℚ → ℚ → ℚ → ℚ → List AudioOp) (time velocity tune d : ℚ)
    (hv : objGet (createDrumSounds pow2 (some ctx)) trackName = some voice)
    (h1 : 1 ≤ d) (_h100 : d ≤ 100) :
    sourceDurations (voice time velocity tune d) ≠ [] ∧
    ∀ e ∈ sourceDurations (voice time velocity tune d),
      0 < e.2 ∧ specCeiling trackName e.1.name / 100 ≤ e.2 ∧
      (0.1 ≤ e.2 ↔ 10 ≤ d * specCeiling trackName e.1.name) := by
  obtain ⟨hne, hall⟩ := voice_durations pow2 ctx trackName voice hv time velocity tune d
  refine ⟨hne, fun e he => ?_⟩
  have hc := specCeiling_pos trackName e.1.name
  rw [hall e he]
  refine ⟨?_, ?_, ?_⟩
  · have : 0 < d := by linarith
    positivity
  · have : specCeiling trackName e.1.name / 100 = 1 / 100 * specCeiling trackName e.1.name := by
      ring
    rw [this]
    apply mul_le_mul_of_nonneg_right _ hc.le
    linarith
  · constructor
    · intro h
      norm_num at h
      linarith
    · intro h
      norm_num
      linarith

/-- C16 amended, at the kick with decay 1: the first oscillator sounds for 0.015 s,
    which is positive and one hundredth of the kick's ceiling. -/
theorem voice_duration_floor_witness :
    (node "osc1", (3 / 200 : ℚ)) ∈ sourceDurations (createDrumSounds.kick pow2Whole 0 1 0 1) ∧
    (0 : ℚ) < 3 / 200 ∧ specCeiling "kick" "osc1" / 100 ≤ 3 / 200 := by
  have hmem : (node "osc1", (3 / 200 : ℚ)) ∈
      sourceDurations (createDrumSounds.kick pow2Whole 0 1 0 1) := by
    rw [sourceDurations_kick]
    norm_num
  have h := (voice_duration_floor pow2Whole { suspended := false, currentTime := 0 } "kick"
    (createDrumSounds.kick pow2Whole) 0 1 0 1 (kick_is_voice _ _) (by norm_num)
    (by norm_num)).2 (node "osc1", 3 / 200) hmem
  exact ⟨hmem, h.1, h.2.1⟩

/-- C17: for every decay `d` in [1,100], every tune and every velocity, each source of
    each voice sounds for `d/100` times its ceiling (kick 1.5, snare 0.3 noise and 0.6
    tone, open hat 0.8, closed hat 0.1, clap 0.2 per burst, crash 2.0, cowbell 0.4,
    clave 0.15 seconds), which is strictly positive, at most the ceiling, and the
    ceiling at `d = 100`. -/
theorem voice_duration_scales_ceiling (pow2 : ℚ → ℚ) (ctx : AudioContext)
    (trackName : String) (voice : ℚ → ℚ → ℚ → ℚ → List AudioOp)
    (time velocity tune d : ℚ)
    (hv : objGet (createDrumSounds pow2 (some ctx)) trackName = some voice)
    (h1 : 1 ≤ d) (h100 : d ≤ 100) :
    sourceDurations (voice time velocity tune d) ≠ [] ∧
    ∀ e ∈ sourceDurations (voice time velocity tune d),
      e.2 = d / 100 * specCeiling trackName e.1.name ∧
      0 < e.2 ∧ e.2 ≤ specCeiling trackName e.1.name ∧
      (d = 100 → e.2 = specCeiling trackName e.1.name) := by
  obtain ⟨hne, hall⟩ := voice_durations pow2 ctx trackName voice hv time velocity tune d
  refine ⟨hne, fun e he => ?_⟩
  have hc := specCeiling_pos trackName e.1.name
  rw [hall e he]
  refine ⟨rfl, ?_, ?_, ?_⟩
  · have : 0 < d := by linarith
    positivity
  · have hle : d / 100 ≤ 1 := by linarith
    calc d / 100 * specCeiling trackName e.1.name
        ≤ 1 * specCeiling trackName e.1.name := mul_le_mul_of_nonneg_right hle hc.le
      _ = specCeiling trackName e.1.name := one_mul _
  · intro hd
    rw [hd]
    norm_num

/-- C17 at the kick with decay 100: the first oscillator sounds for 1.5 s, the kick's
    ceiling. -/
theorem voice_duration_scales_ceiling_witness :
    (node "osc1", (3 / 2 : ℚ)) ∈ sourceDurations (createDrumSounds.kick pow2Whole 0 1 0 100) ∧
    (3 / 2 : ℚ) = specCeiling "kick" "osc1" := by
  have hmem : (node "osc1", (3 / 2 : ℚ)) ∈
      sourceDurations (createDrumSounds.kick pow2Whole 0 1 0 100) := by
    rw [sourceDurations_kick]
    norm_num
  have h := (voice_duration_scales_ceiling pow2Whole { suspended := false, currentTime := 0 }
    "kick" (createDrumSounds.kick pow2Whole) 0 1 0 100 (kick_is_voice _ _) (by norm_num)
    (by norm_num)).2 (node "osc1", 3 / 2) hmem
  exact ⟨hmem, h.2.2.2 rfl⟩

theorem pow2Whole_zero : pow2Whole 0 = 1 := by
  simp [pow2Whole]

theorem pow2Whole_one : pow2Whole 1 = 2 := by
  simp [pow2Whole]

/-- C18, as stated, fails: at tune 12, where `2^(tune/12) = 2`, the kick's low-pass
    frequency is 200 Hz as at tune 0, not 400 Hz; so are the snare's filter frequencies
    1000 Hz and 200 Hz and the clave's band-pass frequency 2500 Hz. -/
theorem filter_frequency_not_tuned :
    pow2Whole (12 / 12) = 2 ∧
    (node "filter", (200 : ℚ)) ∈ frequencyValues (createDrumSounds.kick pow2Whole 0 1 0 50) ∧
    (node "filter", (200 : ℚ)) ∈ frequencyValues (createDrumSounds.kick pow2Whole 0 1 12 50) ∧
    (node "filter", (400 : ℚ)) ∉ frequencyValues (createDrumSounds.kick pow2Whole 0 1 12 50) ∧
    frequencyValues (createDrumSounds.kick pow2Whole 0 1 12 50) ≠
      (frequencyValues (createDrumSounds.kick pow2Whole 0 1 0 50)).map
        (fun e => (e.1, e.2 * pow2Whole (12 / 12))) ∧
    (node "noiseFilter", (1000 : ℚ)) ∈
      frequencyValues (createDrumSounds.snare pow2Whole 0 1 12 50) ∧
    (node "filter", (2500 : ℚ)) ∈
      frequencyValues (createDrumSounds.clave pow2Whole 0 1 12 50) := by
  have h2 : pow2Whole (12 / 12) = 2 := by
    norm_num [pow2Whole]
  have hnot : (node "filter", (400 : ℚ)) ∉
      frequencyValues (createDrumSounds.kick pow2Whole 0 1 12 50) := by
    simp [frequencyValues, createDrumSounds.kick, node, h2]
  have hmem : (node "filter", (400 : ℚ)) ∈
      (frequencyValues (createDrumSounds.kick pow2Whole 0 1 0 50)).map
        (fun e => (e.1, e.2 * pow2Whole (12 / 12))) := by
    rw [List.mem_map]
    refine ⟨(node "filter", 200), ?_, ?_⟩
    · simp [frequencyValues, createDrumSounds.kick, node]
    · rw [h2]
      norm_num
  refine ⟨h2, ?_, ?_, hnot, ?_, ?_, ?_⟩
  · simp [frequencyValues, createDrumSounds.kick, node]
  · simp [frequencyValues, createDrumSounds.kick, node]
  · intro heq
    rw [← heq] at hmem
    exact hnot hmem
  · simp [frequencyValues, createDrumSounds.snare, node]
  · simp [frequencyValues, createDrumSounds.clave, node]

/-- C18, amended: for every voice and every tune, every oscillator frequency, and the
    clap's band-pass frequency, is its tune-0 value times `2^(tune/12)`; the filter
    frequencies of the kick (200), the snare (1000 and 200) and the clave (2500) are
    constants that tune does not change. -/
theorem tune_scales_oscillators (pow2 : ℚ → ℚ) (ctx : AudioContext) (trackName : String)
    (voice : ℚ → ℚ → ℚ → ℚ → List AudioOp) (time velocity tune decay : ℚ)
    (hv : objGet (createDrumSounds pow2 (some ctx)) trackName = some voice)
    (h0 : pow2 0 = 1) :
    frequencyValues (voice time velocity tune decay) =
      (frequencyValues (voice time velocity 0 decay)).map
        (fun e => (e.1, if fixedFilter trackName e.1.name = true then e.2
          else e.2 * pow2 (tune / 12))) := by
  rcases createDrumSounds_cases pow2 ctx trackName voice hv with
    ⟨hn, hv2⟩ | ⟨hn, hv2⟩ | ⟨hn, hv2⟩ | ⟨hn, hv2⟩ |
    ⟨hn, hv2⟩ | ⟨hn, hv2⟩ | ⟨hn, hv2⟩ | ⟨hn, hv2⟩
  · subst hn hv2
    simp [frequencyValues, createDrumSounds.kick, node, fixedFilter, h0]
    refine ⟨?_, ?_, ?_⟩ <;> ring
  · subst hn hv2
    simp [frequencyValues, createDrumSounds.snare, node, fixedFilter, h0]
  · subst hn hv2
    simp [frequencyValues, createDrumSounds.openhat, fixedFilter, h0, List.enum,
      List.enumFrom, List.flatMap]
  · subst hn hv2
    simp [frequencyValues, createDrumSounds.closedhat, fixedFilter, h0, List.enum,
      List.enumFrom, List.flatMap]
  · subst hn hv2
    simp [frequencyValues, createDrumSounds.clap, fixedFilter, h0, List.enum,
      List.enumFrom, List.flatMap]
  · subst hn hv2
    simp [frequencyValues, createDrumSounds.crash, fixedFilter, h0, List.enum,
      List.enumFrom, List.flatMap]
  · subst hn hv2
    simp [frequencyValues, createDrumSounds.cowbell, node, fixedFilter, h0]
  · subst hn hv2
    simp [frequencyValues, createDrumSounds.clave, node, fixedFilter, h0]

/-- C18 amended, at the kick one octave up: the oscillators are set to 120 and 60 Hz
    and swept to 12 and 6 Hz, twice their tune-0 values, and the filter stays at 200. -/
theorem tune_scales_oscillators_witness :
    frequencyValues (createDrumSounds.kick pow2Whole 0 1 12 50) =
      [(node "osc1", 120), (node "osc2", 60), (node "osc1", 12), (node "osc2", 6),
       (node "filter", 200)] := by
  rw [tune_scales_oscillators pow2Whole { suspended := false, currentTime := 0 } "kick"
    (createDrumSounds.kick pow2Whole) 0 1 12 50 (kick_is_voice _ _) pow2Whole_zero]
  simp [frequencyValues, createDrumSounds.kick, node, fixedFilter, pow2Whole_zero,
    pow2Whole_one]
  norm_num

theorem objGet_loadBuffers (allFiles : List (String × FileData))
    (h : (objKeys allFiles).Nodup) (key : String) :
    objGet (loadBuffers allFiles) key =
      match objGet allFiles key with
      | some (FileData.file (some audioBuffer)) => some audioBuffer
      | _ => none := by
  unfold loadBuffers
  rw [objGet_foldl_buffers allFiles [] h key]
  rfl

theorem createDrumSounds_has_voice (pow2 : ℚ → ℚ) (ctx : AudioContext) (trackName : String)
    (h : trackName ∈ trackNames) :
    ∃ voice, objGet (createDrumSounds pow2 (some ctx)) trackName = some voice := by
  simp only [trackNames, List.mem_cons, List.mem_singleton, List.not_mem_nil, or_false] at h
  rcases h with h | h | h | h | h | h | h | h <;> subst h <;>
    exact Option.isSome_iff_exists.1 (by simp [createDrumSounds, objGet])

theorem triggerTimes_triggerReads (p : Pattern) (clock : Nat → ℚ) (stepIndex : Nat)
    (tracks : List (String × StepsValue)) :
    ∀ k : Nat, triggerTimes (triggerReads p clock stepIndex tracks k) =
      (List.range (tracks.filter (fun e => e.2.active stepIndex)).length).map
        (fun j => clock (k + j)) := by
  induction tracks with
  | nil => intro k; rfl
  | cons e rest ih =>
    intro k
    by_cases h : e.2.active stepIndex = true
    · simp only [triggerReads, if_pos h, List.filter_cons, List.length_cons]
      rw [List.range_succ_eq_map, List.map_cons, List.map_map]
      simp only [triggerTimes, List.filterMap_cons]
      have := ih (k + 1)
      simp only [triggerTimes] at this
      rw [this]
      congr 1
      apply List.map_congr_left
      intro j _
      simp only [Function.comp, Nat.succ_eq_add_one]
      congr 1
      omega
    · simp only [triggerReads, if_neg h, List.filter_cons]
      exact ih k

theorem triggerReads_const (p : Pattern) (ctx : AudioContext) (stepIndex : Nat)
    (tracks : List (String × StepsValue)) :
    ∀ k : Nat, triggerReads p (fun _ => ctx.currentTime) stepIndex tracks k =
      (tracks.filter (fun e => e.2.active stepIndex)).map
        (fun e => triggerEvent p (some ctx) e.1) := by
  induction tracks with
  | nil => intro k; rfl
  | cons e rest ih =>
    intro k
    by_cases h : e.2.active stepIndex = true
    · simp only [triggerReads, if_pos h, List.filter_cons, List.map_cons, ih (k + 1)]
      rfl
    · simp only [triggerReads, if_neg h, List.filter_cons]
      exact ih k

/-- C19, as stated, fails: when the audio clock reads 0 at the kick's trigger and 1/100
    at the snare's trigger of the same tick, the two `playSample` calls of the tick
    receive the time arguments 0 and 1/100. -/
theorem tick_timestamps_can_differ :
    triggerReads kickSnarePattern (fun k => (k : ℚ) / 100) 0
        [("kick", StepsValue.array [true]), ("snare", StepsValue.array [true])] 0 =
      [Event.playSample "kick" 0 (7 / 10) 0 50,
       Event.playSample "snare" (1 / 100) (7 / 10) 0 50] ∧
    triggerTimes (triggerReads kickSnarePattern (fun k => (k : ℚ) / 100) 0
        [("kick", StepsValue.array [true]), ("snare", StepsValue.array [true])] 0) =
      [0, 1 / 100] ∧
    (0 : ℚ) ≠ 1 / 100 := by
  have hl : ∀ n : String, trackLevel kickSnarePattern n = 7 / 10 := by
    intro n
    simp [trackLevel, kickSnarePattern, objGet, numOr]
    norm_num
  have ht : ∀ n : String, trackTune kickSnarePattern n = 0 := by
    intro n
    simp [trackTune, kickSnarePattern, objGet, numOr]
  have hd : ∀ n : String, trackDecay kickSnarePattern n = 50 := by
    intro n
    simp [trackDecay, kickSnarePattern, objGet, numOr]
  refine ⟨?_, ?_, by norm_num⟩
  · simp [triggerReads, StepsValue.active, hl, ht, hd]
  · rw [triggerTimes_triggerReads]
    simp [StepsValue.active, List.range_succ]

/-- C19, amended: the `k`-th trigger of a tick receives the `k`-th reading of
    `audioContext.currentTime` made during the tick; when the clock does not advance
    during the tick, every track active at the step is triggered with one identical
    time argument, and the tick records exactly the events of `playStep`. -/
theorem tick_timestamps_follow_clock (p : Pattern) (ctx : AudioContext) (clock : Nat → ℚ)
    (stepIndex : Nat) (tracks : List (String × StepsValue))
    (hclock : ∀ k : Nat, clock k = ctx.currentTime) :
    (∀ other : Nat → ℚ, triggerTimes (triggerReads p other stepIndex tracks 0) =
      (List.range (tracks.filter (fun e => e.2.active stepIndex)).length).map other) ∧
    (∀ t ∈ triggerTimes (triggerReads p clock stepIndex tracks 0), t = ctx.currentTime) ∧
    triggerReads p clock stepIndex tracks 0 =
      (tracks.filter (fun e => e.2.active stepIndex)).map
        (fun e => triggerEvent p (some ctx) e.1) ∧
    (p.tracks = some tracks →
      Event.setPlaybackStep stepIndex :: triggerReads p clock stepIndex tracks 0 =
        stepEvents p (some ctx) stepIndex) := by
  have hfun : clock = fun _ => ctx.currentTime := funext hclock
  have hconst := triggerReads_const p ctx stepIndex tracks 0
  refine ⟨?_, ?_, ?_, ?_⟩
  · intro other
    rw [triggerTimes_triggerReads]
    simp
  · intro t ht
    rw [triggerTimes_triggerReads] at ht
    obtain ⟨j, _, hj⟩ := List.mem_map.1 ht
    rw [← hj]
    exact hclock _
  · rw [hfun]
    exact hconst
  · intro hp
    rw [hfun, hconst]
    simp [stepEvents, hp]

/-- C19 amended, with the clock standing at 0 during the tick: kick and snare are both
    triggered at time 0. -/
theorem tick_timestamps_follow_clock_witness :
    triggerTimes (triggerReads kickSnarePattern (fun _ => 0) 0
        [("kick", StepsValue.array [true]), ("snare", StepsValue.array [true])] 0) =
      [0, 0] := by
  have h := tick_timestamps_follow_clock kickSnarePattern
    { suspended := false, currentTime := 0 } (fun _ => 0) 0
    [("kick", StepsValue.array [true]), ("snare", StepsValue.array [true])] (fun _ => rfl)
  rw [h.1 (fun _ => 0)]
  simp [StepsValue.active, List.range_succ]

theorem countTriggers_stepEvents_le (p : Pattern) (ctx : Option AudioContext) (name : String)
    (c : Nat) :
    countTriggers name (stepEvents p ctx c) ≤
      (p.tracks.getD []).countP (fun e => e.2.active c && decide (e.1 = name)) := by
  cases ctx with
  | some ctx => exact le_of_eq (countTriggers_stepEvents p ctx name c)
  | none =>
    have h : countTriggers name (stepEvents p none c) = 0 := by
      unfold countTriggers
      rw [List.countP_eq_zero]
      intro e he
      unfold stepEvents at he
      rcases List.mem_cons.1 he with h | h
      · subst h; simp
      · obtain ⟨x, _, hx⟩ := List.mem_map.1 h
        subst hx
        simp [triggerEvent]
    rw [h]
    exact Nat.zero_le _

/-- C20: a tick at cursor `c` does not trigger a track whose grid has at most `c`
    entries (so none of the steps `n..15` of a grid of length `n < 16`), nor a track
    whose entry is falsy or not an array, nor an id that has no entry; the tick still
    sets the cursor to `c` and leaves `(c + 1) mod 16` as the next step. -/
theorem short_grid_not_triggered (s : Machine) (tracks : List (String × StepsValue))
    (name : String) (steps : StepsValue) (c : Nat)
    (ht : s.currentPattern.tracks = some tracks) (hn : (objKeys tracks).Nodup)
    (hm : (name, steps) ∈ tracks)
    (hshort : steps = StepsValue.falsy ∨ steps = StepsValue.nonArray ∨
      ∃ grid : List Bool, steps = StepsValue.array grid ∧ grid.length ≤ c) :
    steps.active c = false ∧
    countTriggers name ((playStep s c).1.log.drop s.log.length) = 0 ∧
    (∀ other : String, other ∉ objKeys tracks →
      countTriggers other ((playStep s c).1.log.drop s.log.length) = 0) ∧
    (playStep s c).1.playbackStep = (c : Int) ∧
    (playStep s c).2 = (c + 1) % 16 := by
  have hact : steps.active c = false := by
    rcases hshort with h | h | ⟨grid, h, hlen⟩
    · subst h; rfl
    · subst h; rfl
    · subst h
      simp only [StepsValue.active, List.getD_eq_getElem?_getD]
      rw [List.getElem?_eq_none hlen]
      rfl
  have hlog : (playStep s c).1.log.drop s.log.length =
      stepEvents s.currentPattern s.audioContext c := by
    rw [playStep_eq]
    simp
  refine ⟨hact, ?_, ?_, ?_, ?_⟩
  · rw [hlog]
    have hle := countTriggers_stepEvents_le s.currentPattern s.audioContext name c
    rw [ht, Option.getD_some, countP_key tracks name steps c hn hm, hact] at hle
    simpa using hle
  · intro other ho
    rw [hlog]
    have hle := countTriggers_stepEvents_le s.currentPattern s.audioContext other c
    rw [ht, Option.getD_some, countP_absent_key tracks other c ho] at hle
    exact Nat.le_zero.1 hle
  · rw [playStep_eq]
  · rw [playStep_eq]

/-- C20 at a kick grid of 4 steps with cursor 10, and at a snare entry that is not an
    array: neither is triggered by the tick. -/
theorem short_grid_not_triggered_witness :
    countTriggers "kick"
      ((playStep (initial shortGridPattern (some { suspended := false, currentTime := 0 }))
        10).1.log.drop 0) = 0 ∧
    countTriggers "snare"
      ((playStep (initial shortGridPattern (some { suspended := false, currentTime := 0 }))
        10).1.log.drop 0) = 0 := by
  have hk := short_grid_not_triggered
    (initial shortGridPattern (some { suspended := false, currentTime := 0 }))
    [("kick", StepsValue.array [true, true, true, true]), ("snare", StepsValue.nonArray),
     ("clap", StepsValue.falsy)]
    "kick" (StepsValue.array [true, true, true, true]) 10 rfl (by decide) (by simp)
    (Or.inr (Or.inr ⟨[true, true, true, true], rfl, by decide⟩))
  have hs := short_grid_not_triggered
    (initial shortGridPattern (some { suspended := false, currentTime := 0 }))
    [("kick", StepsValue.array [true, true, true, true]), ("snare", StepsValue.nonArray),
     ("clap", StepsValue.falsy)]
    "snare" StepsValue.nonArray 10 rfl (by decide) (by simp) (Or.inr (Or.inl rfl))
  exact ⟨hk.2.1, hs.2.1⟩

theorem foldl_trigger_throwing (throws : String → Bool) (p : Pattern)
    (ctx : Option AudioContext) (i : Nat) (tracks : List (String × StepsValue)) :
    ∀ st : Machine, st.currentPattern = p → st.audioContext = ctx →
      tracks.foldl
        (fun st entry =>
          if entry.2.active i then triggerTrackThrowing throws st entry.1 else st) st =
      { st with log := st.log ++ triggersThrowing throws p ctx i tracks } := by
  induction tracks with
  | nil => intro st _ _; simp [triggersThrowing]
  | cons e rest ih =>
    intro st hp hc
    simp only [List.foldl_cons]
    by_cases h : e.2.active i = true
    · have h1 : (triggerTrackThrowing throws st e.1).currentPattern = p := by
        unfold triggerTrackThrowing triggerTrack
        cases hx : st.audioContext with
        | none => simp [hp]
        | some c => cases ht : throws e.1 <;> simp [hp]
      have h2 : (triggerTrackThrowing throws st e.1).audioContext = ctx := by
        unfold triggerTrackThrowing triggerTrack
        cases hx : st.audioContext with
        | none => simp [← hc, hx]
        | some c => cases ht : throws e.1 <;> simp [← hc, hx]
      rw [if_pos h, ih _ h1 h2]
      subst hp hc
      unfold triggersThrowing triggerTrackThrowing triggerTrack triggerEventsThrowing
        triggerEvent
      cases hx : st.audioContext with
      | none => simp [h, List.filter_cons, List.flatMap_cons]
      | some c =>
        cases ht : throws e.1 <;> simp [h, ht, List.filter_cons, List.flatMap_cons]
    · rw [if_neg h, ih _ hp hc]
      simp [h, List.filter_cons, triggersThrowing]

theorem playStepThrowing_eq (throws : String → Bool) (s : Machine) (i : Nat) :
    playStepThrowing throws s i =
      ({ s with playbackStep := (i : Int),
                log := s.log ++ Event.setPlaybackStep i ::
                  triggersThrowing throws s.currentPattern s.audioContext i
                    (s.currentPattern.tracks.getD []) },
       (i + 1) % 16) := by
  unfold playStepThrowing
  cases h : s.currentPattern.tracks with
  | none => simp [h, triggersThrowing]
  | some tracks =>
    simp only [h]
    rw [foldl_trigger_throwing throws s.currentPattern s.audioContext i tracks
      { s with playbackStep := (i : Int), log := s.log ++ [Event.setPlaybackStep i] } rfl rfl]
    simp

theorem withoutCaught_flatMap (throws : String → Bool) (p : Pattern)
    (ctx : Option AudioContext) (l : List (String × StepsValue)) :
    withoutCaught (l.flatMap (fun e => triggerEventsThrowing throws p ctx e.1)) =
      withoutCaught (l.map (fun e => triggerEvent p ctx e.1)) := by
  induction l with
  | nil => rfl
  | cons e rest ih =>
    simp only [List.flatMap_cons, List.map_cons]
    unfold withoutCaught at ih ⊢
    rw [List.filter_append, ih]
    cases ctx with
    | none => simp [triggerEventsThrowing, triggerEvent, List.filter_cons]
    | some c =>
      cases ht : throws e.1 <;>
        simp [triggerEventsThrowing, ht, triggerEvent, List.filter_cons]

theorem countCaught_flatMap (throws : String → Bool) (p : Pattern) (ctx : AudioContext)
    (name : String) (l : List (String × StepsValue)) :
    countCaught name (l.flatMap (fun e => triggerEventsThrowing throws p (some ctx) e.1)) =
      l.countP (fun e => throws e.1 && decide (e.1 = name)) := by
  induction l with
  | nil => rfl
  | cons e rest ih =>
    simp only [List.flatMap_cons, List.countP_cons]
    unfold countCaught at ih ⊢
    rw [List.countP_append, ih]
    cases ht : throws e.1 <;>
      simp [triggerEventsThrowing, ht, triggerEvent, Nat.add_comm, List.countP_cons]

theorem countTriggers_flatMap (throws : String → Bool) (p : Pattern) (ctx : AudioContext)
    (name : String) (l : List (String × StepsValue)) :
    countTriggers name (l.flatMap (fun e => triggerEventsThrowing throws p (some ctx) e.1)) =
      l.countP (fun e => decide (e.1 = name)) := by
  induction l with
  | nil => rfl
  | cons e rest ih =>
    simp only [List.flatMap_cons, List.countP_cons]
    unfold countTriggers at ih ⊢
    rw [List.countP_append, ih]
    cases ht : throws e.1 <;>
      simp [triggerEventsThrowing, ht, triggerEvent, Nat.add_comm, List.countP_cons]

theorem countTriggers_throwing (throws : String → Bool) (p : Pattern) (ctx : AudioContext)
    (name : String) (i : Nat) (tracks : List (String × StepsValue)) :
    countTriggers name (triggersThrowing throws p (some ctx) i tracks) =
      tracks.countP (fun e => e.2.active i && decide (e.1 = name)) := by
  unfold triggersThrowing
  rw [countTriggers_flatMap, List.countP_filter]
  congr 1
  funext e
  exact Bool.and_comm _ _

theorem countCaught_throwing (throws : String → Bool) (p : Pattern) (ctx : AudioContext)
    (name : String) (i : Nat) (tracks : List (String × StepsValue)) :
    countCaught name (triggersThrowing throws p (some ctx) i tracks) =
      tracks.countP (fun e => e.2.active i && (throws e.1 && decide (e.1 = name))) := by
  unfold triggersThrowing
  rw [countCaught_flatMap, List.countP_filter]
  congr 1
  funext e
  exact Bool.and_comm _ _

theorem countP_key_of (q : String × StepsValue → Bool) (tracks : List (String × StepsValue))
    (name : String) (steps : StepsValue) (hn : (objKeys tracks).Nodup)
    (hm : (name, steps) ∈ tracks) :
    tracks.countP (fun e => q e && decide (e.1 = name)) =
      if q (name, steps) = true then 1 else 0 := by
  induction tracks with
  | nil => simp at hm
  | cons e rest ih =>
    simp only [objKeys, List.map_cons, List.nodup_cons] at hn
    rw [List.countP_cons]
    rcases List.mem_cons.1 hm with h | h
    · subst h
      have h0 : rest.countP (fun e => q e && decide (e.1 = name)) = 0 := by
        rw [List.countP_eq_zero]
        intro x hx hc
        simp only [Bool.and_eq_true, decide_eq_true_eq] at hc
        have hmem : name ∈ List.map Prod.fst rest := by
          rw [← hc.2]
          exact List.mem_map_of_mem Prod.fst hx
        exact hn.1 hmem
      rw [h0]
      simp
    · have hne : e.1 ≠ name := by
        intro heq
        exact hn.1 (by rw [heq]; exact List.mem_map_of_mem Prod.fst h)
      rw [ih hn.2 h]
      simp [hne]

theorem withoutCaught_triggers (p : Pattern) (ctx : AudioContext)
    (l : List (String × StepsValue)) :
    withoutCaught (l.map (fun e => triggerEvent p (some ctx) e.1)) =
      l.map (fun e => triggerEvent p (some ctx) e.1) := by
  unfold withoutCaught
  rw [List.filter_eq_self]
  intro e he
  obtain ⟨x, _, hx⟩ := List.mem_map.1 he
  subst hx
  rfl

/-- C21: in a tick where the `playSample` call of any active track may throw, every track
    active at the cursor is still called exactly once, each throwing call is caught once,
    the calls without the caught errors are exactly those of a tick in which nothing
    throws, the cursor is set and the next step is `(cursor + 1) mod 16`; the tick
    returns for every choice of failing tracks and changes nothing else. -/
theorem failed_trigger_does_not_stop_tick (throws : String → Bool) (s : Machine)
    (ctx : AudioContext) (tracks : List (String × StepsValue)) (c : Nat)
    (hc : s.audioContext = some ctx) (ht : s.currentPattern.tracks = some tracks)
    (hn : (objKeys tracks).Nodup) :
    (∀ (name : String) (steps : StepsValue), (name, steps) ∈ tracks →
      countTriggers name ((playStepThrowing throws s c).1.log.drop s.log.length) =
        (if steps.active c = true then 1 else 0) ∧
      countCaught name ((playStepThrowing throws s c).1.log.drop s.log.length) =
        (if (steps.active c && throws name) = true then 1 else 0)) ∧
    withoutCaught ((playStepThrowing throws s c).1.log.drop s.log.length) =
      (playStep s c).1.log.drop s.log.length ∧
    (playStepThrowing throws s c).2 = (c + 1) % 16 ∧
    (playStepThrowing throws s c).1.playbackStep = (c : Int) ∧
    (playStepThrowing throws s c).1.isPlaying = s.isPlaying ∧
    (playStepThrowing throws s c).1.timers = s.timers ∧
    (playStepThrowing throws s c).1.currentPattern = s.currentPattern ∧
    playStepThrowing (fun _ => false) s c = playStep s c := by
  have hlog : (playStepThrowing throws s c).1.log.drop s.log.length =
      Event.setPlaybackStep c ::
        triggersThrowing throws s.currentPattern (some ctx) c tracks := by
    rw [playStepThrowing_eq]
    simp [hc, ht]
  refine ⟨?_, ?_, ?_, ?_, ?_, ?_, ?_, ?_⟩
  · intro name steps hm
    rw [hlog]
    constructor
    · have h := countTriggers_throwing throws s.currentPattern ctx name c tracks
      have hk := countP_key tracks name steps c hn hm
      unfold countTriggers at h ⊢
      rw [List.countP_cons, h, hk]
      simp
    · have h := countCaught_throwing throws s.currentPattern ctx name c tracks
      have hk := countP_key_of (fun e => e.2.active c && throws e.1) tracks name steps hn hm
      unfold countCaught at h ⊢
      rw [List.countP_cons, h]
      simp only [Bool.and_assoc] at hk
      rw [hk]
      simp
  · rw [hlog, playStep_eq]
    simp only [List.drop_left]
    unfold stepEvents triggersThrowing
    rw [ht, hc, Option.getD_some]
    have h1 := withoutCaught_flatMap throws s.currentPattern (some ctx)
      (tracks.filter (fun e => e.2.active c))
    rw [withoutCaught_triggers] at h1
    unfold withoutCaught at h1 ⊢
    rw [List.filter_cons]
    simp only [if_true]
    rw [h1]
  · rw [playStepThrowing_eq]
  · rw [playStepThrowing_eq]
  · rw [playStepThrowing_eq]
  · rw [playStepThrowing_eq]
  · rw [playStepThrowing_eq]
  · rw [playStepThrowing_eq, playStep_eq]
    have hnil : ∀ l : List (String × StepsValue),
        l.flatMap (fun e =>
          triggerEventsThrowing (fun _ => false) s.currentPattern s.audioContext e.1) =
        l.map (fun e => triggerEvent s.currentPattern s.audioContext e.1) := by
      intro l
      induction l with
      | nil => rfl
      | cons e rest ih =>
        rw [List.flatMap_cons, List.map_cons, ih]
        cases s.audioContext <;> rfl
    unfold triggersThrowing stepEvents
    rw [hnil]

/-- C21 at a pattern with kick and snare on step 0 where the kick call throws: the snare
    is still called once and the next step is 1. -/
theorem failed_trigger_does_not_stop_tick_witness :
    countTriggers "snare"
      ((playStepThrowing (fun n => decide (n = "kick"))
        (initial kickSnarePattern (some { suspended := false, currentTime := 0 })) 0).1.log.drop
          0) = 1 ∧
    countCaught "kick"
      ((playStepThrowing (fun n => decide (n = "kick"))
        (initial kickSnarePattern (some { suspended := false, currentTime := 0 })) 0).1.log.drop
          0) = 1 ∧
    (playStepThrowing (fun n => decide (n = "kick"))
        (initial kickSnarePattern (some { suspended := false, currentTime := 0 })) 0).2 = 1 := by
  have h := failed_trigger_does_not_stop_tick (fun n => decide (n = "kick"))
    (initial kickSnarePattern (some { suspended := false, currentTime := 0 }))
    { suspended := false, currentTime := 0 }
    [("kick", StepsValue.array [true]), ("snare", StepsValue.array [true])] 0 rfl rfl
    (by decide)
  exact ⟨(h.1 "snare" (StepsValue.array [true]) (by simp)).1,
    (h.1 "kick" (StepsValue.array [true]) (by simp)).2, h.2.2.1⟩

theorem createDrumSounds_no_voice (pow2 : ℚ → ℚ) (audioContext : Option AudioContext)
    (trackName : String) (h : trackName ∉ trackNames) :
    objGet (createDrumSounds pow2 audioContext) trackName = none := by
  simp only [trackNames, List.mem_cons, List.mem_singleton, List.not_mem_nil, or_false,
    not_or] at h
  obtain ⟨h1, h2, h3, h4, h5, h6, h7, h8⟩ := h
  cases audioContext with
  | none => rfl
  | some ctx =>
    simp [createDrumSounds, objGet, Ne.symm h1, Ne.symm h2, Ne.symm h3, Ne.symm h4,
      Ne.symm h5, Ne.symm h6, Ne.symm h7, Ne.symm h8]

theorem tempoEffect_currentPattern (s : Machine) :
    (tempoEffect s).currentPattern = s.currentPattern := by
  unfold tempoEffect
  split <;> rfl

theorem updatePattern_currentPattern (s : Machine) (p : Pattern) :
    (updatePattern s p).currentPattern = p := by
  unfold updatePattern
  simp only
  split
  · rw [tempoEffect_currentPattern]
  · rfl

theorem updatePattern_same_tempo (s : Machine) (p : Pattern)
    (h : p.tempo = s.currentPattern.tempo) :
    updatePattern s p = { s with currentPattern := p } := by
  unfold updatePattern
  simp [h]

theorem objSet_objSet {α : Type} (o : List (String × α)) (k : String) (v w : α) :
    objSet (objSet o k v) k w = objSet o k w := by
  induction o with
  | nil => simp [objSet]
  | cons e rest ih =>
    obtain ⟨k1, u⟩ := e
    by_cases h : k1 = k
    · simp [objSet, h]
    · simp [objSet, h, ih]

theorem objSet_self {α : Type} (o : List (String × α)) (k : String) (v : α)
    (h : objGet o k = some v) : objSet o k v = o := by
  induction o with
  | nil => simp [objGet] at h
  | cons e rest ih =>
    obtain ⟨k1, u⟩ := e
    by_cases hk : k1 = k
    · simp only [objGet, if_pos hk, Option.some.injEq] at h
      simp [objSet, hk, h]
    · simp only [objGet, if_neg hk] at h
      simp [objSet, hk, ih h]

theorem arraySet_inside (arr : List Bool) (i : Nat) (v : Bool) (h : i < arr.length) :
    arraySet arr i v = arr.set i v := by
  unfold arraySet
  rw [if_pos h]

theorem toggleStep_some (s : Machine) (selectedTrack : String) (stepIndex : Nat)
    (copy : List Bool)
    (h : toggleStep.copy (objGet (s.currentPattern.tracks.getD []) selectedTrack) =
      some copy) :
    ∃ s1 : Machine, toggleStep s selectedTrack stepIndex = some s1 ∧
      s1.currentPattern =
        { s.currentPattern with
          tracks := some (objSet (s.currentPattern.tracks.getD []) selectedTrack
            (StepsValue.array (arraySet copy stepIndex (!(copy.getD stepIndex false))))) } ∧
      s1.isPlaying = s.isPlaying ∧ s1.playbackStep = s.playbackStep ∧
      s1.timers = s.timers ∧ s1.sequencerRef = s.sequencerRef ∧
      s1.audioContext = s.audioContext := by
  have hu := updatePattern_same_tempo s
    { s.currentPattern with
      tracks := some (objSet (s.currentPattern.tracks.getD []) selectedTrack
        (StepsValue.array (arraySet copy stepIndex (!(copy.getD stepIndex false))))) } rfl
  unfold toggleStep
  simp only [h, hu]
  cases ha : s.audioContext with
  | none => exact ⟨_, rfl, rfl, rfl, rfl, rfl, rfl, rfl⟩
  | some ctx =>
    simp only
    split
    · obtain ⟨suspended, time⟩ := ctx
      cases suspended
      · exact ⟨_, rfl, rfl, rfl, rfl, rfl, rfl, rfl⟩
      · exact ⟨_, rfl, rfl, rfl, rfl, rfl, rfl, rfl⟩
    · exact ⟨_, rfl, rfl, rfl, rfl, rfl, rfl, rfl⟩

theorem read_write (param : TrackParam) (p : Pattern) (newParam : List (String × ℚ)) :
    param.read (param.write p newParam) = some newParam := by
  cases param <;> rfl

theorem updateTrackParam_pattern (s : Machine) (track : String) (param : TrackParam)
    (value : ℚ) :
    (updateTrackParam s track param value).currentPattern =
      param.write s.currentPattern
        (objSet ((param.read s.currentPattern).getD []) track value) := by
  unfold updateTrackParam
  exact updatePattern_currentPattern _ _

/-- C23, as stated, fails: the tempo 500 and the decay 500 are outside their ranges, and
    the mutators store them: the state changes and holds the out-of-range value. -/
theorem out_of_range_value_is_stored :
    (setTempo kickStartNoAudio 500).currentPattern.tempo = 500 ∧
    setTempo kickStartNoAudio 500 ≠ kickStartNoAudio ∧
    objGet ((updateTrackParam kickStartNoAudio "kick" TrackParam.decay
      500).currentPattern.decay.getD []) "kick" = some 500 ∧
    objGet ((updateTrackParam kickStartNoAudio "kick" TrackParam.tune
      40).currentPattern.tune.getD []) "kick" = some 40 ∧
    updateTrackParam kickStartNoAudio "kick" TrackParam.decay 500 ≠ kickStartNoAudio ∧
    ¬ ((60 : ℚ) ≤ 500 ∧ (500 : ℚ) ≤ 200) ∧ ¬ ((1 : ℚ) ≤ 500 ∧ (500 : ℚ) ≤ 100) ∧
    ¬ ((-12 : ℚ) ≤ 40 ∧ (40 : ℚ) ≤ 12) := by
  have ht : (setTempo kickStartNoAudio 500).currentPattern.tempo = 500 := by
    unfold setTempo
    rw [updatePattern_currentPattern]
  have hd : objGet ((updateTrackParam kickStartNoAudio "kick" TrackParam.decay
      500).currentPattern.decay.getD []) "kick" = some 500 := by
    rw [updateTrackParam_pattern]
    simp [TrackParam.write, TrackParam.read, kickStartNoAudio, initial, kickOnlyPattern, objSet,
      objGet]
  have hu : objGet ((updateTrackParam kickStartNoAudio "kick" TrackParam.tune
      40).currentPattern.tune.getD []) "kick" = some 40 := by
    rw [updateTrackParam_pattern]
    simp [TrackParam.write, TrackParam.read, kickStartNoAudio, initial, kickOnlyPattern, objSet,
      objGet]
  refine ⟨ht, ?_, hd, hu, ?_, by norm_num, by norm_num, by norm_num⟩
  · intro hc
    rw [hc] at ht
    simp [kickStartNoAudio, initial, kickOnlyPattern] at ht
  · intro hc
    rw [hc] at hd
    simp [kickStartNoAudio, initial, kickOnlyPattern, objGet] at hd

/-- C23, amended: the mutators validate nothing and report nothing. The tempo handler
    stores every tempo it is given; `updateTrackParam` stores every value it is given
    under the track in the named parameter object, keeps the other tracks' values and
    leaves the other fields of the pattern as they were. Only the `min` and `max`
    attributes of the sliders bound the values a user can produce. -/
theorem mutators_store_every_value (s : Machine) (track : String) (param : TrackParam)
    (value tempo : ℚ) :
    (setTempo s tempo).currentPattern = { s.currentPattern with tempo := tempo } ∧
    objGet ((param.read (updateTrackParam s track param value).currentPattern).getD [])
      track = some value ∧
    (∀ other : String, other ≠ track →
      objGet ((param.read (updateTrackParam s track param value).currentPattern).getD [])
        other = objGet ((param.read s.currentPattern).getD []) other) ∧
    (∀ q : TrackParam, q ≠ param →
      q.read (updateTrackParam s track param value).currentPattern =
        q.read s.currentPattern) ∧
    (updateTrackParam s track param value).currentPattern.tracks = s.currentPattern.tracks ∧
    (updateTrackParam s track param value).currentPattern.tempo = s.currentPattern.tempo ∧
    (updateTrackParam s track param value).currentPattern.name = s.currentPattern.name := by
  refine ⟨?_, ?_, ?_, ?_, ?_, ?_, ?_⟩
  · unfold setTempo
    rw [updatePattern_currentPattern]
  · rw [updateTrackParam_pattern, read_write, Option.getD_some, objGet_objSet, if_pos rfl]
  · intro other ho
    rw [updateTrackParam_pattern, read_write, Option.getD_some, objGet_objSet,
      if_neg (Ne.symm ho)]
  · intro q hq
    rw [updateTrackParam_pattern]
    cases q <;> cases param <;> first | rfl | exact absurd rfl hq
  · rw [updateTrackParam_pattern]
    cases param <;> rfl
  · rw [updateTrackParam_pattern]
    cases param <;> rfl
  · rw [updateTrackParam_pattern]
    cases param <;> rfl

theorem allGrids16_objSet (tracks : List (String × StepsValue)) (k : String) (g : List Bool)
    (h : allGrids16 tracks = true) (hg : g.length = 16) :
    allGrids16 (objSet tracks k (StepsValue.array g)) = true := by
  induction tracks with
  | nil => simp [objSet, allGrids16, hg]
  | cons e rest ih =>
    obtain ⟨k1, v⟩ := e
    simp only [allGrids16, List.all_cons, Bool.and_eq_true] at h
    by_cases hk : k1 = k
    · simp only [objSet, if_pos hk, allGrids16, List.all_cons, Bool.and_eq_true]
      exact ⟨by simp [hg], h.2⟩
    · simp only [objSet, if_neg hk, allGrids16, List.all_cons, Bool.and_eq_true]
      exact ⟨h.1, ih h.2⟩

theorem allGrids16_objGet (tracks : List (String × StepsValue)) (k : String) (v : StepsValue)
    (h : allGrids16 tracks = true) (hv : objGet tracks k = some v) :
    ∃ g : List Bool, v = StepsValue.array g ∧ g.length = 16 := by
  induction tracks with
  | nil => simp [objGet] at hv
  | cons e rest ih =>
    obtain ⟨k1, w⟩ := e
    simp only [allGrids16, List.all_cons, Bool.and_eq_true] at h
    by_cases hk : k1 = k
    · simp only [objGet, if_pos hk, Option.some.injEq] at hv
      subst hv
      cases w with
      | array g => exact ⟨g, rfl, by simpa using h.1⟩
      | falsy => simp at h
      | nonArray => simp at h
    · simp only [objGet, if_neg hk] at hv
      exact ih h.2 hv

theorem pad_eq (n : Nat) : ∀ steps : List Bool, 16 - steps.length = n →
    generatePattern.pad steps = steps ++ List.replicate n false := by
  induction n with
  | zero =>
    intro steps h
    rw [generatePattern.pad, dif_neg (by omega)]
    simp
  | succ m ih =>
    intro steps h
    rw [generatePattern.pad, dif_pos (by omega)]
    rw [ih (steps ++ [false]) (by simp only [List.length_append, List.length_singleton]; omega)]
    rw [List.append_assoc, List.replicate_succ]
    rfl

theorem pad_length (steps : List Bool) (h : steps.length ≤ 16) :
    (generatePattern.pad steps).length = 16 := by
  rw [pad_eq (16 - steps.length) steps rfl, List.length_append, List.length_replicate]
  omega

theorem normalize_length (v : GeneratedSteps) (w : StepsValue)
    (h : generatePattern.normalize v = some w)
    (hs : ∀ n : Nat, v = GeneratedSteps.text n → n < 16) :
    ∃ g : List Bool, w = StepsValue.array g ∧ g.length = 16 := by
  cases v with
  | falsy =>
    simp only [generatePattern.normalize, Option.some.injEq] at h
    exact ⟨_, h.symm, pad_length emptyGrid (by simp [emptyGrid])⟩
  | other => simp [generatePattern.normalize] at h
  | array steps =>
    simp only [generatePattern.normalize, Option.some.injEq] at h
    exact ⟨_, h.symm, pad_length _ (by rw [List.length_take]; omega)⟩
  | text n =>
    have hn := hs n rfl
    simp only [generatePattern.normalize] at h
    by_cases h0 : n = 0
    · rw [if_pos h0, Option.some.injEq] at h
      exact ⟨_, h.symm, pad_length emptyGrid (by simp [emptyGrid])⟩
    · rw [if_neg h0, if_neg (by omega)] at h
      exact absurd h (by simp)

theorem allGrids16_generated (entries : List (String × GeneratedSteps)) :
    ∀ acc t : List (String × StepsValue), allGrids16 acc = true →
      (∀ e ∈ entries, ∀ n : Nat, e.2 = GeneratedSteps.text n → n < 16) →
      generatePattern.tracks entries acc = some t → allGrids16 t = true := by
  induction entries with
  | nil =>
    intro acc t h _ ht
    simp only [generatePattern.tracks, Option.some.injEq] at ht
    rw [← ht]
    exact h
  | cons e rest ih =>
    intro acc t h hs ht
    obtain ⟨track, steps⟩ := e
    cases hn : generatePattern.normalize steps with
    | none => simp [generatePattern.tracks, hn] at ht
    | some w =>
      simp only [generatePattern.tracks, hn] at ht
      obtain ⟨g, hw, hlen⟩ := normalize_length steps w hn
        (fun n hx => hs (track, steps) (List.mem_cons_self _ _) n hx)
      subst hw
      exact ih _ t (allGrids16_objSet acc track g h hlen)
        (fun e he => hs e (List.mem_cons_of_mem _ he)) ht

/-- C24, as stated, fails for `loadPattern` and for `generatePattern`: from a pattern
    whose grids all have 16 steps, loading a stored pattern whose kick grid has 2 steps
    leaves the current pattern with that grid of 2 steps, and a later `toggleStep` at
    index 9 of it gives a grid of 10 steps; a generated kick value that is a string of
    16 code units is stored as it is, not as a grid. -/
theorem loadPattern_keeps_short_grid :
    allGrids16 (kickStartNoAudio.currentPattern.tracks.getD []) = true ∧
    (generatePattern kickStartNoAudio
      (some { tracks := some [("kick", GeneratedSteps.text 16)],
              description := none })).currentPattern.tracks =
      some [("kick", StepsValue.nonArray)] ∧
    allGrids16 [("kick", StepsValue.nonArray)] = false ∧
    (loadPattern kickStartNoAudio shortStoredPattern).currentPattern.tracks =
      some [("kick", StepsValue.array [true, false])] ∧
    allGrids16 ((loadPattern kickStartNoAudio shortStoredPattern).currentPattern.tracks.getD
      []) = false ∧
    (∃ s1 : Machine,
      toggleStep (loadPattern kickStartNoAudio shortStoredPattern) "kick" 9 = some s1 ∧
      s1.currentPattern.tracks = some [("kick", StepsValue.array
        [true, false, false, false, false, false, false, false, false, true])]) := by
  have hl : (loadPattern kickStartNoAudio shortStoredPattern).currentPattern.tracks =
      some [("kick", StepsValue.array [true, false])] := by
    unfold loadPattern
    rw [updatePattern_currentPattern]
    rfl
  refine ⟨by decide, ?_, by decide, hl, ?_, ?_⟩
  · unfold generatePattern
    have hgen : generatePattern.tracks [("kick", GeneratedSteps.text 16)] [] =
        some [("kick", StepsValue.nonArray)] := by decide
    simp only [hgen]
    rw [updatePattern_currentPattern]
  · rw [hl]
    decide
  · have hcopy : toggleStep.copy (objGet
        ((loadPattern kickStartNoAudio shortStoredPattern).currentPattern.tracks.getD [])
        "kick") = some [true, false] := by
      rw [hl]
      decide
    obtain ⟨s1, h1, h2, _⟩ := toggleStep_some _ "kick" 9 [true, false] hcopy
    refine ⟨s1, h1, ?_⟩
    rw [h2, hl]
    decide

/-- C24, amended: from a pattern whose grids all have 16 steps, `toggleStep` with an
    index in `0..15` and `clearTrack` leave every grid with 16 steps, and so does
    `generatePattern` unless a generated value is a string of 16 or more code units;
    `createNewPattern` always does; `loadPattern` makes the current grids the stored
    pattern's grids unchanged (the 8 default grids of 16 steps when the stored pattern
    has none), so after it every grid has 16 steps exactly when every stored grid
    has. -/
theorem grids_keep_16_steps (s : Machine) (selectedTrack : String) (i : Nat)
    (patternData : Option PatternData) (pattern : StoredPattern)
    (h : allGrids16 (s.currentPattern.tracks.getD []) = true) (hi : i < 16) :
    (∃ s1 : Machine, toggleStep s selectedTrack i = some s1 ∧
      allGrids16 (s1.currentPattern.tracks.getD []) = true) ∧
    allGrids16 ((clearTrack s selectedTrack).currentPattern.tracks.getD []) = true ∧
    allGrids16 ((createNewPattern s).currentPattern.tracks.getD []) = true ∧
    ((∀ e ∈ (patternData.bind PatternData.tracks).getD [],
        ∀ n : Nat, e.2 = GeneratedSteps.text n → n < 16) →
      allGrids16 ((generatePattern s patternData).currentPattern.tracks.getD []) = true) ∧
    (loadPattern s pattern).currentPattern.tracks =
      some (pattern.tracks.getD defaultTracks) ∧
    allGrids16 defaultTracks = true ∧
    (∀ stored : List (String × StepsValue), pattern.tracks = some stored →
      allGrids16 ((loadPattern s pattern).currentPattern.tracks.getD []) =
        allGrids16 stored) := by
  have hload : (loadPattern s pattern).currentPattern.tracks =
      some (pattern.tracks.getD defaultTracks) := by
    unfold loadPattern
    rw [updatePattern_currentPattern]
    rfl
  refine ⟨?_, ?_, ?_, ?_, hload, by decide, ?_⟩
  · have hcopy : ∃ copy : List Bool,
        toggleStep.copy (objGet (s.currentPattern.tracks.getD []) selectedTrack) =
          some copy ∧ copy.length = 16 := by
      cases hg : objGet (s.currentPattern.tracks.getD []) selectedTrack with
      | none => exact ⟨emptyGrid, rfl, by simp [emptyGrid]⟩
      | some v =>
        obtain ⟨g, hv, hlen⟩ := allGrids16_objGet _ selectedTrack v h hg
        subst hv
        exact ⟨g, rfl, hlen⟩
    obtain ⟨copy, hc, hlen⟩ := hcopy
    obtain ⟨s1, h1, h2, _⟩ := toggleStep_some s selectedTrack i copy hc
    refine ⟨s1, h1, ?_⟩
    rw [h2]
    simp only [Option.getD_some]
    apply allGrids16_objSet _ _ _ h
    rw [arraySet_inside copy i _ (by rw [hlen]; exact hi), List.length_set, hlen]
  · unfold clearTrack
    rw [updatePattern_currentPattern]
    simp only [Option.getD_some]
    exact allGrids16_objSet _ _ _ h (by simp [emptyGrid])
  · unfold createNewPattern
    rw [updatePattern_currentPattern]
    simp only [Option.getD_some]
    decide
  · intro hs
    unfold generatePattern
    cases patternData with
    | none => exact h
    | some data =>
      simp only
      cases hd : data.tracks with
      | none => exact h
      | some entries =>
        simp only
        cases hgen : generatePattern.tracks entries [] with
        | none => exact h
        | some tracks =>
          simp only
          rw [updatePattern_currentPattern]
          simp only [Option.getD_some]
          refine allGrids16_generated entries [] tracks rfl ?_ hgen
          simpa [hd] using hs
  · intro stored hs
    rw [hload, hs]
    rfl

/-- C24 amended, at the kick-only pattern: toggling step 3 of the kick grid leaves a
    pattern whose grids all have 16 steps. -/
theorem grids_keep_16_steps_witness :
    allGrids16 (kickStartNoAudio.currentPattern.tracks.getD []) = true ∧
    ∃ s1 : Machine, toggleStep kickStartNoAudio "kick" 3 = some s1 ∧
      allGrids16 (s1.currentPattern.tracks.getD []) = true :=
  ⟨by decide,
   (grids_keep_16_steps kickStartNoAudio "kick" 3 none shortStoredPattern (by decide)
     (by decide)).1⟩

theorem loadPattern_pattern (s : Machine) (pattern : StoredPattern) :
    (loadPattern s pattern).currentPattern =
      { name := pattern.name.getD "",
        tempo := numOr (pattern.tempo.map (fun t => (t : ℚ))) 120,
        tracks := some (pattern.tracks.getD defaultTracks),
        levels := some (pattern.levels.getD createNewPattern.levels),
        tune := some (pattern.tune.getD createNewPattern.tune),
        decay := some (pattern.decay.getD createNewPattern.decay),
        files := some (pattern.files.getD []),
        id := pattern.id } := by
  unfold loadPattern
  rw [updatePattern_currentPattern]
  rfl

/-- C25: after `loadPattern` of a stored pattern with a name, a tempo in [60, 200] and
    `tracks`, `levels`, `tune` and `decay` present, the current pattern has exactly the
    stored name, tempo, tracks, levels, tune, decay and id (and the stored `_files`, or
    an empty object when there are none); a missing `levels`, `tune` or `decay` is set
    to the object `createNewPattern` writes, and so are missing `tracks`, and a missing
    tempo becomes 120 as in `createNewPattern`. -/
theorem loadPattern_round_trip (s : Machine) (pattern : StoredPattern) :
    (∀ (name : String) (tempo : Nat) (tracks : List (String × StepsValue))
       (levels tune decay : List (String × ℚ)),
      pattern.name = some name → pattern.tempo = some tempo → 60 ≤ tempo → tempo ≤ 200 →
      pattern.tracks = some tracks → pattern.levels = some levels →
      pattern.tune = some tune → pattern.decay = some decay →
      (loadPattern s pattern).currentPattern =
        { name := name, tempo := (tempo : ℚ), tracks := some tracks, levels := some levels,
          tune := some tune, decay := some decay, files := some (pattern.files.getD []),
          id := pattern.id }) ∧
    (pattern.levels = none →
      (loadPattern s pattern).currentPattern.levels =
        (createNewPattern s).currentPattern.levels) ∧
    (pattern.tune = none →
      (loadPattern s pattern).currentPattern.tune =
        (createNewPattern s).currentPattern.tune) ∧
    (pattern.decay = none →
      (loadPattern s pattern).currentPattern.decay =
        (createNewPattern s).currentPattern.decay) ∧
    (pattern.tracks = none →
      (loadPattern s pattern).currentPattern.tracks =
        (createNewPattern s).currentPattern.tracks) ∧
    (pattern.tempo = none →
      (loadPattern s pattern).currentPattern.tempo =
        (createNewPattern s).currentPattern.tempo) := by
  have hnew : (createNewPattern s).currentPattern =
      { s.currentPattern with
        name := "New Pattern", tempo := 120, tracks := some defaultTracks,
        levels := some createNewPattern.levels, tune := some createNewPattern.tune,
        decay := some createNewPattern.decay, files := some [] } := by
    unfold createNewPattern
    rw [updatePattern_currentPattern]
  rw [loadPattern_pattern, hnew]
  refine ⟨?_, ?_, ?_, ?_, ?_, ?_⟩
  · intro name tempo tracks levels tune decay hn ht h60 _ htr hl hu hd
    have hne : ((tempo : ℕ) : ℚ) ≠ 0 := by
      have : (0 : ℚ) < (tempo : ℚ) := by exact_mod_cast (by omega : 0 < tempo)
      exact ne_of_gt this
    simp [hn, ht, htr, hl, hu, hd, numOr, hne]
  · intro h
    simp [h]
  · intro h
    simp [h]
  · intro h
    simp [h]
  · intro h
    simp [h]
  · intro h
    simp [h, numOr]

/-- C25 at the demo pattern saved with its parameters, and at the demo pattern as the
    demo loader stores it, without `levels`. -/
theorem loadPattern_round_trip_witness :
    (loadPattern kickStartNoAudio classicHipHopEdited).currentPattern =
      { name := "Classic Hip-Hop", tempo := 90, tracks := classicHipHop.tracks,
        levels := some (objSet createNewPattern.levels "kick" 95),
        tune := some createNewPattern.tune, decay := some createNewPattern.decay,
        files := some [], id := some "classic-hip-hop" } ∧
    (loadPattern kickStartNoAudio classicHipHop).currentPattern.levels =
      (createNewPattern kickStartNoAudio).currentPattern.levels := by
  constructor
  · have h := (loadPattern_round_trip kickStartNoAudio classicHipHopEdited).1
      "Classic Hip-Hop" 90 _ _ _ _ rfl rfl (by decide) (by decide) rfl rfl rfl rfl
    rw [h]
    simp [classicHipHopEdited, classicHipHop]
  · exact (loadPattern_round_trip kickStartNoAudio classicHipHop).2.1 rfl

theorem generated_tracks (entries : List (String × GeneratedSteps)) :
    ∀ acc : List (String × StepsValue), (objKeys entries).Nodup →
      (∀ e ∈ entries, e.2 = GeneratedSteps.falsy ∨
        ∃ steps : List Bool, e.2 = GeneratedSteps.array steps) →
      (∀ k ∈ objKeys entries, k ∉ objKeys acc) →
      ∃ t : List (String × StepsValue), generatePattern.tracks entries acc = some t ∧
        objKeys t = objKeys acc ++ objKeys entries ∧
        (∀ (track : String) (steps : GeneratedSteps), (track, steps) ∈ entries →
          ∃ g : List Bool, generatePattern.normalize steps = some (StepsValue.array g) ∧
            objGet t track = some (StepsValue.array g)) ∧
        (∀ key : String, key ∉ objKeys entries → objGet t key = objGet acc key) := by
  induction entries with
  | nil =>
    intro acc _ _ _
    exact ⟨acc, rfl, by simp [objKeys], by simp, fun _ _ => rfl⟩
  | cons e rest ih =>
    intro acc hn hv hk
    obtain ⟨track, steps⟩ := e
    simp only [objKeys, List.map_cons, List.nodup_cons] at hn
    obtain ⟨g, hg⟩ : ∃ g, generatePattern.normalize steps = some (StepsValue.array g) := by
      rcases hv (track, steps) (List.mem_cons_self _ _) with h | ⟨st, h⟩
      · simp only at h
        subst h
        exact ⟨_, rfl⟩
      · simp only at h
        subst h
        exact ⟨_, rfl⟩
    have htrack : track ∉ objKeys acc := hk track (by simp [objKeys])
    have hkeys : objKeys (objSet acc track (StepsValue.array g)) = objKeys acc ++ [track] := by
      rw [objKeys_objSet, if_neg htrack]
    obtain ⟨t, ht, htk, hmem, hout⟩ := ih (objSet acc track (StepsValue.array g)) hn.2
      (fun e he => hv e (List.mem_cons_of_mem _ he))
      (by
        intro k hkr
        rw [hkeys, List.mem_append, List.mem_singleton]
        rintro (h | h)
        · exact hk k (by simp only [objKeys, List.map_cons]; exact List.mem_cons_of_mem _ hkr) h
        · exact hn.1 (by rw [← h]; exact hkr))
    refine ⟨t, ?_, ?_, ?_, ?_⟩
    · simp only [generatePattern.tracks, hg]
      exact ht
    · rw [htk, hkeys]
      simp [objKeys]
    · intro tr st hm
      rcases List.mem_cons.1 hm with h | h
      · obtain ⟨h1, h2⟩ := Prod.mk.inj h
        subst h1 h2
        refine ⟨g, hg, ?_⟩
        rw [hout tr hn.1, objGet_objSet, if_pos rfl]
      · exact hmem tr st h
    · intro key hkey
      simp only [objKeys, List.map_cons, List.mem_cons, not_or] at hkey
      rw [hout key hkey.2, objGet_objSet, if_neg (Ne.symm hkey.1)]

theorem normalize_array (steps : List Bool) :
    generatePattern.normalize (GeneratedSteps.array steps) =
      some (StepsValue.array
        (steps.take 16 ++ List.replicate (16 - min 16 steps.length) false)) := by
  simp only [generatePattern.normalize]
  rw [pad_eq (16 - (steps.take 16).length) _ rfl, List.length_take]

theorem normalize_falsy :
    generatePattern.normalize GeneratedSteps.falsy =
      some (StepsValue.array (List.replicate 16 false)) := by
  simp only [generatePattern.normalize]
  rw [pad_eq 0 emptyGrid (by simp [emptyGrid])]
  simp [emptyGrid]

theorem take_min_length (steps : List Bool) :
    steps.take (min steps.length 16) = steps.take 16 := by
  rcases Nat.le_total steps.length 16 with h | h
  · rw [Nat.min_eq_left h, List.take_of_length_le h, List.take_of_length_le (le_refl _)]
  · rw [Nat.min_eq_right h]

/-- C26, as stated, fails in its last part: from a generated result that names only
    `kick`, with one step, `generatePattern` stores a `tracks` object with the single
    padded kick grid; it holds no grid for `snare` or any other of the 8 ids. -/
theorem generated_tracks_can_miss_ids :
    (generatePattern kickStartNoAudio
      (some { tracks := some [("kick", GeneratedSteps.array [true])],
              description := none })).currentPattern.tracks =
      some [("kick", StepsValue.array (true :: List.replicate 15 false))] ∧
    objGet [("kick", StepsValue.array (true :: List.replicate 15 false))] "snare" = none ∧
    "snare" ∈ trackNames := by
  have hgen : generatePattern.tracks [("kick", GeneratedSteps.array [true])] [] =
      some [("kick", StepsValue.array (true :: List.replicate 15 false))] := by
    simp only [generatePattern.tracks, normalize_array]
    rfl
  refine ⟨?_, by decide, by decide⟩
  unfold generatePattern
  simp only [hgen]
  rw [updatePattern_currentPattern]

/-- C26, amended: for a generated `tracks` object whose values are arrays or absent,
    `generatePattern` stores one grid per generated key, in the same key order, and
    nothing under any other id. Each stored grid has 16 entries; for a step list `s`
    its first `min(|s|, 16)` entries are those of `s` and the rest are false; for an
    absent step list it is 16 false entries. The result holds a grid for each of the 8
    instrument ids only when the generated object names all of them. -/
theorem generatePattern_normalises (s : Machine) (entries : List (String × GeneratedSteps))
    (description : Option String) (hn : (objKeys entries).Nodup)
    (hv : ∀ e ∈ entries, e.2 = GeneratedSteps.falsy ∨
      ∃ steps : List Bool, e.2 = GeneratedSteps.array steps) :
    ∃ tracks : List (String × StepsValue),
      (generatePattern s (some { tracks := some entries,
                                 description := description })).currentPattern.tracks =
        some tracks ∧
      objKeys tracks = objKeys entries ∧
      allGrids16 tracks = true ∧
      (∀ (track : String) (steps : List Bool),
        (track, GeneratedSteps.array steps) ∈ entries →
        ∃ g : List Bool, objGet tracks track = some (StepsValue.array g) ∧ g.length = 16 ∧
          g.take (min steps.length 16) = steps.take (min steps.length 16) ∧
          g.drop (min steps.length 16) =
            List.replicate (16 - min steps.length 16) false) ∧
      (∀ track : String, (track, GeneratedSteps.falsy) ∈ entries →
        objGet tracks track = some (StepsValue.array (List.replicate 16 false))) ∧
      (∀ key : String, key ∉ objKeys entries → objGet tracks key = none) ∧
      ((∀ id ∈ trackNames, (objGet tracks id).isSome = true) ↔
        ∀ id ∈ trackNames, id ∈ objKeys entries) := by
  obtain ⟨t, ht, hkeys, hmem, hout⟩ := generated_tracks entries [] hn hv (by simp [objKeys])
  have hall : allGrids16 t = true := by
    refine allGrids16_generated entries [] t rfl ?_ ht
    intro e he n hx
    rcases hv e he with h | ⟨st, h⟩
    · rw [h] at hx
      exact absurd hx (by simp)
    · rw [h] at hx
      exact absurd hx (by simp)
  refine ⟨t, ?_, ?_, hall, ?_, ?_, ?_, ?_⟩
  · unfold generatePattern
    simp only [ht]
    rw [updatePattern_currentPattern]
  · rw [hkeys]
    simp [objKeys]
  · intro track steps hm
    obtain ⟨g, hg, hget⟩ := hmem track _ hm
    rw [normalize_array] at hg
    have hg2 : g = steps.take 16 ++ List.replicate (16 - min 16 steps.length) false := by
      simpa using (Option.some.inj hg).symm
    have hlen : (steps.take 16).length = min steps.length 16 := by
      rw [List.length_take, Nat.min_comm]
    refine ⟨g, hget, ?_, ?_, ?_⟩
    · rw [hg2, List.length_append, List.length_replicate, List.length_take]
      omega
    · rw [hg2, ← hlen, List.take_left', hlen, take_min_length]
      rfl
    · rw [hg2, ← hlen, List.drop_left', hlen, Nat.min_comm]
      rfl
  · intro track hm
    obtain ⟨g, hg, hget⟩ := hmem track _ hm
    rw [normalize_falsy] at hg
    rw [hget, ← Option.some.inj hg]
  · intro key hkey
    rw [hout key hkey]
    rfl
  · constructor
    · intro h id hid
      by_contra hc
      have := h id hid
      rw [hout id hc] at this
      simp [objGet] at this
    · intro h id hid
      obtain ⟨e, he, hfe⟩ := List.mem_map.1 (h id hid)
      obtain ⟨g, _, hget⟩ := hmem e.1 e.2 he
      rw [hfe] at hget
      rw [hget]
      rfl

/-- C26 amended, at a generated result with a kick list of one step and an absent snare
    list. -/
theorem generatePattern_normalises_witness :
    ∃ tracks : List (String × StepsValue),
      (generatePattern kickStartNoAudio
        (some { tracks := some [("kick", GeneratedSteps.array [true]),
                                ("snare", GeneratedSteps.falsy)],
                description := none })).currentPattern.tracks = some tracks ∧
      objKeys tracks = ["kick", "snare"] ∧
      objGet tracks "snare" = some (StepsValue.array (List.replicate 16 false)) := by
  obtain ⟨tracks, h1, h2, _, _, h5, _⟩ := generatePattern_normalises kickStartNoAudio
    [("kick", GeneratedSteps.array [true]), ("snare", GeneratedSteps.falsy)] none (by decide)
    (by
      intro e he
      simp only [List.mem_cons, List.mem_singleton, List.not_mem_nil, or_false] at he
      rcases he with h | h
      · exact Or.inr ⟨[true], by rw [h]⟩
      · exact Or.inl (by rw [h]))
  exact ⟨tracks, h1, h2, h5 "snare" (by simp)⟩

theorem digitChar_isDigit : ∀ d : Nat, d < 10 → (Nat.digitChar d).isDigit = true := by
  decide

theorem digitChar_inj : ∀ a : Nat, a < 10 → ∀ b : Nat, b < 10 →
    Nat.digitChar a = Nat.digitChar b → a = b := by
  decide

theorem digits_isDigit (fuel : Nat) : ∀ n : Nat, ∀ c ∈ numberToString.digits fuel n,
    c.isDigit = true := by
  induction fuel with
  | zero => intro n c hc; simp [numberToString.digits] at hc
  | succ f ih =>
    intro n c hc
    unfold numberToString.digits at hc
    split at hc
    · rename_i hlt
      rw [List.mem_singleton] at hc
      rw [hc]
      exact digitChar_isDigit n hlt
    · rcases List.mem_append.1 hc with h | h
      · exact ih _ c h
      · rw [List.mem_singleton] at h
        rw [h]
        exact digitChar_isDigit _ (Nat.mod_lt _ (by decide))

theorem digits_ne_nil (fuel n : Nat) : numberToString.digits (fuel + 1) n ≠ [] := by
  unfold numberToString.digits
  split <;> simp

theorem digits_inj (f : Nat) : ∀ (g n m : Nat), n < f → m < g →
    numberToString.digits f n = numberToString.digits g m → n = m := by
  induction f with
  | zero => intro g n m hn; omega
  | succ f ih =>
    intro g n m hn hm h
    cases g with
    | zero => omega
    | succ g =>
      unfold numberToString.digits at h
      by_cases h1 : n < 10
      · by_cases h2 : m < 10
        · rw [if_pos h1, if_pos h2] at h
          exact digitChar_inj n h1 m h2 (List.singleton_inj.1 h)
        · rw [if_pos h1, if_neg h2] at h
          have hlen := congrArg List.length h
          cases g with
          | zero => omega
          | succ g2 =>
            have hne := digits_ne_nil g2 (m / 10)
            have hpos : 0 < (numberToString.digits (g2 + 1) (m / 10)).length :=
              List.length_pos.2 hne
            simp only [List.length_singleton, List.length_append] at hlen
            omega
      · by_cases h2 : m < 10
        · rw [if_neg h1, if_pos h2] at h
          have hlen := congrArg List.length h
          cases f with
          | zero => omega
          | succ f2 =>
            have hne := digits_ne_nil f2 (n / 10)
            have hpos : 0 < (numberToString.digits (f2 + 1) (n / 10)).length :=
              List.length_pos.2 hne
            simp only [List.length_singleton, List.length_append] at hlen
            omega
        · rw [if_neg h1, if_neg h2] at h
          obtain ⟨ha, hb⟩ := List.append_inj' h rfl
          have hq : n / 10 = m / 10 := ih g (n / 10) (m / 10) (by omega) (by omega) ha
          have hr : n % 10 = m % 10 :=
            digitChar_inj _ (Nat.mod_lt _ (by decide)) _ (Nat.mod_lt _ (by decide))
              (List.singleton_inj.1 hb)
          omega

theorem numberToString_inj (n m : Nat) (h : numberToString n = numberToString m) : n = m := by
  unfold numberToString at h
  exact digits_inj (n + 1) (m + 1) n m (by omega) (by omega) (congrArg String.data h)

theorem numberToString_isDigit (n : Nat) : ∀ c ∈ (numberToString n).data, c.isDigit = true :=
  digits_isDigit (n + 1) n

theorem split_at_last {α : Type} (c : α) : ∀ (a b x y : List α), c ∉ x → c ∉ y →
    a ++ c :: x = b ++ c :: y → a = b ∧ x = y := by
  intro a
  induction a with
  | nil =>
    intro b x y hx hy h
    cases b with
    | nil => exact ⟨rfl, by simpa using h⟩
    | cons d b2 =>
      simp only [List.nil_append, List.cons_append, List.cons.injEq] at h
      exact absurd (by rw [h.2]; simp) hx
  | cons e a2 ih =>
    intro b x y hx hy h
    cases b with
    | nil =>
      simp only [List.nil_append, List.cons_append, List.cons.injEq] at h
      exact absurd (by rw [← h.2]; simp) hy
    | cons d b2 =>
      simp only [List.cons_append, List.cons.injEq] at h
      obtain ⟨h1, h2⟩ := ih b2 x y hx hy h.2
      exact ⟨by rw [h.1, h1], h2⟩

theorem numberToString_ne_undefined (n : Nat) : numberToString n ≠ "undefined" := by
  intro h
  have hu : 'u' ∈ (numberToString n).data := by
    rw [h]
    decide
  have := numberToString_isDigit n 'u' hu
  exact absurd this (by decide)

theorem patternKey_eq_iff (a b : StoredPattern) :
    patternKey a = patternKey b ↔
      a.name.getD "undefined" = b.name.getD "undefined" ∧ a.tempo = b.tempo := by
  constructor
  · intro h
    have hdash : ∀ t : Option Nat, '-' ∉
        (match t with
         | some tempo => numberToString tempo
         | none => "undefined").data := by
      intro t
      cases t with
      | none => decide
      | some tempo =>
        intro hc
        exact absurd (numberToString_isDigit tempo '-' hc) (by decide)
    unfold patternKey at h
    have hd := congrArg String.data h
    simp only [String.data_append] at hd
    have hd2 : (a.name.getD "undefined").data ++ '-' ::
        (match a.tempo with
         | some tempo => numberToString tempo
         | none => "undefined").data =
        (b.name.getD "undefined").data ++ '-' ::
        (match b.tempo with
         | some tempo => numberToString tempo
         | none => "undefined").data := by
      simpa using hd
    obtain ⟨h1, h2⟩ := split_at_last '-' _ _ _ _ (hdash a.tempo) (hdash b.tempo) hd2
    refine ⟨String.ext h1, ?_⟩
    have h3 := String.ext h2
    cases ha : a.tempo with
    | none =>
      cases hb : b.tempo with
      | none => rfl
      | some tb =>
        rw [ha, hb] at h3
        exact absurd h3.symm (numberToString_ne_undefined tb)
    | some ta =>
      cases hb : b.tempo with
      | none =>
        rw [ha, hb] at h3
        exact absurd h3 (numberToString_ne_undefined ta)
      | some tb =>
        rw [ha, hb] at h3
        rw [numberToString_inj ta tb h3]
  · intro h
    unfold patternKey
    rw [h.1, h.2]

theorem patternKey_eq_iff_of_doc (a b : StoredPattern) (ha : isPatternDoc a = true)
    (hb : isPatternDoc b = true) :
    patternKey a = patternKey b ↔ a.name = b.name ∧ a.tempo = b.tempo := by
  rw [patternKey_eq_iff]
  have hname : ∀ d : StoredPattern, isPatternDoc d = true → ∃ n, d.name = some n := by
    intro d hd
    unfold isPatternDoc at hd
    simp only [Bool.and_eq_true] at hd
    cases hn : d.name with
    | none => rw [hn] at hd; simp [strTruthy] at hd
    | some n => exact ⟨n, rfl⟩
  obtain ⟨na, hna⟩ := hname a ha
  obtain ⟨nb, hnb⟩ := hname b hb
  rw [hna, hnb]
  simp

theorem find_congr_mem {α : Type} (p q : α → Bool) (l : List α)
    (h : ∀ x ∈ l, p x = q x) : l.find? p = l.find? q := by
  induction l with
  | nil => rfl
  | cons a rest ih =>
    rw [List.find?_cons, List.find?_cons, h a (List.mem_cons_self _ _),
      ih (fun x hx => h x (List.mem_cons_of_mem _ hx))]

theorem unique_fold (l : List StoredPattern) :
    (l.foldl
      (fun unique pattern =>
        if (!unique.any (fun p => decide (patternKey p = patternKey pattern))) = true then
          unique ++ [pattern]
        else unique) []).Sublist l ∧
    (∀ d ∈ l, ∃ p ∈ l.foldl
      (fun unique pattern =>
        if (!unique.any (fun p => decide (patternKey p = patternKey pattern))) = true then
          unique ++ [pattern]
        else unique) [], patternKey p = patternKey d) ∧
    (l.foldl
      (fun unique pattern =>
        if (!unique.any (fun p => decide (patternKey p = patternKey pattern))) = true then
          unique ++ [pattern]
        else unique) []).Pairwise (fun a b => patternKey a ≠ patternKey b) ∧
    (∀ p ∈ l.foldl
      (fun unique pattern =>
        if (!unique.any (fun p => decide (patternKey p = patternKey pattern))) = true then
          unique ++ [pattern]
        else unique) [],
      l.find? (fun x => decide (patternKey x = patternKey p)) = some p) := by
  induction l using List.reverseRecOn with
  | nil => simp
  | append_singleton l d ih =>
    obtain ⟨h1, h2, h3, h4⟩ := ih
    rw [List.foldl_append, List.foldl_cons, List.foldl_nil]
    by_cases hany : (l.foldl
        (fun unique pattern =>
          if (!unique.any (fun p => decide (patternKey p = patternKey pattern))) = true then
            unique ++ [pattern]
          else unique) []).any (fun p => decide (patternKey p = patternKey d)) = true
    · have hif : ¬ ((!(l.foldl
          (fun unique pattern =>
            if (!unique.any (fun p => decide (patternKey p = patternKey pattern))) = true then
              unique ++ [pattern]
            else unique) []).any (fun p => decide (patternKey p = patternKey d))) = true) := by
        rw [hany]
        decide
      rw [if_neg hif]
      refine ⟨h1.trans (List.sublist_append_left l [d]), ?_, h3, ?_⟩
      · intro x hx
        rcases List.mem_append.1 hx with hx | hx
        · exact h2 x hx
        · rw [List.mem_singleton] at hx
          subst hx
          obtain ⟨p, hp, hk⟩ := List.any_eq_true.1 hany
          exact ⟨p, hp, by simpa using hk⟩
      · intro p hp
        rw [List.find?_append, h4 p hp]
        rfl
    · have hif : (!(l.foldl
          (fun unique pattern =>
            if (!unique.any (fun p => decide (patternKey p = patternKey pattern))) = true then
              unique ++ [pattern]
            else unique) []).any (fun p => decide (patternKey p = patternKey d))) = true := by
        simpa using hany
      rw [if_pos hif]
      have hnew : ∀ p ∈ l.foldl
          (fun unique pattern =>
            if (!unique.any (fun p => decide (patternKey p = patternKey pattern))) = true then
              unique ++ [pattern]
            else unique) [], patternKey p ≠ patternKey d := by
        intro p hp hk
        exact hany (List.any_eq_true.2 ⟨p, hp, by simpa using hk⟩)
      refine ⟨List.Sublist.append h1 (List.Sublist.refl [d]), ?_, ?_, ?_⟩
      · intro x hx
        rcases List.mem_append.1 hx with hx | hx
        · obtain ⟨p, hp, hk⟩ := h2 x hx
          exact ⟨p, List.mem_append_left _ hp, hk⟩
        · rw [List.mem_singleton] at hx
          subst hx
          exact ⟨x, List.mem_append_right _ (List.mem_singleton_self x), rfl⟩
      · rw [List.pairwise_append]
        refine ⟨h3, List.pairwise_singleton _ _, ?_⟩
        intro a ha b hb
        rw [List.mem_singleton] at hb
        subst hb
        exact hnew a ha
      · intro p hp
        rcases List.mem_append.1 hp with hp | hp
        · rw [List.find?_append, h4 p hp]
          rfl
        · rw [List.mem_singleton] at hp
          subst hp
          have hnone : l.find? (fun x => decide (patternKey x = patternKey p)) = none := by
            rw [List.find?_eq_none]
            intro x hx hk
            obtain ⟨q, hq, hqk⟩ := h2 x hx
            exact hnew q hq (by rw [hqk]; simpa using hk)
          rw [List.find?_append, hnone]
          simp

theorem find_filter {α : Type} (p q : α → Bool) (l : List α) :
    (l.filter p).find? q = l.find? (fun x => p x && q x) := by
  induction l with
  | nil => rfl
  | cons a rest ih =>
    by_cases hp : p a = true
    · rw [List.filter_cons_of_pos hp, List.find?_cons, List.find?_cons, ih, hp, Bool.true_and]
    · rw [List.filter_cons_of_neg hp, List.find?_cons, ih]
      simp [hp]

/-- C27: `savedPatterns` keeps the input order and holds only documents with a
    non-empty name, with tracks and not of type `samples`; every such document has an
    entry with its name and tempo; no two entries have the same name and the same
    tempo; each entry is the first such document of the input with its name and tempo;
    and two such documents get the same filter key exactly when their names and their
    tempos are equal. -/
theorem savedPatterns_first_per_name_and_tempo (allPatterns : List StoredPattern) :
    (savedPatterns allPatterns).Sublist allPatterns ∧
    (∀ p ∈ savedPatterns allPatterns,
      strTruthy p.name = true ∧ p.tracks.isSome = true ∧ p.type ≠ some "samples") ∧
    (∀ d ∈ allPatterns, isPatternDoc d = true →
      ∃ p ∈ savedPatterns allPatterns, p.name = d.name ∧ p.tempo = d.tempo) ∧
    (savedPatterns allPatterns).Pairwise
      (fun a b => ¬ (a.name = b.name ∧ a.tempo = b.tempo)) ∧
    (∀ p ∈ savedPatterns allPatterns,
      allPatterns.find?
        (fun x => isPatternDoc x && decide (x.name = p.name ∧ x.tempo = p.tempo)) = some p) ∧
    (∀ a b : StoredPattern, isPatternDoc a = true → isPatternDoc b = true →
      (patternKey a = patternKey b ↔ a.name = b.name ∧ a.tempo = b.tempo)) := by
  obtain ⟨h1, h2, h3, h4⟩ := unique_fold (allPatterns.filter isPatternDoc)
  have hdoc : ∀ p ∈ savedPatterns allPatterns, isPatternDoc p = true := by
    intro p hp
    exact (List.mem_filter.1 (h1.subset hp)).2
  refine ⟨h1.trans (List.filter_sublist _), ?_, ?_, ?_, ?_, ?_⟩
  · intro p hp
    have := hdoc p hp
    unfold isPatternDoc at this
    simpa [Bool.and_eq_true, and_assoc] using this
  · intro d hd hdd
    obtain ⟨p, hp, hk⟩ := h2 d (List.mem_filter.2 ⟨hd, hdd⟩)
    exact ⟨p, hp, (patternKey_eq_iff_of_doc p d (hdoc p hp) hdd).1 hk⟩
  · refine List.Pairwise.imp_of_mem ?_ h3
    intro a b ha hb hne hc
    exact hne ((patternKey_eq_iff_of_doc a b (hdoc a ha) (hdoc b hb)).2 hc)
  · intro p hp
    rw [← find_filter]
    rw [← h4 p hp]
    apply find_congr_mem
    intro x hx
    have hxd : isPatternDoc x = true := (List.mem_filter.1 hx).2
    have := patternKey_eq_iff_of_doc x p hxd (hdoc p hp)
    by_cases hk : patternKey x = patternKey p
    · simp [hk, this.1 hk]
    · have hn : ¬ (x.name = p.name ∧ x.tempo = p.tempo) := fun hc => hk (this.2 hc)
      simp [hk, hn]
  · intro a b ha hb
    exact patternKey_eq_iff_of_doc a b ha hb

/-- C27 at three stored documents: the demo pattern, a second copy of it under another
    id, and the same name at tempo 120. The copy is merged into the first; the entry at
    tempo 120 stays. -/
theorem savedPatterns_first_per_name_and_tempo_witness :
    savedPatterns
      [classicHipHop, { classicHipHop with id := some "copy" },
       { classicHipHop with tempo := some 120 }] =
      [classicHipHop, { classicHipHop with tempo := some 120 }] ∧
    (savedPatterns
      [classicHipHop, { classicHipHop with id := some "copy" },
       { classicHipHop with tempo := some 120 }]).Sublist
      [classicHipHop, { classicHipHop with id := some "copy" },
       { classicHipHop with tempo := some 120 }] :=
  ⟨by decide, (savedPatterns_first_per_name_and_tempo _).1⟩

theorem getD_set_self (g : List Bool) (i : Nat) (v : Bool) (h : i < g.length) :
    (g.set i v).getD i false = v := by
  simp [List.getD_eq_getElem?_getD, List.getElem?_set, h]

theorem getD_set_other (g : List Bool) (i j : Nat) (v : Bool) (h : j ≠ i) :
    (g.set i v).getD j false = g.getD j false := by
  simp [List.getD_eq_getElem?_getD, List.getElem?_set, Ne.symm h]

theorem set_getD_self (g : List Bool) : ∀ i : Nat, g.set i (g.getD i false) = g := by
  induction g with
  | nil => intro i; rfl
  | cons a rest ih =>
    intro i
    cases i with
    | zero => rfl
    | succ n =>
      simp only [List.set_cons_succ, List.getD_cons_succ]
      rw [ih n]

theorem toggle_twice (g : List Bool) (i : Nat) (h : i < g.length) :
    arraySet (arraySet g i (!(g.getD i false))) i
      (!((arraySet g i (!(g.getD i false))).getD i false)) = g := by
  rw [arraySet_inside g i _ h]
  rw [arraySet_inside _ i _ (by rw [List.length_set]; exact h)]
  rw [getD_set_self g i _ h, Bool.not_not, List.set_set, set_getD_self]

/-- C28: for a selected track whose grid has 16 entries and an index `i` in `0..15`,
    `toggleStep` stores the grid with entry `i` negated and every other entry as it was,
    leaves every other track, the key order, the parameters and the sequencer state as
    they were, and a second `toggleStep` at the same index restores the original
    pattern. -/
theorem toggleStep_negates_one_step (s : Machine) (selectedTrack : String)
    (tracks : List (String × StepsValue)) (grid : List Bool) (i : Nat)
    (ht : s.currentPattern.tracks = some tracks)
    (hg : objGet tracks selectedTrack = some (StepsValue.array grid))
    (hlen : grid.length = 16) (hi : i < 16) :
    ∃ s1 : Machine, toggleStep s selectedTrack i = some s1 ∧
      s1.currentPattern =
        { s.currentPattern with
          tracks := some (objSet tracks selectedTrack
            (StepsValue.array (grid.set i (!(grid.getD i false))))) } ∧
      (∃ grid1 : List Bool,
        objGet (s1.currentPattern.tracks.getD []) selectedTrack =
          some (StepsValue.array grid1) ∧
        grid1.length = 16 ∧
        grid1.getD i false = (!(grid.getD i false)) ∧
        (∀ j : Nat, j ≠ i → grid1.getD j false = grid.getD j false)) ∧
      (∀ other : String, other ≠ selectedTrack →
        objGet (s1.currentPattern.tracks.getD []) other = objGet tracks other) ∧
      objKeys (s1.currentPattern.tracks.getD []) = objKeys tracks ∧
      s1.currentPattern.levels = s.currentPattern.levels ∧
      s1.currentPattern.tune = s.currentPattern.tune ∧
      s1.currentPattern.decay = s.currentPattern.decay ∧
      s1.currentPattern.tempo = s.currentPattern.tempo ∧
      s1.currentPattern.name = s.currentPattern.name ∧
      s1.isPlaying = s.isPlaying ∧ s1.playbackStep = s.playbackStep ∧
      s1.timers = s.timers ∧
      (∃ s2 : Machine, toggleStep s1 selectedTrack i = some s2 ∧
        s2.currentPattern = s.currentPattern) := by
  have hil : i < grid.length := by rw [hlen]; exact hi
  have hcopy : toggleStep.copy (objGet (s.currentPattern.tracks.getD []) selectedTrack) =
      some grid := by
    rw [ht, Option.getD_some, hg]
    rfl
  obtain ⟨s1, hs1, hp1, hplay, hstep, htimers, _, _⟩ :=
    toggleStep_some s selectedTrack i grid hcopy
  rw [ht, Option.getD_some, arraySet_inside grid i _ hil] at hp1
  have ht1 : s1.currentPattern.tracks = some (objSet tracks selectedTrack
      (StepsValue.array (grid.set i (!(grid.getD i false))))) := by
    rw [hp1]
  have hmem : selectedTrack ∈ objKeys tracks := by
    by_contra hc
    rw [objGet_eq_none tracks selectedTrack hc] at hg
    exact absurd hg (by simp)
  refine ⟨s1, hs1, hp1, ?_, ?_, ?_, ?_, ?_, ?_, ?_, ?_, hplay, hstep, htimers, ?_⟩
  · refine ⟨grid.set i (!(grid.getD i false)), ?_, ?_, ?_, ?_⟩
    · rw [ht1, Option.getD_some, objGet_objSet, if_pos rfl]
    · rw [List.length_set, hlen]
    · exact getD_set_self grid i _ hil
    · intro j hj
      exact getD_set_other grid i j _ hj
  · intro other ho
    rw [ht1, Option.getD_some, objGet_objSet, if_neg (Ne.symm ho)]
  · rw [ht1, Option.getD_some, objKeys_objSet, if_pos hmem]
  · rw [hp1]
  · rw [hp1]
  · rw [hp1]
  · rw [hp1]
  · rw [hp1]
  · have hcopy1 : toggleStep.copy (objGet (s1.currentPattern.tracks.getD []) selectedTrack) =
        some (grid.set i (!(grid.getD i false))) := by
      rw [ht1, Option.getD_some, objGet_objSet, if_pos rfl]
      rfl
    obtain ⟨s2, hs2, hp2, _⟩ := toggleStep_some s1 selectedTrack i _ hcopy1
    refine ⟨s2, hs2, ?_⟩
    rw [hp2, ht1, Option.getD_some, objSet_objSet]
    have hback := toggle_twice grid i hil
    rw [arraySet_inside grid i _ hil] at hback
    rw [hback, objSet_self tracks selectedTrack _ hg, hp1]
    cases hcp : s.currentPattern
    rw [hcp] at ht
    simp only at ht
    simp [ht]

/-- C28 at the kick-only pattern, toggling step 1 of the kick grid. -/
theorem toggleStep_negates_one_step_witness :
    kickGrid.length = 16 ∧
    ∃ s1 : Machine, toggleStep kickStartNoAudio "kick" 1 = some s1 ∧
      s1.currentPattern =
        { kickOnlyPattern with
          tracks := some [("kick", StepsValue.array (kickGrid.set 1 true))] } ∧
      ∃ s2 : Machine,
        toggleStep s1 "kick" 1 = some s2 ∧ s2.currentPattern = kickOnlyPattern := by
  obtain ⟨s1, h1, h2, h3⟩ := toggleStep_negates_one_step kickStartNoAudio "kick"
    [("kick", StepsValue.array kickGrid)] kickGrid 1 rfl rfl rfl (by decide)
  exact ⟨rfl, s1, h1, h2, h3.2.2.2.2.2.2.2.2.2.2.2⟩

theorem roundHalfEven_error (q : ℚ) : |(roundHalfEven q : ℚ) - q| ≤ 1 / 2 := by
  have h0 : (⌊q⌋ : ℚ) ≤ q := Int.floor_le q
  have h1 : q < (⌊q⌋ : ℚ) + 1 := Int.lt_floor_add_one q
  unfold roundHalfEven
  simp only
  split_ifs with ha hb hc
  · rw [abs_le]
    constructor <;> linarith
  · rw [abs_le]
    push_cast
    constructor <;> linarith
  · rw [abs_le]
    constructor <;> linarith
  · rw [abs_le]
    push_cast
    constructor <;> linarith

theorem roundHalfEven_intCast (z : ℤ) : roundHalfEven (z : ℚ) = z := by
  unfold roundHalfEven
  simp only [Int.floor_intCast, sub_self]
  rw [if_pos (by norm_num)]

theorem toDouble_dyadic (x : ℚ) : ∃ m k : ℤ, toDouble x = (m : ℚ) * 2 ^ k := by
  unfold toDouble
  split_ifs with h
  · exact ⟨0, 0, by simp⟩
  · exact ⟨_, _, rfl⟩

theorem toDouble_error (x : ℚ) : |toDouble x - x| ≤ |x| / 2 ^ 53 := by
  unfold toDouble
  split_ifs with h
  · simp [h]
  · simp only
    have hx : 0 < |x| := abs_pos.2 h
    have hu : (0 : ℚ) < 2 ^ (Int.log 2 |x| - 52) := by positivity
    have hle : ((2 : ℕ) : ℚ) ^ Int.log 2 |x| ≤ |x| := Int.zpow_log_le_self (by norm_num) hx
    have herr := roundHalfEven_error (x / 2 ^ (Int.log 2 |x| - 52))
    have hfac : (roundHalfEven (x / 2 ^ (Int.log 2 |x| - 52)) : ℚ) * 2 ^ (Int.log 2 |x| - 52) - x =
        ((roundHalfEven (x / 2 ^ (Int.log 2 |x| - 52)) : ℚ) - x / 2 ^ (Int.log 2 |x| - 52)) *
          2 ^ (Int.log 2 |x| - 52) := by
      field_simp
    rw [hfac, abs_mul, abs_of_pos hu]
    have hhalf : (2 : ℚ) ^ (Int.log 2 |x| - 52) = 2 ^ Int.log 2 |x| / 2 ^ 52 := by
      rw [zpow_sub₀ (by norm_num)]
      norm_num
    calc |(roundHalfEven (x / 2 ^ (Int.log 2 |x| - 52)) : ℚ) - x / 2 ^ (Int.log 2 |x| - 52)| *
          2 ^ (Int.log 2 |x| - 52)
        ≤ 1 / 2 * 2 ^ (Int.log 2 |x| - 52) := by
          exact mul_le_mul_of_nonneg_right herr (le_of_lt hu)
      _ = 2 ^ Int.log 2 |x| / 2 ^ 53 := by
          rw [hhalf]
          ring
      _ ≤ |x| / 2 ^ 53 := by
          apply div_le_div_of_nonneg_right _ (by positivity)
          simpa using hle

theorem toDouble_intCast (n : ℤ) (h : |n| < 2 ^ 53) : toDouble (n : ℚ) = n := by
  by_cases h0 : n = 0
  · simp [toDouble, h0]
  · have hx : (0 : ℚ) < |(n : ℚ)| := abs_pos.2 (by exact_mod_cast h0)
    have h1 : (1 : ℚ) ≤ |(n : ℚ)| := by
      have : (1 : ℤ) ≤ |n| := Int.one_le_abs h0
      exact_mod_cast this
    have hle : ((2 : ℕ) : ℚ) ^ Int.log 2 |(n : ℚ)| ≤ |(n : ℚ)| :=
      Int.zpow_log_le_self (by norm_num) hx
    have hlt : |(n : ℚ)| < 2 ^ (53 : ℤ) := by
      have h2 : ((|n| : ℤ) : ℚ) < (2 : ℚ) ^ (53 : ℕ) := by exact_mod_cast h
      rw [Int.cast_abs] at h2
      exact_mod_cast h2
    have he0 : 0 ≤ Int.log 2 |(n : ℚ)| := by
      rw [Int.log_of_one_le_right 2 h1]
      exact Int.natCast_nonneg _
    have he52 : Int.log 2 |(n : ℚ)| < 53 := by
      have : ((2 : ℕ) : ℚ) ^ Int.log 2 |(n : ℚ)| < ((2 : ℕ) : ℚ) ^ (53 : ℤ) := by
        push_cast
        push_cast at hle
        exact lt_of_le_of_lt hle hlt
      exact (zpow_lt_zpow_iff_right₀ (by norm_num)).1 this
    obtain ⟨k, hk⟩ : ∃ k : ℕ, Int.log 2 |(n : ℚ)| - 52 = -(k : ℤ) :=
      ⟨(52 - Int.log 2 |(n : ℚ)|).toNat, by omega⟩
    unfold toDouble
    rw [if_neg (by exact_mod_cast h0)]
    simp only
    rw [hk, zpow_neg, zpow_natCast]
    have hq : (n : ℚ) / (2 ^ k)⁻¹ = ((n * 2 ^ k : ℤ) : ℚ) := by
      push_cast
      field_simp
    rw [hq, roundHalfEven_intCast]
    push_cast
    field_simp

theorem not_dyadic_500_3 (m k : ℤ) : (500 / 3 : ℚ) ≠ (m : ℚ) * 2 ^ k := by
  intro h
  rcases Int.le_total 0 k with hk | hk
  · obtain ⟨j, rfl⟩ := Int.eq_ofNat_of_zero_le hk
    rw [zpow_natCast] at h
    have h2 : ((500 : ℤ) : ℚ) = ((3 * (m * 2 ^ j) : ℤ) : ℚ) := by
      push_cast
      linarith
    have h3 : (500 : ℤ) = 3 * (m * 2 ^ j) := by exact_mod_cast h2
    omega
  · obtain ⟨j, hj⟩ : ∃ j : ℕ, k = -(j : ℤ) := ⟨(-k).toNat, by omega⟩
    rw [hj, zpow_neg, zpow_natCast] at h
    have hp : (0 : ℚ) < 2 ^ j := by positivity
    have h2 : ((500 * 2 ^ j : ℤ) : ℚ) = ((3 * m : ℤ) : ℚ) := by
      push_cast
      field_simp at h
      linarith
    have h3 : (500 * 2 ^ j : ℤ) = 3 * m := by exact_mod_cast h2
    have h4 : (3 : ℤ) ∣ 500 * 2 ^ j := ⟨m, h3⟩
    have hc : IsCoprime (3 : ℤ) (2 ^ j) := by
      apply IsCoprime.pow_right
      exact ⟨1, -1, by norm_num⟩
    have h5 : (3 : ℤ) ∣ 500 := hc.dvd_of_dvd_mul_right h4
    omega

theorem stepInterval_natCast (n : ℕ) (hn : n ≤ 200) :
    stepInterval (n : ℚ) = toDouble (60000 / ((n : ℚ) * 4)) := by
  unfold stepInterval
  have hc : (n : ℚ) * 4 = (((n * 4 : ℕ) : ℤ) : ℚ) := by push_cast; ring
  rw [hc, toDouble_intCast]
  rw [abs_of_nonneg (Int.natCast_nonneg _)]
  have : ((n * 4 : ℕ) : ℤ) ≤ 800 := by exact_mod_cast (by omega : n * 4 ≤ 800)
  omega

theorem stepInterval_90 : stepInterval 90 = 5864062014805333 / 35184372088832 := by
  have h := stepInterval_natCast 90 (by norm_num)
  have hq : (60000 : ℚ) / (((90 : ℕ) : ℚ) * 4) = 500 / 3 := by norm_num
  rw [hq] at h
  have h90 : ((90 : ℕ) : ℚ) = 90 := by norm_num
  rw [h90] at h
  rw [h]
  have hlog : Int.log 2 |(500 / 3 : ℚ)| = 7 := by
    have habs : |(500 / 3 : ℚ)| = 500 / 3 := abs_of_pos (by norm_num)
    rw [habs, Int.log_of_one_le_right 2 (by norm_num)]
    have hf : ⌊(500 / 3 : ℚ)⌋₊ = 166 := by
      rw [Nat.floor_eq_iff (by norm_num)]
      constructor <;> norm_num
    rw [hf]
    have : Nat.log 2 166 = 7 := by
      rw [Nat.log_eq_iff (by norm_num)]
      constructor <;> norm_num
    rw [this]
    rfl
  unfold toDouble
  rw [if_neg (by norm_num)]
  simp only [hlog]
  have hr : roundHalfEven ((500 / 3 : ℚ) / 2 ^ ((7 : ℤ) - 52)) = 5864062014805333 := by
    have hv : (500 / 3 : ℚ) / 2 ^ ((7 : ℤ) - 52) = 17592186044416000 / 3 := by
      have : ((7 : ℤ) - 52) = -45 := by norm_num
      rw [this, zpow_neg]
      norm_num
    rw [hv]
    have hfl : ⌊(17592186044416000 / 3 : ℚ)⌋ = 5864062014805333 := by
      rw [Int.floor_eq_iff]
      constructor <;> norm_num
    unfold roundHalfEven
    simp only [hfl]
    rw [if_pos (by norm_num)]
  rw [hr]
  have : ((7 : ℤ) - 52) = -45 := by norm_num
  rw [this, zpow_neg]
  norm_num

/-- C2, as stated, fails at tempo 90: the interval handed to `setInterval` on start is
    the double `5864062014805333 / 2^45` (printed 166.66666666666666), which is not the
    rational `60000 / (90 * 4) = 500 / 3`; no double equals `500 / 3`. -/
theorem interval_at_90_is_rounded :
    intervalsPassed ((togglePlay kickStart).log.drop kickStart.log.length) =
      [5864062014805333 / 35184372088832] ∧
    (5864062014805333 / 35184372088832 : ℚ) ≠ 60000 / (90 * 4) ∧
    (∀ x : ℚ, toDouble x ≠ 60000 / (90 * 4)) := by
  refine ⟨?_, by norm_num, ?_⟩
  · rw [togglePlay_start kickStart { suspended := false, currentTime := 0 } rfl rfl]
    simp only [List.drop_left]
    rw [intervalsPassed_append, intervalsPassed_append, intervalsPassed_resume,
      intervalsPassed_stepEvents]
    have ht : kickStart.currentPattern.tempo = 90 := rfl
    rw [ht, ← stepInterval_90]
    rfl
  · intro x hx
    obtain ⟨m, k, hmk⟩ := toDouble_dyadic x
    rw [hmk] at hx
    exact not_dyadic_500_3 m k (by rw [hx]; norm_num)

/-- C2, amended: for every integer tempo `t` with `60 ≤ t ≤ 200`, the interval handed to
    `setInterval` when the sequencer starts, and when it reschedules after the tempo
    changed to `t`, is the double nearest to `60000 / (t * 4)`: a dyadic rational within
    a relative error of `2^-53` of `60000 / (t * 4)`, and `60000 / (t * 4)` itself
    whenever that is a whole number. -/
theorem step_interval_formula (s : Machine) (ctx : AudioContext) (t : ℕ)
    (hr : Reachable s) (_h60 : 60 ≤ t) (h200 : t ≤ 200) :
    stepInterval (t : ℚ) = toDouble (60000 / ((t : ℚ) * 4)) ∧
    |stepInterval (t : ℚ) - 60000 / ((t : ℚ) * 4)| ≤ 60000 / ((t : ℚ) * 4) / 2 ^ 53 ∧
    (∃ m k : ℤ, stepInterval (t : ℚ) = (m : ℚ) * 2 ^ k) ∧
    (∀ m : ℕ, (60000 : ℚ) / ((t : ℚ) * 4) = m → stepInterval (t : ℚ) = m) ∧
    (s.isPlaying = false → s.audioContext = some ctx → s.currentPattern.tempo = t →
      intervalsPassed ((togglePlay s).log.drop s.log.length) = [stepInterval (t : ℚ)] ∧
      intervalsPassed ((clickPlay s).log.drop s.log.length) =
        [stepInterval (t : ℚ), stepInterval (t : ℚ)] ∧
      ∃ tm : Timer, (clickPlay s).timers = [tm] ∧ tm.interval = stepInterval (t : ℚ)) ∧
    (s.isPlaying = true → s.currentPattern.tempo ≠ t →
      intervalsPassed ((setTempo s t).log.drop s.log.length) = [stepInterval (t : ℚ)] ∧
      ∃ tm : Timer, (setTempo s t).timers = [tm] ∧ tm.interval = stepInterval (t : ℚ)) := by
  have hi := reachable_inv s hr
  have hs := stepInterval_natCast t h200
  have hpos : (0 : ℚ) < 60000 / ((t : ℚ) * 4) := by
    have : (0 : ℚ) < (t : ℚ) := by exact_mod_cast (by omega : 0 < t)
    positivity
  refine ⟨hs, ?_, ?_, ?_, ?_, ?_⟩
  · rw [hs]
    have h := toDouble_error (60000 / ((t : ℚ) * 4))
    rwa [abs_of_pos hpos] at h
  · rw [hs]
    exact toDouble_dyadic _
  · intro m hm
    rw [hs, hm]
    have hc : (m : ℚ) = ((m : ℤ) : ℚ) := by push_cast; rfl
    rw [hc, toDouble_intCast]
    rw [abs_of_nonneg (Int.natCast_nonneg _)]
    have hle : (m : ℚ) ≤ 250 := by
      rw [← hm, div_le_iff₀ (by positivity)]
      have : (60 : ℚ) ≤ (t : ℚ) := by exact_mod_cast _h60
      linarith
    have : m ≤ 250 := by exact_mod_cast hle
    omega
  · intro h1 h2 h3
    refine ⟨?_, ?_, ?_⟩
    · rw [togglePlay_start s ctx h1 h2]
      simp only [List.drop_left]
      rw [intervalsPassed_append, intervalsPassed_append, intervalsPassed_resume,
        intervalsPassed_stepEvents, h3]
      rfl
    · rw [clickPlay_start s ctx h1 h2]
      simp only [List.drop_left]
      rw [intervalsPassed_append, intervalsPassed_append, intervalsPassed_resume,
        intervalsPassed_stepEvents, h3]
      rfl
    · rw [clickPlay_start s ctx h1 h2]
      refine ⟨{ id := s.lastTimerId + 2, interval := stepInterval s.currentPattern.tempo,
                stepIndex := 1 }, by simp [(hi.1 h1).1], ?_⟩
      simp only [h3]
  · intro hp hne
    obtain ⟨tm, ht, hrf, _⟩ := hi.2 hp
    rw [setTempo_running s t tm hp ht hrf hne]
    refine ⟨?_, _, rfl, rfl⟩
    simp only [List.drop_left]
    rfl

/-- C2 amended, at the tempo 120: changing the tempo of the sequencer running at 90 BPM
    to 120 BPM passes exactly `125` ms, a whole number. -/
theorem step_interval_formula_witness :
    intervalsPassed
      ((setTempo (clickPlay kickStart) 120).log.drop (clickPlay kickStart).log.length) =
        [125] := by
  have h2 := step_interval_formula (clickPlay kickStart) { suspended := false, currentTime := 0 }
    120 (Reachable.clickPlay (Reachable.init _ _)) (by norm_num) (by norm_num)
  have hv : stepInterval ((120 : ℕ) : ℚ) = ((125 : ℕ) : ℚ) := h2.2.2.2.1 125 (by norm_num)
  have h := (h2.2.2.2.2.2 kickStart_running.1 (by rw [kickStart_running.2]; norm_num)).1
  rw [hv] at h
  simpa using h

theorem scanFiles_eq_find {host : Host} (buffers : List (String × AudioBuffer)) (trackName : String)
    (keys : List String) :
    scanFiles host buffers trackName keys none =
      keys.find? (fun f => includesLower host f trackName && (objGet buffers f).isSome) := by
  induction keys with
  | nil => rfl
  | cons f rest ih =>
    by_cases h : (includesLower host f trackName && (objGet buffers f).isSome) = true
    · rw [List.find?_cons, h]
      simp only [scanFiles]
      rw [if_pos h]
    · rw [List.find?_cons]
      simp only [scanFiles]
      rw [if_neg h, ih]
      simp only [Bool.not_eq_true] at h
      rw [h]

theorem includesLower_empty {host : Host} (h0 : host.toLowerCase "" = "")
    (hid : ∀ t ∈ trackNames, host.toLowerCase t = t) (trackName : String)
    (h : trackName ∈ trackNames) :
    includesLower host "" trackName = false := by
  unfold includesLower
  rw [h0, hid trackName h]
  have hne : trackName.data ≠ [] := by
    revert trackName
    decide
  simpa using hne

theorem contains_iff_window {α : Type} [DecidableEq α] (l1 l2 : List α) :
    l1 <:+: l2 ↔ ∃ i ∈ List.range (l2.length + 1), (l2.drop i).take l1.length = l1 := by
  constructor
  · rintro ⟨s, t, h⟩
    refine ⟨s.length, ?_, ?_⟩
    · rw [List.mem_range, ← h]
      simp only [List.length_append]
      omega
    · rw [← h, List.append_assoc, List.drop_left, List.take_left]
  · rintro ⟨i, _, h⟩
    refine ⟨l2.take i, (l2.drop i).drop l1.length, ?_⟩
    have h1 : (l2.drop i).take l1.length ++ (l2.drop i).drop l1.length = l2.drop i :=
      List.take_append_drop _ _
    rw [h] at h1
    rw [List.append_assoc, h1, List.take_append_drop]

theorem specContains_eq_includesLower (host : Host) (name id : String) :
    specContains host name id = includesLower host name id := by
  unfold specContains includesLower
  rw [Bool.eq_iff_iff, List.any_eq_true, decide_eq_true_eq, contains_iff_window]
  constructor
  · rintro ⟨i, hi, h⟩
    exact ⟨i, hi, by simpa using h⟩
  · rintro ⟨i, hi, h⟩
    exact ⟨i, hi, by simpa using h⟩

theorem find_includes_truthy {host : Host} (h0 : host.toLowerCase "" = "")
    (hid : ∀ t ∈ trackNames, host.toLowerCase t = t) (g : String → Bool) (trackName : String)
    (h : trackName ∈ trackNames) (keys : List String) (f : String)
    (hf : keys.find? (fun x => includesLower host x trackName && g x) = some f) :
    strTruthy (some f) = true := by
  have hp := List.find?_some hf
  simp only [Bool.and_eq_true] at hp
  simp only [strTruthy, decide_eq_true_eq]
  intro he
  rw [he, includesLower_empty h0 hid trackName h] at hp
  exact absurd hp.1 (by simp)

theorem resolverBinding_eq_assign {host : Host} (ctx : AudioContext)
    (libraryFiles patternFiles : Option (List (String × FileData))) (trackName : String)
    (h : trackName ∈ trackNames) :
    resolverBinding host (some ctx) libraryFiles patternFiles trackName =
      if strTruthy (assignSample host patternFiles libraryFiles
          (loadBuffers (objSpread (libraryFiles.getD []) (patternFiles.getD []))) trackName) = true
      then assignSample host patternFiles libraryFiles
          (loadBuffers (objSpread (libraryFiles.getD []) (patternFiles.getD []))) trackName
      else none := by
  have hnd : trackNames.Nodup := by decide
  have key := objGet_foldl_mapping
    (fun t => assignSample host patternFiles libraryFiles
      (loadBuffers (objSpread (libraryFiles.getD []) (patternFiles.getD []))) t)
    trackNames [] hnd trackName
  simp only [h, true_and, objGet] at key
  unfold resolverBinding loadAudioBuffersAndCreateMapping createMapping
  simp only [Option.bind]
  exact key

/-- C9: for each of the 8 instrument ids the binding computed by
    `loadAudioBuffersAndCreateMapping` is the reference resolution order `specBinding`:
    exact attachment, else first decoded pattern-local identifier that contains the id
    when case is ignored, else first such library identifier, else unbound. It holds
    for every lower-casing of the host that leaves the empty string and the 8 ids as
    they are. -/
theorem resolver_binding_matches_reference (host : Host) (ctx : AudioContext)
    (patternFiles libraryFiles : Option (List (String × FileData))) (trackName : String)
    (h0 : host.toLowerCase "" = "")
    (hid : ∀ t ∈ trackNames, host.toLowerCase t = t)
    (hm : trackName ∈ trackNames)
    (hp : (objKeys (patternFiles.getD [])).Nodup)
    (hl : (objKeys (libraryFiles.getD [])).Nodup) :
    resolverBinding host (some ctx) libraryFiles patternFiles trackName =
      specBinding host (patternFiles.getD []) (libraryFiles.getD []) trackName := by
  rw [resolverBinding_eq_assign ctx libraryFiles patternFiles trackName hm]
  unfold assignSample specBinding
  simp only [specContains_eq_includesLower]
  rw [fileTruthy_bind]
  by_cases ha : fileTruthy (objGet (patternFiles.getD []) trackName) = true
  · simp only [if_pos ha]
    rw [if_pos]
    simp only [strTruthy, decide_eq_true_eq]
    exact trackName_ne_empty trackName hm
  · simp only [if_neg ha]
    have hpred : (fun f => includesLower host f trackName &&
        (objGet (loadBuffers (objSpread (libraryFiles.getD []) (patternFiles.getD []))) f).isSome) =
        (fun f => includesLower host f trackName &&
          specDecoded (patternFiles.getD []) (libraryFiles.getD []) f) := by
      funext f
      rw [buffers_isSome_eq_specDecoded _ _ hp hl f]
    rw [scanFiles_eq_find, hpred]
    cases h1 : (objKeys (patternFiles.getD [])).find?
        (fun f => includesLower host f trackName &&
          specDecoded (patternFiles.getD []) (libraryFiles.getD []) f) with
    | some f =>
      have ht := find_includes_truthy h0 hid _ trackName hm _ f h1
      simp only [if_pos ht]
    | none =>
      have hn : strTruthy none = false := rfl
      simp only [hn, Bool.false_eq_true, if_false]
      rw [scanFiles_eq_find, hpred]
      cases h2 : (objKeys (libraryFiles.getD [])).find?
          (fun f => includesLower host f trackName &&
            specDecoded (patternFiles.getD []) (libraryFiles.getD []) f) with
      | some f =>
        have ht := find_includes_truthy h0 hid _ trackName hm _ f h2
        simp only [if_pos ht]
      | none => simp only [hn, Bool.false_eq_true, if_false]

/-- C9 at concrete files: `kick` binds to `KICK2.wav`, the first pattern-local match
    that decoded (`my_Kick.wav` failed), ahead of the library's `kick_alt.wav`; `snare`
    binds to its exact attachment; `clap` is unbound. -/
theorem resolver_binding_matches_reference_witness :
    resolverBinding asciiHost (some { suspended := false, currentTime := 0 })
      (some demoLibraryFiles) (some demoPatternFiles) "kick" = some "KICK2.wav" ∧
    resolverBinding asciiHost (some { suspended := false, currentTime := 0 })
      (some demoLibraryFiles) (some demoPatternFiles) "snare" = some "snare" ∧
    resolverBinding asciiHost (some { suspended := false, currentTime := 0 })
      (some demoLibraryFiles) (some demoPatternFiles) "clap" = none := by
  refine ⟨?_, ?_, ?_⟩
  · rw [resolver_binding_matches_reference asciiHost { suspended := false, currentTime := 0 }
      (some demoPatternFiles) (some demoLibraryFiles) "kick" rfl (by decide) (by decide)
      (by decide) (by decide)]
    decide
  · rw [resolver_binding_matches_reference asciiHost { suspended := false, currentTime := 0 }
      (some demoPatternFiles) (some demoLibraryFiles) "snare" rfl (by decide) (by decide)
      (by decide) (by decide)]
    decide
  · rw [resolver_binding_matches_reference asciiHost { suspended := false, currentTime := 0 }
      (some demoPatternFiles) (some demoLibraryFiles) "clap" rfl (by decide) (by decide)
      (by decide) (by decide)]
    decide

/-- C10: an instrument id with a pattern-local file attached under that exact id is
    bound to that id whatever the global library holds, so two resolver runs that
    differ only in the library give the same binding for it. -/
theorem exact_attachment_wins (host : Host) (ctx1 ctx2 : AudioContext)
    (patternFiles : List (String × FileData))
    (library1 library2 : Option (List (String × FileData))) (trackName : String)
    (hm : trackName ∈ trackNames)
    (ha : fileTruthy (objGet patternFiles trackName) = true) :
    resolverBinding host (some ctx1) library1 (some patternFiles) trackName = some trackName ∧
    resolverBinding host (some ctx2) library2 (some patternFiles) trackName = some trackName ∧
    resolverBinding host (some ctx1) library1 (some patternFiles) trackName =
      resolverBinding host (some ctx2) library2 (some patternFiles) trackName := by
  have key : ∀ (ctx : AudioContext) (lib : Option (List (String × FileData))),
      resolverBinding host (some ctx) lib (some patternFiles) trackName = some trackName := by
    intro ctx lib
    rw [resolverBinding_eq_assign ctx lib (some patternFiles) trackName hm]
    unfold assignSample
    rw [fileTruthy_bind]
    simp only [Option.getD_some, if_pos ha]
    rw [if_pos]
    simp only [strTruthy, decide_eq_true_eq]
    exact trackName_ne_empty trackName hm
  exact ⟨key ctx1 library1, key ctx2 library2, by rw [key ctx1 library1, key ctx2 library2]⟩

/-- C10 at pattern-local `kick` with the library holding `kick_alt.wav`, and with an
    empty library: `kick` binds to `kick` both times. -/
theorem exact_attachment_wins_witness :
    resolverBinding asciiHost (some { suspended := false, currentTime := 0 })
      (some demoLibraryFiles) (some kickAttachedFiles) "kick" = some "kick" ∧
    resolverBinding asciiHost (some { suspended := false, currentTime := 0 })
      none (some kickAttachedFiles) "kick" = some "kick" := by
  have h := exact_attachment_wins asciiHost { suspended := false, currentTime := 0 }
    { suspended := false, currentTime := 0 } kickAttachedFiles (some demoLibraryFiles) none
    "kick" (by decide) (by decide)
  exact ⟨h.1, h.2.1⟩

theorem resolverBinding_eq_objGet {host : Host} (ctx : AudioContext)
    (libraryFiles patternFiles : Option (List (String × FileData))) (trackName : String) :
    resolverBinding host (some ctx) libraryFiles patternFiles trackName =
      objGet (createMapping host patternFiles libraryFiles
        (loadBuffers (objSpread (libraryFiles.getD []) (patternFiles.getD [])))) trackName :=
  rfl

theorem playAfterResolve_eq {host : Host} (pow2 : ℚ → ℚ) (ctx : AudioContext)
    (libraryFiles patternFiles : Option (List (String × FileData))) (trackName : String)
    (time velocity tune decay : ℚ) :
    playAfterResolve host pow2 ctx libraryFiles patternFiles trackName time velocity tune decay =
      some (playSample host pow2 (some ctx)
        (createMapping host patternFiles libraryFiles
          (loadBuffers (objSpread (libraryFiles.getD []) (patternFiles.getD []))))
        (loadBuffers (objSpread (libraryFiles.getD []) (patternFiles.getD [])))
        trackName time velocity tune decay) :=
  rfl

theorem trackName_not_inherited (trackName : String) (h : trackName ∈ trackNames) :
    trackName ∉ objectPrototypeKeys := by
  revert trackName
  decide

theorem objLookup_own {α : Type} (o : List (String × α)) (key : String) (v : α)
    (h : objGet o key = some v) : objLookup o key = Lookup.own v := by
  simp [objLookup, h]

theorem objLookup_undefined {α : Type} (o : List (String × α)) (key : String)
    (h : objGet o key = none) (hk : key ∉ objectPrototypeKeys) :
    objLookup o key = Lookup.undefined := by
  simp [objLookup, h, hk]

theorem objLookup_inherited {α : Type} (o : List (String × α)) (key : String)
    (h : objGet o key = none) (hk : key ∈ objectPrototypeKeys) :
    objLookup o key = Lookup.inherited key := by
  simp [objLookup, h, hk]

theorem playSample_bound (host : Host) (pow2 : ℚ → ℚ) (audioContext : Option AudioContext)
    (mapping : List (String × String)) (buffers : List (String × AudioBuffer))
    (trackName fileName : String) (buffer : AudioBuffer) (time velocity tune decay : ℚ)
    (hm : objGet mapping trackName = some fileName) (hf : fileName ≠ "")
    (hb : objGet buffers fileName = some buffer) :
    playSample host pow2 audioContext mapping buffers trackName time velocity tune decay =
      PlayOutcome.customSample fileName
        (playAudioBuffer pow2 audioContext buffer time velocity tune decay) := by
  simp [playSample, objLookup_own _ _ _ hm, hf, objLookup_own _ _ _ hb]

theorem playSample_fallback (host : Host) (pow2 : ℚ → ℚ) (audioContext : Option AudioContext)
    (mapping : List (String × String)) (buffers : List (String × AudioBuffer))
    (trackName : String) (time velocity tune decay : ℚ)
    (hk : trackName ∉ objectPrototypeKeys)
    (hm : objGet mapping trackName = none ∨ objGet mapping trackName = some "" ∨
      ∃ f, objGet mapping trackName = some f ∧ objGet buffers f = none ∧
        f ∉ objectPrototypeKeys) :
    playSample host pow2 audioContext mapping buffers trackName time velocity tune decay =
      playSample.fallback pow2 audioContext trackName time velocity tune decay := by
  rcases hm with hm | hm | ⟨f, hm, hb, hf⟩
  · simp [playSample, objLookup_undefined _ _ hm hk]
  · simp [playSample, objLookup_own _ _ _ hm]
  · by_cases he : f = ""
    · simp [playSample, objLookup_own _ _ _ hm, he]
    · simp [playSample, objLookup_own _ _ _ hm, he, objLookup_undefined _ _ hb hf]

theorem playSample_no_buffer (host : Host) (pow2 : ℚ → ℚ)
    (audioContext : Option AudioContext)
    (mapping : List (String × String)) (buffers : List (String × AudioBuffer))
    (trackName : String) (voice : ℚ → ℚ → ℚ → ℚ → List AudioOp)
    (time velocity tune decay : ℚ)
    (hk : trackName ∉ objectPrototypeKeys)
    (hm : objGet mapping trackName = none ∨
      ∃ f, objGet mapping trackName = some f ∧ objGet buffers f = none ∧
        f ∉ objectPrototypeKeys)
    (hv : objGet (createDrumSounds pow2 audioContext) trackName = some voice) :
    playSample host pow2 audioContext mapping buffers trackName time velocity tune decay =
      PlayOutcome.synthesized trackName (voice time velocity tune decay) := by
  rw [playSample_fallback host pow2 audioContext mapping buffers trackName time velocity tune
    decay hk (by
      rcases hm with hm | hm
      · exact Or.inl hm
      · exact Or.inr (Or.inr hm))]
  simp [playSample.fallback, objLookup_own _ _ _ hv]

theorem library_only_binding {host : Host} (h0 : host.toLowerCase "" = "")
    (hid : ∀ t ∈ trackNames, host.toLowerCase t = t) (ctx : AudioContext)
    (patternFiles : Option (List (String × FileData))) (lib : List (String × FileData))
    (trackName : String) (hm : trackName ∈ trackNames) (hl : (objKeys lib).Nodup)
    (hp : patternFiles.getD [] = []) :
    resolverBinding host (some ctx) (some lib) patternFiles trackName =
      (objKeys lib).find? (fun f => includesLower host f trackName && specDecoded [] lib f) := by
  have hbuf : objSpread ((some lib).getD []) (patternFiles.getD []) = lib := by
    rw [hp]
    rfl
  have hpred : (fun f => includesLower host f trackName && (objGet (loadBuffers lib) f).isSome) =
      (fun f => includesLower host f trackName && specDecoded [] lib f) := by
    funext f
    have := buffers_isSome_eq_specDecoded [] lib (by simp [objKeys]) hl f
    rw [show objSpread lib [] = lib from rfl] at this
    rw [this]
  rw [resolverBinding_eq_assign ctx (some lib) patternFiles trackName hm, hbuf]
  unfold assignSample
  rw [fileTruthy_bind, hp]
  have hf : fileTruthy (objGet ([] : List (String × FileData)) trackName) = false := rfl
  have hs : scanFiles host (loadBuffers lib) trackName (objKeys ([] : List (String × FileData)))
      none = none := rfl
  have hn : strTruthy none = false := rfl
  simp only [hf, hs, hn, Bool.false_eq_true, if_false, Option.getD_some]
  rw [scanFiles_eq_find, hpred]
  cases h2 : (objKeys lib).find?
      (fun f => includesLower host f trackName && specDecoded [] lib f) with
  | some f =>
    have ht := find_includes_truthy h0 hid _ trackName hm _ f h2
    simp only [if_pos ht]
  | none => simp only [hn, Bool.false_eq_true, if_false]

theorem scanFiles_some {host : Host} (buffers : List (String × AudioBuffer)) (trackName : String)
    (keys : List String) (f : String) (h : scanFiles host buffers trackName keys none = some f) :
    includesLower host f trackName = true ∧ (objGet buffers f).isSome = true := by
  rw [scanFiles_eq_find] at h
  have hp := List.find?_some h
  simpa [Bool.and_eq_true] using hp

theorem scanFiles_cases {host : Host} (buffers : List (String × AudioBuffer))
    (trackName : String) (init : Option String) (f : String) :
    ∀ keys : List String, scanFiles host buffers trackName keys init = some f →
      init = some f ∨
        (includesLower host f trackName = true ∧ (objGet buffers f).isSome = true) := by
  intro keys
  induction keys with
  | nil =>
    intro h
    exact Or.inl h
  | cons k rest ih =>
    intro h
    simp only [scanFiles] at h
    by_cases hk : (includesLower host k trackName && (objGet buffers k).isSome) = true
    · rw [if_pos hk] at h
      have hkf : k = f := Option.some.inj h
      rw [← hkf]
      exact Or.inr (by simpa [Bool.and_eq_true] using hk)
    · rw [if_neg hk] at h
      exact ih h
theorem library_match_fresh_trigger {host : Host} (h0 : host.toLowerCase "" = "")
    (hid : ∀ t ∈ trackNames, host.toLowerCase t = t) (pow2 : ℚ → ℚ) (ctx : AudioContext)
    (patternFiles : Option (List (String × FileData))) (lib : List (String × FileData))
    (trackName : String) (time velocity tune decay : ℚ)
    (hm : trackName ∈ trackNames) (hl : (objKeys lib).Nodup)
    (hp : patternFiles.getD [] = []) :
    (∀ f : String, resolverBinding host (some ctx) (some lib) patternFiles trackName = some f →
      includesLower host f trackName = true ∧
      ∃ buffer : AudioBuffer, objGet lib f = some (FileData.file (some buffer)) ∧
        playAfterResolve host pow2 ctx (some lib) patternFiles trackName time velocity tune decay =
          some (PlayOutcome.customSample f
            (playAudioBuffer pow2 (some ctx) buffer time velocity tune decay))) ∧
    (resolverBinding host (some ctx) (some lib) patternFiles trackName = none →
      ∃ voice, objGet (createDrumSounds pow2 (some ctx)) trackName = some voice ∧
        playAfterResolve host pow2 ctx (some lib) patternFiles trackName time velocity tune decay =
          some (PlayOutcome.synthesized trackName (voice time velocity tune decay))) := by
  have hbind := library_only_binding h0 hid ctx patternFiles lib trackName hm hl hp
  have hbuf : objSpread ((some lib).getD []) (patternFiles.getD []) = lib := by
    rw [hp]
    rfl
  refine ⟨?_, ?_⟩
  · intro f hf
    have hfind := hf
    rw [hbind] at hfind
    have hprop := List.find?_some hfind
    simp only [Bool.and_eq_true] at hprop
    have htruthy := find_includes_truthy h0 hid _ trackName hm _ f hfind
    have hne : f ≠ "" := by simpa [strTruthy] using htruthy
    refine ⟨hprop.1, ?_⟩
    have hdec := hprop.2
    unfold specDecoded at hdec
    simp only [objGet] at hdec
    cases hg : objGet lib f with
    | none => simp [hg] at hdec
    | some d =>
      cases d with
      | falsy => simp [hg, FileData.decodes] at hdec
      | noFileMethod => simp [hg, FileData.decodes] at hdec
      | file r =>
        cases r with
        | none => simp [hg, FileData.decodes] at hdec
        | some buffer =>
          refine ⟨buffer, rfl, ?_⟩
          rw [playAfterResolve_eq, hbuf]
          rw [resolverBinding_eq_objGet, hbuf] at hf
          have hb : objGet (loadBuffers lib) f = some buffer := by
            rw [objGet_loadBuffers lib hl f, hg]
          rw [playSample_bound host pow2 (some ctx) _ _ trackName f buffer time velocity tune
            decay hf hne hb]
  · intro hnone
    obtain ⟨voice, hv⟩ := createDrumSounds_has_voice pow2 ctx trackName hm
    refine ⟨voice, hv, ?_⟩
    rw [playAfterResolve_eq, hbuf]
    rw [resolverBinding_eq_objGet, hbuf] at hnone
    rw [playSample_no_buffer host pow2 (some ctx) _ _ trackName voice time velocity tune decay
      (trackName_not_inherited trackName hm) (Or.inl hnone) hv]

theorem testTrigger_resolve (host : Host) (pow2 : ℚ → ℚ) (ctx : AudioContext)
    (libraryFiles patternFiles : Option (List (String × FileData))) (s : Sampler)
    (trackName : String) (time velocity tune decay : ℚ) :
    some ((s.resolve host ctx libraryFiles patternFiles).testTrigger host pow2 ctx trackName
      time velocity tune decay) =
      playAfterResolve host pow2 ctx libraryFiles patternFiles trackName time velocity tune
        decay :=
  rfl

/-- C11: with no pattern-local files the resolver binds an instrument to the first
    library file that decoded and whose name contains the id when case is ignored, and
    leaves it unbound when there is none. A trigger made by the render that follows the
    resolution (`testSample`, the step preview, a timer created afterwards) plays that
    file's buffer, started at the trigger time, or the synthesized voice when the
    instrument is unbound. A timer that was running when the resolution happened keeps
    calling the `playSample` of the render that created it: its triggers are the same
    as before the resolution, whatever the library now holds, until the timer is created
    again. -/
theorem running_timer_keeps_old_mapping (host : Host) (pow2 : ℚ → ℚ) (ctx : AudioContext)
    (s : Sampler) (captured : SampleState)
    (patternFiles : Option (List (String × FileData))) (lib : List (String × FileData))
    (trackName : String) (time velocity tune decay : ℚ)
    (h0 : host.toLowerCase "" = "") (hid : ∀ t ∈ trackNames, host.toLowerCase t = t)
    (hm : trackName ∈ trackNames) (hl : (objKeys lib).Nodup)
    (hp : patternFiles.getD [] = []) (ht : s.timer = some captured) :
    resolverBinding host (some ctx) (some lib) patternFiles trackName =
      (objKeys lib).find? (fun f => specContains host f trackName && specDecoded [] lib f) ∧
    (∀ f : String, resolverBinding host (some ctx) (some lib) patternFiles trackName = some f →
      ∃ buffer : AudioBuffer, objGet lib f = some (FileData.file (some buffer)) ∧
        (s.resolve host ctx (some lib) patternFiles).testTrigger host pow2 ctx trackName time
            velocity tune decay =
          PlayOutcome.customSample f
            (playAudioBuffer pow2 (some ctx) buffer time velocity tune decay) ∧
        AudioOp.setSampleBuffer (node "source") buffer ∈
          playAudioBuffer pow2 (some ctx) buffer time velocity tune decay ∧
        startTime (playAudioBuffer pow2 (some ctx) buffer time velocity tune decay)
          (node "source") = some time) ∧
    (resolverBinding host (some ctx) (some lib) patternFiles trackName = none →
      ∃ voice, objGet (createDrumSounds pow2 (some ctx)) trackName = some voice ∧
        (s.resolve host ctx (some lib) patternFiles).testTrigger host pow2 ctx trackName time
            velocity tune decay =
          PlayOutcome.synthesized trackName (voice time velocity tune decay) ∧
        sourceDurations (voice time velocity tune decay) ≠ []) ∧
    (s.resolve host ctx (some lib) patternFiles).tickTrigger host pow2 ctx trackName time
        velocity tune decay =
      some (playSample host pow2 (some ctx) captured.trackSampleMapping captured.audioBuffers
        trackName time velocity tune decay) ∧
    (s.resolve host ctx (some lib) patternFiles).tickTrigger host pow2 ctx trackName time
        velocity tune decay =
      s.tickTrigger host pow2 ctx trackName time velocity tune decay ∧
    ((s.resolve host ctx (some lib) patternFiles).installTimer).tickTrigger host pow2 ctx
        trackName time velocity tune decay =
      some ((s.resolve host ctx (some lib) patternFiles).testTrigger host pow2 ctx trackName
        time velocity tune decay) := by
  have hfresh := library_match_fresh_trigger h0 hid pow2 ctx patternFiles lib trackName time
    velocity tune decay hm hl hp
  have htest := testTrigger_resolve host pow2 ctx (some lib) patternFiles s trackName time
    velocity tune decay
  have htimer : (s.resolve host ctx (some lib) patternFiles).timer = s.timer := rfl
  refine ⟨?_, ?_, ?_, ?_, ?_, rfl⟩
  · rw [library_only_binding h0 hid ctx patternFiles lib trackName hm hl hp]
    simp only [specContains_eq_includesLower]
  · intro f hf
    obtain ⟨_, buffer, hg, hplay⟩ := hfresh.1 f hf
    rw [← htest] at hplay
    refine ⟨buffer, hg, Option.some.inj hplay, ?_, ?_⟩
    · simp [playAudioBuffer]
    · simp [startTime, playAudioBuffer, List.findSome?]
  · intro hnone
    obtain ⟨voice, hv, hplay⟩ := hfresh.2 hnone
    rw [← htest] at hplay
    exact ⟨voice, hv, Option.some.inj hplay,
      (voice_durations pow2 ctx trackName voice hv time velocity tune decay).1⟩
  · unfold Sampler.tickTrigger
    rw [htimer, ht]
    rfl
  · unfold Sampler.tickTrigger
    rw [htimer]

/-- C11 at the scenario, with the sequencer running: the timer was created while the
    library was empty; then `snare_tight.wav` is added. The snare binds to the file and
    `testSample` plays its buffer, but the firings of the running timer still play the
    synthesized snare. -/
theorem running_timer_keeps_old_mapping_witness :
    resolverBinding asciiHost (some { suspended := false, currentTime := 0 })
      (some snareLibrary) (some []) "snare" = some "snare_tight.wav" ∧
    ((Sampler.initial.installTimer).resolve asciiHost { suspended := false, currentTime := 0 }
        (some snareLibrary) (some [])).testTrigger asciiHost pow2Whole
        { suspended := false, currentTime := 0 } "snare" 0 1 0 50 =
      PlayOutcome.customSample "snare_tight.wav"
        (playAudioBuffer pow2Whole (some { suspended := false, currentTime := 0 })
          { duration := 1 } 0 1 0 50) ∧
    ((Sampler.initial.installTimer).resolve asciiHost { suspended := false, currentTime := 0 }
        (some snareLibrary) (some [])).tickTrigger asciiHost pow2Whole
        { suspended := false, currentTime := 0 } "snare" 0 1 0 50 =
      some (PlayOutcome.synthesized "snare" (createDrumSounds.snare pow2Whole 0 1 0 50)) ∧
    sourceDurations (createDrumSounds.snare pow2Whole 0 1 0 50) =
      [(node "noise", 3 / 20), (node "osc", 3 / 10)] ∧
    resolverBinding asciiHost (some { suspended := false, currentTime := 0 })
      (some []) (some []) "snare" = none ∧
    ((((Sampler.initial.resolve asciiHost { suspended := false, currentTime := 0 }
        (some snareLibrary) (some [])).installTimer).resolve asciiHost
        { suspended := false, currentTime := 0 } (some []) (some [])).tickTrigger asciiHost
        pow2Whole { suspended := false, currentTime := 0 } "snare" 0 1 0 50 =
      some (PlayOutcome.customSample "snare_tight.wav"
        (playAudioBuffer pow2Whole (some { suspended := false, currentTime := 0 })
          { duration := 1 } 0 1 0 50))) := by
  have h := running_timer_keeps_old_mapping asciiHost pow2Whole
    { suspended := false, currentTime := 0 } Sampler.initial.installTimer
    { audioBuffers := [], trackSampleMapping := [] } (some []) snareLibrary "snare" 0 1 0 50
    rfl (by decide) (by decide) (by decide) rfl rfl
  have hb : resolverBinding asciiHost (some { suspended := false, currentTime := 0 })
      (some snareLibrary) (some []) "snare" = some "snare_tight.wav" := by
    rw [h.1]
    decide
  refine ⟨hb, ?_, ?_, ?_, by decide, ?_⟩
  · obtain ⟨buffer, hg, hplay, _⟩ := h.2.1 "snare_tight.wav" hb
    have hbuf : buffer = { duration := 1 } := by
      simp [snareLibrary, objGet] at hg
      exact hg.symm
    rw [hplay, hbuf]
  · rw [h.2.2.2.1]
    rfl
  · rw [sourceDurations_snare]
    norm_num
  · have hcap : (Sampler.initial.resolve asciiHost { suspended := false, currentTime := 0 }
        (some snareLibrary) (some [])).installTimer.timer =
        some { audioBuffers := [("snare_tight.wav", { duration := 1 })],
               trackSampleMapping := [("snare", "snare_tight.wav")] } := by
      decide
    have h2 := running_timer_keeps_old_mapping asciiHost pow2Whole
      { suspended := false, currentTime := 0 }
      (Sampler.initial.resolve asciiHost { suspended := false, currentTime := 0 }
        (some snareLibrary) (some [])).installTimer
      { audioBuffers := [("snare_tight.wav", { duration := 1 })],
        trackSampleMapping := [("snare", "snare_tight.wav")] } (some []) [] "snare" 0 1 0 50
      rfl (by decide) (by decide) (by decide) rfl hcap
    rw [h2.2.2.2.1]
    rw [playSample_bound asciiHost pow2Whole (some { suspended := false, currentTime := 0 })
      [("snare", "snare_tight.wav")] [("snare_tight.wav", { duration := 1 })] "snare"
      "snare_tight.wav" { duration := 1 } 0 1 0 50 rfl (by decide) rfl]

/-- C12, as stated, fails: a file attached under the id `kick` whose decode fails is
    still bound to `kick` although the buffer cache has no key `kick` (its only key is
    the library's `kick_alt.wav`); a trigger then plays the synthesized kick. -/
theorem failed_attachment_still_bound :
    resolverBinding asciiHost (some { suspended := false, currentTime := 0 })
      (some demoLibraryFiles)
      (some failedKickFiles) "kick" = some "kick" ∧
    objGet (loadBuffers (objSpread demoLibraryFiles failedKickFiles)) "kick" = none ∧
    objKeys (loadBuffers (objSpread demoLibraryFiles failedKickFiles)) = ["kick_alt.wav"] ∧
    playAfterResolve asciiHost pow2Whole { suspended := false, currentTime := 0 }
      (some demoLibraryFiles) (some failedKickFiles) "kick" 0 1 0 50 =
      some (PlayOutcome.synthesized "kick" (createDrumSounds.kick pow2Whole 0 1 0 50)) := by
  have hb : resolverBinding asciiHost (some { suspended := false, currentTime := 0 })
      (some demoLibraryFiles) (some failedKickFiles) "kick" = some "kick" := by
    rw [resolverBinding_eq_assign _ _ _ _ (by decide)]
    decide
  have hnone : objGet (loadBuffers (objSpread demoLibraryFiles failedKickFiles)) "kick" =
      none := by
    simp [loadBuffers, objSpread, demoLibraryFiles, failedKickFiles, objSet, objGet]
  refine ⟨hb, hnone, ?_, ?_⟩
  · simp [loadBuffers, objSpread, demoLibraryFiles, failedKickFiles, objSet, objKeys]
  · rw [playAfterResolve_eq]
    rw [resolverBinding_eq_objGet] at hb
    simp only [Option.getD_some] at hb ⊢
    rw [playSample_no_buffer asciiHost pow2Whole (some { suspended := false, currentTime := 0 })
      _ _ "kick" (createDrumSounds.kick pow2Whole) 0 1 0 50 (by decide)
      (Or.inr ⟨"kick", hb, hnone, by decide⟩) (kick_is_voice _ _)]

/-- C12, amended: a binding made by a substring match (rules b and c) always names a
    key of the decoded buffer cache, and every key of the cache is a source that
    decoded; an exact attachment (rule a) binds the instrument to its own id whether or
    not that file decoded. A trigger plays the bound sample when the cache holds its
    buffer and the synthesized voice when it does not, so failed decodes never play. -/
theorem binding_has_buffer_unless_attached (host : Host) (pow2 : ℚ → ℚ) (ctx : AudioContext)
    (patternFiles libraryFiles : Option (List (String × FileData)))
    (trackName f : String) (time velocity tune decay : ℚ)
    (hm : trackName ∈ trackNames)
    (hb : resolverBinding host (some ctx) libraryFiles patternFiles trackName = some f) :
    (fileTruthy (objGet (patternFiles.getD []) trackName) = true → f = trackName) ∧
    (fileTruthy (objGet (patternFiles.getD []) trackName) = false →
      (objGet (loadBuffers (objSpread (libraryFiles.getD []) (patternFiles.getD []))) f).isSome
        = true) ∧
    (∀ buffer : AudioBuffer,
      objGet (loadBuffers (objSpread (libraryFiles.getD []) (patternFiles.getD []))) f =
        some buffer →
      playAfterResolve host pow2 ctx libraryFiles patternFiles trackName time velocity tune decay =
        some (PlayOutcome.customSample f
          (playAudioBuffer pow2 (some ctx) buffer time velocity tune decay))) ∧
    (objGet (loadBuffers (objSpread (libraryFiles.getD []) (patternFiles.getD []))) f = none →
      ∃ voice, objGet (createDrumSounds pow2 (some ctx)) trackName = some voice ∧
        playAfterResolve host pow2 ctx libraryFiles patternFiles trackName
          time velocity tune decay =
          some (PlayOutcome.synthesized trackName (voice time velocity tune decay))) ∧
    ((objKeys (patternFiles.getD [])).Nodup → (objKeys (libraryFiles.getD [])).Nodup →
      ∀ key : String,
        (objGet (loadBuffers (objSpread (libraryFiles.getD []) (patternFiles.getD [])))
          key).isSome = specDecoded (patternFiles.getD []) (libraryFiles.getD []) key) := by
  have hassign := @resolverBinding_eq_assign host ctx libraryFiles patternFiles trackName hm
  rw [hb] at hassign
  have htruthy : strTruthy (assignSample host patternFiles libraryFiles
      (loadBuffers (objSpread (libraryFiles.getD []) (patternFiles.getD []))) trackName) =
      true := by
    by_contra hc
    rw [if_neg hc] at hassign
    exact absurd hassign (by simp)
  rw [if_pos htruthy] at hassign
  have hne : f ≠ "" := by
    rw [← hassign] at htruthy
    simpa [strTruthy] using htruthy
  have hobj := hb
  rw [resolverBinding_eq_objGet] at hobj
  have hrule_a : fileTruthy (objGet (patternFiles.getD []) trackName) = true →
      f = trackName := by
    intro ha
    unfold assignSample at hassign
    rw [fileTruthy_bind, if_pos ha] at hassign
    exact Option.some.inj hassign
  have hrule_bc : fileTruthy (objGet (patternFiles.getD []) trackName) = false →
      (objGet (loadBuffers (objSpread (libraryFiles.getD []) (patternFiles.getD []))) f).isSome
        = true := by
    intro ha
    unfold assignSample at hassign
    rw [fileTruthy_bind, ha] at hassign
    simp only [Bool.false_eq_true, if_false] at hassign
    by_cases h1 : strTruthy (scanFiles host
        (loadBuffers (objSpread (libraryFiles.getD []) (patternFiles.getD []))) trackName
        (objKeys (patternFiles.getD [])) none) = true
    · rw [if_pos h1] at hassign
      exact (scanFiles_some _ trackName _ f hassign.symm).2
    · rw [if_neg h1] at hassign
      cases h2 : scanFiles host
          (loadBuffers (objSpread (libraryFiles.getD []) (patternFiles.getD []))) trackName
          (objKeys (patternFiles.getD [])) none with
      | none =>
        rw [h2] at hassign
        exact (scanFiles_some _ trackName _ f hassign.symm).2
      | some g =>
        rw [h2] at hassign h1
        rcases scanFiles_cases _ trackName (some g) f _ hassign.symm with hc | hc
        · have hgf : g = f := Option.some.inj hc
          rw [hgf] at h1
          exact absurd (by simpa [strTruthy] using hne) h1
        · exact hc.2
  refine ⟨hrule_a, hrule_bc, ?_, ?_, ?_⟩
  · intro buffer hbuf
    rw [playAfterResolve_eq]
    rw [playSample_bound host pow2 (some ctx) _ _ trackName f buffer time velocity tune decay
      hobj hne hbuf]
  · intro hnone
    obtain ⟨voice, hv⟩ := createDrumSounds_has_voice pow2 ctx trackName hm
    refine ⟨voice, hv, ?_⟩
    have hft : f = trackName := by
      by_cases ha : fileTruthy (objGet (patternFiles.getD []) trackName) = true
      · exact hrule_a ha
      · have hsome := hrule_bc (by simpa using ha)
        rw [hnone] at hsome
        exact absurd hsome (by simp)
    rw [playAfterResolve_eq]
    rw [playSample_no_buffer host pow2 (some ctx) _ _ trackName voice time velocity tune decay
      (trackName_not_inherited trackName hm)
      (Or.inr ⟨f, hobj, hnone, by rw [hft]; exact trackName_not_inherited trackName hm⟩) hv]
  · intro hp hl key
    exact buffers_isSome_eq_specDecoded _ _ hp hl key

/-- C12 amended, at concrete files: `kick` is bound by substring match to `KICK2.wav`,
    whose buffer is in the cache, so a trigger plays that buffer. -/
theorem binding_has_buffer_unless_attached_witness :
    resolverBinding asciiHost (some { suspended := false, currentTime := 0 })
      (some demoLibraryFiles)
      (some demoPatternFiles) "kick" = some "KICK2.wav" ∧
    (objGet (loadBuffers (objSpread demoLibraryFiles demoPatternFiles)) "KICK2.wav").isSome =
      true := by
  have hb : resolverBinding asciiHost (some { suspended := false, currentTime := 0 })
      (some demoLibraryFiles) (some demoPatternFiles) "kick" = some "KICK2.wav" := by
    rw [resolverBinding_eq_assign _ _ _ _ (by decide)]
    decide
  have h := binding_has_buffer_unless_attached asciiHost pow2Whole
    { suspended := false, currentTime := 0 } (some demoPatternFiles) (some demoLibraryFiles)
    "kick" "KICK2.wav" 0 1 0 50 (by decide) hb
  exact ⟨hb, h.2.1 (by decide)⟩

theorem createMapping_unknown {host : Host}
    (patternFiles libraryFiles : Option (List (String × FileData)))
    (buffers : List (String × AudioBuffer)) (trackName : String)
    (h : trackName ∉ trackNames) :
    objGet (createMapping host patternFiles libraryFiles buffers) trackName = none := by
  have key := objGet_foldl_mapping
    (fun t => assignSample host patternFiles libraryFiles buffers t) trackNames [] (by decide)
    trackName
  unfold createMapping
  simp only at key ⊢
  rw [key, if_neg (fun hc => h hc.1)]
  rfl

theorem playSample_unbound (host : Host) (pow2 : ℚ → ℚ) (audioContext : Option AudioContext)
    (mapping : List (String × String)) (buffers : List (String × AudioBuffer))
    (trackName : String) (time velocity tune decay : ℚ)
    (hunbound :
      (objGet mapping trackName = none ∧
        (trackName ∈ objectPrototypeKeys →
          objGet buffers (inheritedText host trackName) = none ∧
            inheritedText host trackName ∉ objectPrototypeKeys)) ∨
      objGet mapping trackName = some "" ∨
      ∃ f, objGet mapping trackName = some f ∧ objGet buffers f = none ∧
        f ∉ objectPrototypeKeys) :
    playSample host pow2 audioContext mapping buffers trackName time velocity tune decay =
      playSample.fallback pow2 audioContext trackName time velocity tune decay := by
  rcases hunbound with ⟨hm, hi⟩ | hm | ⟨f, hm, hb, hf⟩
  · by_cases hk : trackName ∈ objectPrototypeKeys
    · obtain ⟨hb, hn⟩ := hi hk
      simp [playSample, objLookup_inherited _ _ hm hk, objLookup_undefined _ _ hb hn]
    · simp [playSample, objLookup_undefined _ _ hm hk]
  · simp [playSample, objLookup_own _ _ _ hm]
  · by_cases he : f = ""
    · simp [playSample, objLookup_own _ _ _ hm, he]
    · simp [playSample, objLookup_own _ _ _ hm, he, objLookup_undefined _ _ hb hf]

/-- C22: for an id that is not one of the 8 voice ids and has no bound sample,
    `playSample` reaches the lookup `sounds[trackName]`. When the id is no property name
    of `Object.prototype` it finds nothing and only warns: no sample, no voice, no
    error. When the id is `__proto__`, `__defineGetter__` or `__defineSetter__` the
    inherited value is called and a `TypeError` leaves `playSample`; for the other
    inherited names an inherited method is called, without sound and without the
    warning. The resolver never binds an id outside the 8. -/
theorem unknown_id_trigger_outcomes (host : Host) (pow2 : ℚ → ℚ)
    (audioContext : Option AudioContext)
    (trackSampleMapping : List (String × String)) (audioBuffers : List (String × AudioBuffer))
    (trackName : String) (time velocity tune decay : ℚ)
    (hid : trackName ∉ trackNames)
    (hunbound :
      (objGet trackSampleMapping trackName = none ∧
        (trackName ∈ objectPrototypeKeys →
          objGet audioBuffers (inheritedText host trackName) = none ∧
            inheritedText host trackName ∉ objectPrototypeKeys)) ∨
      objGet trackSampleMapping trackName = some "" ∨
      ∃ f, objGet trackSampleMapping trackName = some f ∧ objGet audioBuffers f = none ∧
        f ∉ objectPrototypeKeys) :
    (trackName ∉ objectPrototypeKeys →
      playSample host pow2 audioContext trackSampleMapping audioBuffers trackName time velocity
        tune decay = PlayOutcome.noSound trackName) ∧
    (trackName ∈ ["__proto__", "__defineGetter__", "__defineSetter__"] →
      playSample host pow2 audioContext trackSampleMapping audioBuffers trackName time velocity
        tune decay = PlayOutcome.typeError trackName) ∧
    (trackName ∈ objectPrototypeKeys →
      trackName ∉ ["__proto__", "__defineGetter__", "__defineSetter__"] →
      playSample host pow2 audioContext trackSampleMapping audioBuffers trackName time velocity
        tune decay = PlayOutcome.inheritedCall trackName) ∧
    (∀ (ctx : AudioContext) (libraryFiles patternFiles : Option (List (String × FileData))),
      resolverBinding host (some ctx) libraryFiles patternFiles trackName = none) := by
  have hv := createDrumSounds_no_voice pow2 audioContext trackName hid
  have hfb := playSample_unbound host pow2 audioContext trackSampleMapping audioBuffers
    trackName time velocity tune decay hunbound
  refine ⟨?_, ?_, ?_, ?_⟩
  · intro hk
    rw [hfb]
    simp [playSample.fallback, objLookup_undefined _ _ hv hk]
  · intro hk
    have hsub : ∀ k ∈ ["__proto__", "__defineGetter__", "__defineSetter__"],
        k ∈ objectPrototypeKeys := by decide
    have hp : trackName ∈ objectPrototypeKeys := hsub trackName hk
    rw [hfb]
    simp only [playSample.fallback, objLookup_inherited _ _ hv hp]
    rw [if_pos hk]
  · intro hp hk
    rw [hfb]
    simp only [playSample.fallback, objLookup_inherited _ _ hv hp]
    rw [if_neg hk]
  · intro ctx libraryFiles patternFiles
    rw [resolverBinding_eq_objGet]
    exact createMapping_unknown patternFiles libraryFiles _ trackName hid

/-- C22 at the id `tom`, which only warns, and at the id `__proto__`, whose trigger
    throws: neither is one of the 8 voice ids, and the mapping and the cache are
    empty. -/
theorem unknown_id_trigger_outcomes_witness :
    "tom" ∉ trackNames ∧ "__proto__" ∉ trackNames ∧
    playSample asciiHost pow2Whole (some { suspended := false, currentTime := 0 }) [] [] "tom"
      0 1 0 50 = PlayOutcome.noSound "tom" ∧
    playSample asciiHost pow2Whole (some { suspended := false, currentTime := 0 }) [] []
      "__proto__" 0 1 0 50 = PlayOutcome.typeError "__proto__" :=
  ⟨by decide, by decide,
   (unknown_id_trigger_outcomes asciiHost pow2Whole
      (some { suspended := false, currentTime := 0 }) [] [] "tom" 0 1 0 50 (by decide)
      (Or.inl ⟨rfl, fun h => absurd h (by decide)⟩)).1 (by decide),
   (unknown_id_trigger_outcomes asciiHost pow2Whole
      (some { suspended := false, currentTime := 0 }) [] [] "__proto__" 0 1 0 50 (by decide)
      (Or.inl ⟨rfl, fun _ => ⟨rfl, by decide⟩⟩)).2.1 (by decide)⟩

end DrumMachine
